import Mathlib

/-!
# djoemo: a shallow embedding of the repository facade

The Go package wraps the `guregu/dynamo` driver.  The embedding keeps the
driver at the boundary: every terminal driver call (`OneWithContext`,
`AllWithContext`, `RunWithContext`, `Run`, `ValueWithContext`) is answered by an
oracle stored in the repository, and is written to a call trace together with
every log line and every `Record` call.  Operations are state passing functions
on a `World` (clock readings and the call trace).
-/

namespace Djoemo

/-! ## Go values, errors, reflection -/

/-- Go `error` values that can reach the facade.  The seven `Err...` sentinels are
the package level error variables, `dynamoErrNotFound` is `dynamo.ErrNotFound`,
`awsErr` is a value whose dynamic type implements `awserr.Error`, `errorsNew` is
a plain `errors.New` value and `wrap` an error that wraps another one. -/
inductive GoError where
  | ErrInvalidTableName
  | ErrInvalidHashKeyName
  | ErrInvalidHashKeyValue
  | ErrInvalidPointerSliceType
  | ErrInvalidSliceType
  | ErrInvalidBatchRequest
  | ErrNoItemFound
  | dynamoErrNotFound
  | awsErr (code : String) (message : String)
  | errorsNew (message : String)
  | wrap (message : String) (inner : GoError)
  deriving DecidableEq, Repr

/-- Go `errors.Is(err, target)`: walks the chain of wrapped errors. -/
def errorsIs : GoError → GoError → Bool
  | GoError.wrap m inner, target =>
    decide (GoError.wrap m inner = target) || errorsIs inner target
  | e, target => decide (e = target)

/-- The AWS error code `dynamodb.ErrCodeConditionalCheckFailedException`. -/
def ErrCodeConditionalCheckFailedException : String := "ConditionalCheckFailedException"

/-- The type assertion `err.(awserr.Error)` followed by `Code()`: the code of the
error when its dynamic type is an AWS error, nothing otherwise. -/
def awserrCode : GoError → Option String
  | GoError.awsErr code _ => some code
  | _ => none

/-- Timestamps of the model capability, `0` is the zero time. -/
abbrev DjoemoTime := Int

/-- Modelled from the spec: the embedded `djoemo.Model` struct (its file is not
among the sources): an integer version and the created/updated timestamps. -/
structure Model where
  Version : Nat
  CreatedAt : DjoemoTime
  UpdatedAt : DjoemoTime
  deriving DecidableEq, Repr

/-- Values that travel through `interface{}` parameters.  `model m fields` is a
pointer to a struct that embeds `djoemo.Model` (so it implements
`ModelInterface`); `ptr v` is a non-nil pointer to `v`; `nil` is the nil
interface. -/
inductive GoValue where
  | nil
  | bool (b : Bool)
  | int (n : Int)
  | str (s : String)
  | slice (elems : List GoValue)
  | array (elems : List GoValue)
  | map (entries : List (String × GoValue))
  | struct (fields : List (String × GoValue))
  | model (m : Model) (fields : List (String × GoValue))
  | ptr (target : GoValue)
  | nilPtr

/-- The `reflect.Kind` values the code distinguishes. -/
inductive Kind where
  | Invalid | Bool | Int | String | Slice | Array | Map | Struct | Ptr
  deriving DecidableEq, Repr

/-- Go `reflect.ValueOf(v).Kind()`. -/
def GoValue.Kind : GoValue → Kind
  | GoValue.nil => Kind.Invalid
  | GoValue.bool _ => Kind.Bool
  | GoValue.int _ => Kind.Int
  | GoValue.str _ => Kind.String
  | GoValue.slice _ => Kind.Slice
  | GoValue.array _ => Kind.Array
  | GoValue.map _ => Kind.Map
  | GoValue.struct _ => Kind.Struct
  | GoValue.model _ _ => Kind.Ptr
  | GoValue.ptr _ => Kind.Ptr
  | GoValue.nilPtr => Kind.Ptr

/-- Go `reflect.Value.Elem()` on a pointer: the pointee, or the invalid value for a
nil pointer. -/
def GoValue.Elem : GoValue → GoValue
  | GoValue.ptr target => target
  | GoValue.model _ fields => GoValue.struct fields
  | _ => GoValue.nil

/-- Go `reflect.Value.Len()` on a slice or an array. -/
def GoValue.Len : GoValue → Nat
  | GoValue.slice elems => elems.length
  | GoValue.array elems => elems.length
  | _ => 0

/-- Modelled from the spec: `InterfaceToArrayOfInterface` (reflect helper, not among
the sources): a slice is converted element by element, anything else fails with
`ErrInvalidSliceType` and a nil result. -/
def InterfaceToArrayOfInterface (args : GoValue) : List GoValue × Option GoError :=
  match args with
  | GoValue.slice elems => (elems, none)
  | _ => ([], some GoError.ErrInvalidSliceType)

/-- Modelled from the spec: `IsPointerOFSlice` (reflect helper, not among the
sources): the value is a pointer whose pointee is a slice. -/
def IsPointerOFSlice (item : GoValue) : Bool :=
  match item with
  | GoValue.ptr (GoValue.slice _) => true
  | _ => false

/-- Modelled from the spec: `valueFromPtr` (helper, not among the sources): the
pointee, or the zero value for a nil pointer. -/
def valueFromPtr (p : Option Int) : Int :=
  match p with
  | some v => v
  | none => 0

/-! ## Keys and queries -/

/-- The data behind `KeyInterface`: `HashKeyName` and `RangeKeyName` are `*string`
(`none` is the nil pointer), `HashKey` and `RangeKey` are `interface{}`. -/
structure Key where
  TableName : String
  HashKeyName : Option String
  HashKey : GoValue
  RangeKeyName : Option String
  RangeKey : GoValue

/-- Range operators of `dynamo.Operator`. -/
inductive Operator where
  | Equal | NotEqual | Less | LessOrEqual | Greater | GreaterOrEqual | BeginsWith | Between
  deriving DecidableEq, Repr

/-- The data behind `QueryInterface`: a key plus operator, limit (`*int64`) and order. -/
structure Query extends Key where
  RangeOp : Operator
  Limit : Option Int
  Descending : Bool

/-- Go `v == nil` for an interface value. -/
def GoValue.isNil : GoValue → Bool
  | GoValue.nil => true
  | _ => false

/-- Modelled from the spec: `isValidTableName` (validation file is not among the
sources): fails with `ErrInvalidTableName` when the table name is empty. -/
def isValidTableName (key : Key) : Option GoError :=
  if key.TableName = "" then some GoError.ErrInvalidTableName else none

/-- Modelled from the spec: `isValidKey` (validation file is not among the
sources): `ErrInvalidTableName` if the table name is empty, `ErrInvalidHashKeyName`
if the hash key name is missing or empty, `ErrInvalidHashKeyValue` if the hash key
value is nil, otherwise no error. -/
def isValidKey (key : Key) : Option GoError :=
  match isValidTableName key with
  | some err => some err
  | none =>
    if key.HashKeyName = none ∨ key.HashKeyName = some "" then some GoError.ErrInvalidHashKeyName
    else if key.HashKey.isNil then some GoError.ErrInvalidHashKeyValue
    else none

/-! ## The driver boundary (`guregu/dynamo` request builders) -/

/-- Update expression kinds.  The Go type is a string type, so values other than the
five named constants exist; they are `other`. -/
inductive UpdateExpression where
  | Add | Set | SetSet | SetIfNotExists | SetExpr
  | other (raw : String)
  deriving DecidableEq, Repr

/-- Go `UpdateExpressions`: a map from expression kind to a map from attribute
expression to value.  Maps are lists of entries in iteration order. -/
abbrev UpdateExpressions := List (UpdateExpression × List (String × GoValue))

namespace dynamo

/-- Go `dynamo.Table`: a table handle, identified by its name. -/
structure Table where
  name : String

/-- The range condition of a `dynamo.Query`. -/
structure RangeCondition where
  name : String
  op : Operator
  value : GoValue

/-- Go `dynamo.Query` as built by `Table.Get` and its builder methods. -/
structure Query where
  table : String
  hashKey : String
  hashValue : GoValue
  range : Option RangeCondition
  index : Option String
  limit : Option Int
  descending : Bool

/-- Go `Table.Get(name, value)`. -/
def Table.Get (table : Table) (name : String) (value : GoValue) : Query :=
  { table := table.name, hashKey := name, hashValue := value, range := none, index := none,
    limit := none, descending := false }

/-- Go `Query.Range(name, op, value)`. -/
def Query.Range (q : Query) (name : String) (op : Operator) (value : GoValue) : Query :=
  { q with range := some { name := name, op := op, value := value } }

/-- Go `Query.Index(name)`. -/
def Query.Index (q : Query) (name : String) : Query :=
  { q with index := some name }

/-- Go `Query.Limit(limit)`. -/
def Query.Limit (q : Query) (limit : Int) : Query :=
  { q with limit := some limit }

/-- Go `Query.Order(dynamo.Descending)`. -/
def Query.OrderDescending (q : Query) : Query :=
  { q with descending := true }

/-- A condition attached with `If(expression, args...)`. -/
structure Condition where
  expression : String
  args : List GoValue

/-- Go `dynamo.Put` as built by `Table.Put(item)` and `If`. -/
structure Put where
  table : String
  item : GoValue
  conditions : List Condition

/-- Go `Table.Put(item)`. -/
def Table.Put (table : Table) (item : GoValue) : Put :=
  { table := table.name, item := item, conditions := [] }

/-- Go `Put.If(expression, args...)`. -/
def Put.If (p : Put) (expression : String) (args : List GoValue) : Put :=
  { p with conditions := p.conditions ++ [{ expression := expression, args := args }] }

/-- One attribute operation of a `dynamo.Update`. -/
inductive UpdateOp where
  | Add (path : String) (value : GoValue)
  | Set (path : String) (value : GoValue)
  | SetSet (path : String) (value : GoValue)
  | SetIfNotExists (path : String) (value : GoValue)
  | SetExpr (expr : String) (args : List GoValue)

/-- Go `dynamo.Update` as built by `Table.Update` and its builder methods. -/
structure Update where
  table : String
  hashKey : String
  hashValue : GoValue
  range : Option (String × GoValue)
  ops : List UpdateOp
  conditions : List Condition

/-- Go `Table.Update(hashKey, value)`. -/
def Table.Update (table : Table) (hashKey : String) (value : GoValue) : Update :=
  { table := table.name, hashKey := hashKey, hashValue := value, range := none, ops := [],
    conditions := [] }

/-- Go `Update.Range(name, value)`. -/
def Update.Range (u : Update) (name : String) (value : GoValue) : Update :=
  { u with range := some (name, value) }

/-- Go `Update.Add(path, value)`. -/
def Update.Add (u : Update) (path : String) (value : GoValue) : Update :=
  { u with ops := u.ops ++ [UpdateOp.Add path value] }

/-- Go `Update.Set(path, value)`. -/
def Update.Set (u : Update) (path : String) (value : GoValue) : Update :=
  { u with ops := u.ops ++ [UpdateOp.Set path value] }

/-- Go `Update.SetSet(path, value)`. -/
def Update.SetSet (u : Update) (path : String) (value : GoValue) : Update :=
  { u with ops := u.ops ++ [UpdateOp.SetSet path value] }

/-- Go `Update.SetIfNotExists(path, value)`. -/
def Update.SetIfNotExists (u : Update) (path : String) (value : GoValue) : Update :=
  { u with ops := u.ops ++ [UpdateOp.SetIfNotExists path value] }

/-- Go `Update.SetExpr(expr, args...)`. -/
def Update.SetExpr (u : Update) (expr : String) (args : List GoValue) : Update :=
  { u with ops := u.ops ++ [UpdateOp.SetExpr expr args] }

/-- Go `Update.If(expression, args...)`. -/
def Update.If (u : Update) (expression : String) (args : List GoValue) : Update :=
  { u with conditions := u.conditions ++ [{ expression := expression, args := args }] }

/-- Go `dynamo.Delete` as built by `Table.Delete` and `Range`. -/
structure Delete where
  table : String
  hashKey : String
  hashValue : GoValue
  range : Option (String × GoValue)

/-- Go `Table.Delete(name, value)`. -/
def Table.Delete (table : Table) (name : String) (value : GoValue) : Delete :=
  { table := table.name, hashKey := name, hashValue := value, range := none }

/-- Go `Delete.Range(name, value)`. -/
def Delete.Range (d : Delete) (name : String) (value : GoValue) : Delete :=
  { d with range := some (name, value) }

/-- Go `dynamo.Batch` as built by `Table.Batch(hashKey)` or
`Table.Batch(hashKey, rangeKey)`. -/
structure Batch where
  table : String
  hashKey : String
  rangeKey : Option String

/-- Go `Table.Batch(hashAndRangeKeyName...)`. -/
def Table.Batch (table : Table) (hashKey : String) (rangeKey : Option String) : Batch :=
  { table := table.name, hashKey := hashKey, rangeKey := rangeKey }

/-- Go `dynamo.Scan` as built by `Table.Scan()` and `SearchLimit`. -/
structure Scan where
  table : String
  searchLimit : Option Int

/-- Go `Table.Scan()`. -/
def Table.Scan (table : Table) : Scan :=
  { table := table.name, searchLimit := none }

/-- Go `Scan.SearchLimit(limit)`. -/
def Scan.SearchLimit (scan : Scan) (limit : Int) : Scan :=
  { scan with searchLimit := some limit }

end dynamo

/-- The terminal driver calls the facade issues. -/
inductive DriverCall where
  | QueryOne (q : dynamo.Query)
  | QueryAll (q : dynamo.Query)
  | PutRun (p : dynamo.Put)
  | UpdateRun (u : dynamo.Update)
  | UpdateValue (u : dynamo.Update)
  | DeleteRun (d : dynamo.Delete)
  | BatchWritePut (b : dynamo.Batch) (items : List GoValue)
  | BatchWriteDelete (b : dynamo.Batch) (keys : List Key)
  | BatchGetAll (b : dynamo.Batch) (keys : List Key)

/-- Go `*dynamo.DB` seen from the facade: an oracle that answers every terminal call.
`run` answers calls without output, `fetch` answers calls that decode into a
destination and returns the destination as the driver left it. -/
structure DB where
  run : DriverCall → Option GoError
  fetch : DriverCall → GoValue → Option GoError × GoValue

/-! ## World, trace, metrics -/

/-- Go `context.Context` as far as the facade looks at it: the custom metric labels
(`none` when no label was ever attached). -/
structure Context where
  labels : Option (List (String × String))

/-- Log messages the facade writes with `Info`: `ErrNoItemFound.Error()` and the
conditional check failed code. -/
inductive LogMessage where
  | NoItemFound
  | ConditionalCheckFailed
  deriving DecidableEq, Repr

/-- Everything the facade does to its collaborators, in call order. -/
inductive Event where
  | driver (call : DriverCall)
  | logInfo (ctx : Context) (tableName : String) (message : LogMessage)
  | metricsRecord (ctx : Context) (caller : String) (key : Key) (duration : Int) (success : Bool)
  | sinkRecord (sink : Nat) (ctx : Context) (caller : String) (key : Key) (duration : Int)
      (success : Bool)

/-- The outside world of one call: `clock n` is the reading of the n-th `time.Now()`,
`Now n` the reading of `djoemo.Now()` taken at tick `n`; `ticks` counts the
readings taken so far and `trace` lists the events so far, oldest first. -/
structure World where
  clock : Nat → Int
  Now : Nat → DjoemoTime
  ticks : Nat
  trace : List Event

/-- Append one event to the trace. -/
def World.emit (w : World) (e : Event) : World :=
  { w with trace := w.trace ++ [e] }

/-- Go `time.Now()`. -/
def timeNow (w : World) : Int × World :=
  (w.clock w.ticks, { w with ticks := w.ticks + 1 })

/-- Go `djoemo.Now()`. -/
def Now (w : World) : DjoemoTime × World :=
  (w.Now w.ticks, { w with ticks := w.ticks + 1 })

/-- Operation names used as the `caller` of a metrics record. -/
def OpCommit : String := "commit"

/-- Operation name of updates. -/
def OpUpdate : String := "update"

/-- Operation name of reads. -/
def OpRead : String := "read"

/-- Operation name of deletes. -/
def OpDelete : String := "delete"

/-- Go `Metrics`: the registered sinks, each identified by a number. -/
structure Metrics where
  metrics : List Nat

/-- Go `Metrics.Add`. -/
def Metrics.Add (m : Metrics) (metric : Nat) : Metrics :=
  { metrics := m.metrics ++ [metric] }

/-- Go `Metrics.Record`: the call itself is traced as `metricsRecord`, then every
registered sink is called in order. -/
def Metrics.Record (m : Metrics) (ctx : Context) (caller : String) (key : Key) (duration : Int)
    (success : Bool) (w : World) : World :=
  m.metrics.foldl (fun w metric => w.emit (Event.sinkRecord metric ctx caller key duration success))
    (w.emit (Event.metricsRecord ctx caller key duration success))

/-- Go `isOpSuccess(err *error)`: the outer `none` is a nil pointer, the inner one a
nil error. -/
def isOpSuccess (err : Option (Option GoError)) : Bool :=
  match err with
  | none => true
  | some none => true
  | some (some e) => errorsIs e GoError.dynamoErrNotFound

/-- The state in which a function body returns: its return values, the value the
local variable `err` holds at that moment (the deferred recorder reads it through
its pointer) and the world. -/
structure Exit (α : Type) where
  ret : α
  err : Option GoError
  world : World

/-- Run a deferred recorder at function exit. -/
def Exit.runDeferred {α : Type} (x : Exit α) (deferred : Option (Option GoError) → World → World) :
    α × World :=
  (x.ret, deferred (some x.err) x.world)

/-- The `Info` line with the table name field that follows a translated signal. -/
def logInfo (ctx : Context) (tableName : String) (message : LogMessage) (w : World) : World :=
  w.emit (Event.logInfo ctx tableName message)

/-- Dereference of a `*string` the code has checked to be non-nil. -/
def deref (p : Option String) : String :=
  match p with
  | some s => s
  | none => ""

/-- Go `Query.OneWithContext(ctx, item)`. -/
def dynamo.Query.OneWithContext (q : dynamo.Query) (db : DB) (item : GoValue) (w : World) :
    Option GoError × GoValue × World :=
  ((db.fetch (DriverCall.QueryOne q) item).1, (db.fetch (DriverCall.QueryOne q) item).2,
    w.emit (Event.driver (DriverCall.QueryOne q)))

/-- Go `Query.AllWithContext(ctx, items)`. -/
def dynamo.Query.AllWithContext (q : dynamo.Query) (db : DB) (items : GoValue) (w : World) :
    Option GoError × GoValue × World :=
  ((db.fetch (DriverCall.QueryAll q) items).1, (db.fetch (DriverCall.QueryAll q) items).2,
    w.emit (Event.driver (DriverCall.QueryAll q)))

/-- Go `Put.Run()` and `Put.RunWithContext(ctx)`. -/
def dynamo.Put.Run (p : dynamo.Put) (db : DB) (w : World) : Option GoError × World :=
  (db.run (DriverCall.PutRun p), w.emit (Event.driver (DriverCall.PutRun p)))

/-- Go `Update.RunWithContext(ctx)`. -/
def dynamo.Update.RunWithContext (u : dynamo.Update) (db : DB) (w : World) :
    Option GoError × World :=
  (db.run (DriverCall.UpdateRun u), w.emit (Event.driver (DriverCall.UpdateRun u)))

/-- Go `Update.ValueWithContext(ctx, item)`. -/
def dynamo.Update.ValueWithContext (u : dynamo.Update) (db : DB) (item : GoValue) (w : World) :
    Option GoError × GoValue × World :=
  ((db.fetch (DriverCall.UpdateValue u) item).1, (db.fetch (DriverCall.UpdateValue u) item).2,
    w.emit (Event.driver (DriverCall.UpdateValue u)))

/-- Go `Delete.RunWithContext(ctx)`. -/
def dynamo.Delete.RunWithContext (d : dynamo.Delete) (db : DB) (w : World) :
    Option GoError × World :=
  (db.run (DriverCall.DeleteRun d), w.emit (Event.driver (DriverCall.DeleteRun d)))

/-- Go `Batch.Write().Put(items...).RunWithContext(ctx)`. -/
def dynamo.Batch.WritePutRun (b : dynamo.Batch) (items : List GoValue) (db : DB) (w : World) :
    Option GoError × World :=
  (db.run (DriverCall.BatchWritePut b items), w.emit (Event.driver (DriverCall.BatchWritePut b items)))

/-- Go `Batch.Write().Delete(keys...).RunWithContext(ctx)`. -/
def dynamo.Batch.WriteDeleteRun (b : dynamo.Batch) (keys : List Key) (db : DB) (w : World) :
    Option GoError × World :=
  (db.run (DriverCall.BatchWriteDelete b keys),
    w.emit (Event.driver (DriverCall.BatchWriteDelete b keys)))

/-- Go `Batch.Get(keys...).AllWithContext(ctx, out)`. -/
def dynamo.Batch.GetAll (b : dynamo.Batch) (keys : List Key) (db : DB) (out : GoValue)
    (w : World) : Option GoError × GoValue × World :=
  ((db.fetch (DriverCall.BatchGetAll b keys) out).1, (db.fetch (DriverCall.BatchGetAll b keys) out).2,
    w.emit (Event.driver (DriverCall.BatchGetAll b keys)))

/-- Modelled from the spec: `buildTableKeyCondition` (key file is not among the
sources): a fetch by hash key, plus range key equality when both the range key name
and value are set. -/
def buildTableKeyCondition (table : dynamo.Table) (key : Key) : dynamo.Query :=
  if key.RangeKeyName ≠ none ∧ key.RangeKey.isNil = false then
    (table.Get (deref key.HashKeyName) key.HashKey).Range (deref key.RangeKeyName) Operator.Equal
      key.RangeKey
  else table.Get (deref key.HashKeyName) key.HashKey

/-- The tail of `GetItemsWithContext` and `BatchGetItemsWithContext`: reflect on the
destination and report whether it holds an element. -/
def hasItems (items : GoValue) : Bool :=
  let val := if items.Kind = Kind.Ptr then items.Elem else items
  if val.Kind = Kind.Array ∨ val.Kind = Kind.Slice then
    if val.Len = 0 then false else true
  else true

/-! ## Repository -/

/-- Go `Repository`: the driver handle and the metrics aggregator (the logger is
traced, not stored). -/
structure Repository where
  dynamoClient : DB
  metrics : Metrics

/-- Go `Repository.table`. -/
def Repository.table (_repository : Repository) (tableName : String) : dynamo.Table :=
  { name := tableName }

/-- Go `Repository.recordMetrics`: reads the start time now and returns the closure
that is deferred; the closure receives what the pointer `err` points to at exit. -/
def Repository.recordMetrics (repository : Repository) (ctx : Context) (op : String) (key : Key)
    (w : World) : (Option (Option GoError) → World → World) × World :=
  ((fun err w1 =>
      repository.metrics.Record ctx op key ((timeNow w1).1 - (timeNow w).1) (isOpSuccess err)
        (timeNow w1).2),
    (timeNow w).2)

/-- The loop of `recordMultipleMetrics`: one `Record` per key, in order. -/
def recordEach (metrics : Metrics) (ctx : Context) (op : String) (duration : Int) (success : Bool) :
    List Key → World → World
  | [], w => w
  | key :: rest, w => recordEach metrics ctx op duration success rest
      (metrics.Record ctx op key duration success w)

/-- Go `Repository.recordMultipleMetrics`. -/
def Repository.recordMultipleMetrics (repository : Repository) (ctx : Context) (op : String)
    (keys : List Key) (w : World) : (Option (Option GoError) → World → World) × World :=
  ((fun err w1 =>
      recordEach repository.metrics ctx op ((timeNow w1).1 - (timeNow w).1) (isOpSuccess err) keys
        (timeNow w1).2),
    (timeNow w).2)

/-- The body of `GetItemWithContext` between the `defer` and the return. -/
def Repository.getItemBody (repository : Repository) (ctx : Context) (key : Key) (item : GoValue)
    (w : World) : Exit (Bool × Option GoError × GoValue) :=
  match isValidKey key with
  | some e => { ret := (false, some e, item), err := some e, world := w }
  | none =>
    match (buildTableKeyCondition (repository.table key.TableName) key).OneWithContext
        repository.dynamoClient item w with
    | (some e, item1, w1) =>
      if errorsIs e GoError.dynamoErrNotFound then
        { ret := (false, none, item1), err := some e,
          world := logInfo ctx key.TableName LogMessage.NoItemFound w1 }
      else { ret := (false, some e, item1), err := some e, world := w1 }
    | (none, item1, w1) => { ret := (true, none, item1), err := none, world := w1 }

/-- Go `Repository.GetItemWithContext`: returns `(found, err)` and the item as the
driver left it. -/
def Repository.GetItemWithContext (repository : Repository) (ctx : Context) (key : Key)
    (item : GoValue) (w : World) : (Bool × Option GoError × GoValue) × World :=
  (repository.getItemBody ctx key item (repository.recordMetrics ctx OpRead key w).2).runDeferred
    (repository.recordMetrics ctx OpRead key w).1

/-- The body of `SaveItemWithContext`. -/
def Repository.saveItemBody (repository : Repository) (key : Key) (item : GoValue) (w : World) :
    Exit (Option GoError) :=
  match isValidKey key with
  | some e => { ret := some e, err := some e, world := w }
  | none =>
    match ((repository.table key.TableName).Put item).Run repository.dynamoClient w with
    | (some e, w1) => { ret := some e, err := some e, world := w1 }
    | (none, w1) => { ret := none, err := none, world := w1 }

/-- Go `Repository.SaveItemWithContext`. -/
def Repository.SaveItemWithContext (repository : Repository) (ctx : Context) (key : Key)
    (item : GoValue) (w : World) : Option GoError × World :=
  (repository.saveItemBody key item (repository.recordMetrics ctx OpCommit key w).2).runDeferred
    (repository.recordMetrics ctx OpCommit key w).1

/-- The update request addressed by hash key, and by range key when both its name and
value are set (shared opening of the update operations). -/
def Repository.updateByKey (repository : Repository) (key : Key) : dynamo.Update :=
  if key.RangeKeyName ≠ none ∧ key.RangeKey.isNil = false then
    ((repository.table key.TableName).Update (deref key.HashKeyName) key.HashKey).Range
      (deref key.RangeKeyName) key.RangeKey
  else (repository.table key.TableName).Update (deref key.HashKeyName) key.HashKey

/-- The four expression kinds whose step of the loop cannot fail. -/
def applySimple (expression : UpdateExpression) (update : dynamo.Update) (expr : String)
    (value : GoValue) : dynamo.Update :=
  let u1 := if expression = UpdateExpression.Add then update.Add expr value else update
  let u2 := if expression = UpdateExpression.Set then u1.Set expr value else u1
  let u3 := if expression = UpdateExpression.SetSet then u2.SetSet expr value else u2
  if expression = UpdateExpression.SetIfNotExists then u3.SetIfNotExists expr value else u3

/-- The loop `for expr, value := range values` of the update operations: the entries
are visited in iteration order; a failed slice conversion returns its error at once. -/
def applyValues (expression : UpdateExpression) :
    dynamo.Update → List (String × GoValue) → Except GoError dynamo.Update
  | update, [] => Except.ok update
  | update, (expr, value) :: rest =>
    if expression = UpdateExpression.SetExpr then
      match InterfaceToArrayOfInterface value with
      | (_, some err) => Except.error err
      | (valueSlice, none) =>
        applyValues expression ((applySimple expression update expr value).SetExpr expr valueSlice)
          rest
    else applyValues expression (applySimple expression update expr value) rest

/-- The body of `UpdateWithContext`.  The slice conversion error is held by a variable
that shadows `err`, so on that return the outer `err` is still nil. -/
def Repository.updateBody (repository : Repository) (expression : UpdateExpression) (key : Key)
    (values : List (String × GoValue)) (w : World) : Exit (Option GoError) :=
  match isValidKey key with
  | some e => { ret := some e, err := some e, world := w }
  | none =>
    match applyValues expression (repository.updateByKey key) values with
    | Except.error e => { ret := some e, err := none, world := w }
    | Except.ok update =>
      match update.RunWithContext repository.dynamoClient w with
      | (some e, w1) => { ret := some e, err := some e, world := w1 }
      | (none, w1) => { ret := none, err := none, world := w1 }

/-- Go `Repository.UpdateWithContext`. -/
def Repository.UpdateWithContext (repository : Repository) (ctx : Context)
    (expression : UpdateExpression) (key : Key) (values : List (String × GoValue)) (w : World) :
    Option GoError × World :=
  (repository.updateBody expression key values (repository.recordMetrics ctx OpUpdate key w).2).runDeferred
    (repository.recordMetrics ctx OpUpdate key w).1

/-- The outer loop of `prepareUpdateWithUpdateExpressions` over the expression groups. -/
def applyGroups : dynamo.Update → UpdateExpressions → Except GoError dynamo.Update
  | update, [] => Except.ok update
  | update, (expression, v) :: rest =>
    match applyValues expression update v with
    | Except.error e => Except.error e
    | Except.ok u1 => applyGroups u1 rest

/-- Go `Repository.prepareUpdateWithUpdateExpressions`. -/
def Repository.prepareUpdateWithUpdateExpressions (repository : Repository) (key : Key)
    (updateExpressions : UpdateExpressions) : Except GoError dynamo.Update :=
  match isValidKey key with
  | some e => Except.error e
  | none => applyGroups (repository.updateByKey key) updateExpressions

/-- The body of `UpdateWithUpdateExpressions`. -/
def Repository.updateWithUpdateExpressionsBody (repository : Repository) (key : Key)
    (updateExpressions : UpdateExpressions) (w : World) : Exit (Option GoError) :=
  match repository.prepareUpdateWithUpdateExpressions key updateExpressions with
  | Except.error e => { ret := some e, err := some e, world := w }
  | Except.ok update =>
    match update.RunWithContext repository.dynamoClient w with
    | (some e, w1) => { ret := some e, err := some e, world := w1 }
    | (none, w1) => { ret := none, err := none, world := w1 }

/-- Go `Repository.UpdateWithUpdateExpressions`. -/
def Repository.UpdateWithUpdateExpressions (repository : Repository) (ctx : Context) (key : Key)
    (updateExpressions : UpdateExpressions) (w : World) : Option GoError × World :=
  (repository.updateWithUpdateExpressionsBody key updateExpressions
      (repository.recordMetrics ctx OpUpdate key w).2).runDeferred
    (repository.recordMetrics ctx OpUpdate key w).1

/-- The body of `UpdateWithUpdateExpressionsAndReturnValue`. -/
def Repository.updateReturnValueBody (repository : Repository) (key : Key) (item : GoValue)
    (updateExpressions : UpdateExpressions) (w : World) : Exit (Option GoError × GoValue) :=
  match repository.prepareUpdateWithUpdateExpressions key updateExpressions with
  | Except.error e => { ret := (some e, item), err := some e, world := w }
  | Except.ok update =>
    match update.ValueWithContext repository.dynamoClient item w with
    | (some e, item1, w1) => { ret := (some e, item1), err := some e, world := w1 }
    | (none, item1, w1) => { ret := (none, item1), err := none, world := w1 }

/-- Go `Repository.UpdateWithUpdateExpressionsAndReturnValue`. -/
def Repository.UpdateWithUpdateExpressionsAndReturnValue (repository : Repository) (ctx : Context)
    (key : Key) (item : GoValue) (updateExpressions : UpdateExpressions) (w : World) :
    (Option GoError × GoValue) × World :=
  (repository.updateReturnValueBody key item updateExpressions
      (repository.recordMetrics ctx OpUpdate key w).2).runDeferred
    (repository.recordMetrics ctx OpUpdate key w).1

/-- The translation of a conditional write result shared by the three conditional
writes: an AWS error with the conditional check failed code is logged and becomes
`(false, nil)`, any other error is returned. -/
def conditionalResult (ctx : Context) (tableName : String) (e : GoError) (w : World) :
    (Bool × Option GoError) × World :=
  if awserrCode e = some ErrCodeConditionalCheckFailedException then
    ((false, none), logInfo ctx tableName LogMessage.ConditionalCheckFailed w)
  else ((false, some e), w)

/-- The body of `ConditionalUpdateWithUpdateExpressionsAndReturnValue`. -/
def Repository.conditionalUpdateReturnValueBody (repository : Repository) (ctx : Context)
    (key : Key) (item : GoValue) (updateExpressions : UpdateExpressions)
    (conditionExpression : String) (conditionArgs : List GoValue) (w : World) :
    Exit (Bool × Option GoError × GoValue) :=
  match repository.prepareUpdateWithUpdateExpressions key updateExpressions with
  | Except.error e => { ret := (false, some e, item), err := some e, world := w }
  | Except.ok update =>
    match (update.If conditionExpression conditionArgs).ValueWithContext repository.dynamoClient
        item w with
    | (some e, item1, w1) =>
      { ret := ((conditionalResult ctx key.TableName e w1).1.1,
          (conditionalResult ctx key.TableName e w1).1.2, item1),
        err := some e, world := (conditionalResult ctx key.TableName e w1).2 }
    | (none, item1, w1) => { ret := (true, none, item1), err := none, world := w1 }

/-- Go `Repository.ConditionalUpdateWithUpdateExpressionsAndReturnValue`. -/
def Repository.ConditionalUpdateWithUpdateExpressionsAndReturnValue (repository : Repository)
    (ctx : Context) (key : Key) (item : GoValue) (updateExpressions : UpdateExpressions)
    (conditionExpression : String) (conditionArgs : List GoValue) (w : World) :
    (Bool × Option GoError × GoValue) × World :=
  (repository.conditionalUpdateReturnValueBody ctx key item updateExpressions conditionExpression
      conditionArgs (repository.recordMetrics ctx OpUpdate key w).2).runDeferred
    (repository.recordMetrics ctx OpUpdate key w).1

/-- The body of `DeleteItemWithContext`. -/
def Repository.deleteItemBody (repository : Repository) (key : Key) (w : World) :
    Exit (Option GoError) :=
  match isValidKey key with
  | some e => { ret := some e, err := some e, world := w }
  | none =>
    match (if key.RangeKeyName ≠ none ∧ key.RangeKey.isNil = false then
        ((repository.table key.TableName).Delete (deref key.HashKeyName) key.HashKey).Range
          (deref key.RangeKeyName) key.RangeKey
      else (repository.table key.TableName).Delete (deref key.HashKeyName) key.HashKey).RunWithContext
        repository.dynamoClient w with
    | (some e, w1) => { ret := some e, err := some e, world := w1 }
    | (none, w1) => { ret := none, err := none, world := w1 }

/-- Go `Repository.DeleteItemWithContext`. -/
def Repository.DeleteItemWithContext (repository : Repository) (ctx : Context) (key : Key)
    (w : World) : Option GoError × World :=
  (repository.deleteItemBody key (repository.recordMetrics ctx OpDelete key w).2).runDeferred
    (repository.recordMetrics ctx OpDelete key w).1

/-- The batch handle by hash key name, or by hash and range key name when
`RangeKeyName()` is not nil (`SaveItemsWithContext`, `DeleteItemsWithContext`). -/
def Repository.batchByNames (repository : Repository) (key : Key) : dynamo.Batch :=
  if key.RangeKeyName ≠ none then
    (repository.table key.TableName).Batch (deref key.HashKeyName) (some (deref key.RangeKeyName))
  else (repository.table key.TableName).Batch (deref key.HashKeyName) none

/-- The body of `SaveItemsWithContext`. -/
def Repository.saveItemsBody (repository : Repository) (key : Key) (items : GoValue) (w : World) :
    Exit (Option GoError) :=
  match isValidKey key with
  | some e => { ret := some e, err := some e, world := w }
  | none =>
    match InterfaceToArrayOfInterface items with
    | (_, some e) => { ret := some e, err := some e, world := w }
    | (itemSlice, none) =>
      match (repository.batchByNames key).WritePutRun itemSlice repository.dynamoClient w with
      | (some e, w1) => { ret := some e, err := some e, world := w1 }
      | (none, w1) => { ret := none, err := none, world := w1 }

/-- Go `Repository.SaveItemsWithContext`. -/
def Repository.SaveItemsWithContext (repository : Repository) (ctx : Context) (key : Key)
    (items : GoValue) (w : World) : Option GoError × World :=
  (repository.saveItemsBody key items (repository.recordMetrics ctx OpCommit key w).2).runDeferred
    (repository.recordMetrics ctx OpCommit key w).1

/-- The validation loop of `DeleteItemsWithContext`: the error of the first key that
`isValidKey` rejects. -/
def firstInvalid : List Key → Option GoError
  | [] => none
  | key :: rest =>
    match isValidKey key with
    | some e => some e
    | none => firstInvalid rest

/-- The body of `DeleteItemsWithContext`. -/
def Repository.deleteItemsBody (repository : Repository) (keys : List Key) (w : World) :
    Exit (Option GoError) :=
  match keys with
  | [] => { ret := none, err := none, world := w }
  | key0 :: _ =>
    match firstInvalid keys with
    | some e => { ret := some e, err := some e, world := w }
    | none =>
      match (repository.batchByNames key0).WriteDeleteRun keys repository.dynamoClient w with
      | (some e, w1) => { ret := some e, err := some e, world := w1 }
      | (none, w1) => { ret := none, err := none, world := w1 }

/-- Go `Repository.DeleteItemsWithContext`. -/
def Repository.DeleteItemsWithContext (repository : Repository) (ctx : Context) (keys : List Key)
    (w : World) : Option GoError × World :=
  (repository.deleteItemsBody keys (repository.recordMultipleMetrics ctx OpDelete keys w).2).runDeferred
    (repository.recordMultipleMetrics ctx OpDelete keys w).1

/-- The part of the get-many operations after the driver call: not found is logged and
becomes `(false, nil)`, another error is returned, success reports whether the
destination holds an element. -/
def getManyResult (ctx : Context) (tableName : String) (r : Option GoError × GoValue × World) :
    Exit (Bool × Option GoError × GoValue) :=
  match r with
  | (some e, items1, w1) =>
    if errorsIs e GoError.dynamoErrNotFound then
      { ret := (false, none, items1), err := some e,
        world := logInfo ctx tableName LogMessage.NoItemFound w1 }
    else { ret := (false, some e, items1), err := some e, world := w1 }
  | (none, items1, w1) => { ret := (hasItems items1, none, items1), err := none, world := w1 }

/-- The body of `GetItemsWithContext`. -/
def Repository.getItemsBody (repository : Repository) (ctx : Context) (key : Key)
    (items : GoValue) (w : World) : Exit (Bool × Option GoError × GoValue) :=
  match isValidKey key with
  | some e => { ret := (false, some e, items), err := some e, world := w }
  | none =>
    getManyResult ctx key.TableName
      (((repository.table key.TableName).Get (deref key.HashKeyName) key.HashKey).AllWithContext
        repository.dynamoClient items w)

/-- Go `Repository.GetItemsWithContext`. -/
def Repository.GetItemsWithContext (repository : Repository) (ctx : Context) (key : Key)
    (items : GoValue) (w : World) : (Bool × Option GoError × GoValue) × World :=
  (repository.getItemsBody ctx key items (repository.recordMetrics ctx OpRead key w).2).runDeferred
    (repository.recordMetrics ctx OpRead key w).1

/-- The request built by `QueryWithContext` from a base query: range condition when
both the range key name and value are set, limit when positive, descending order when
asked. -/
def buildQuery (q0 : dynamo.Query) (query : Query) : dynamo.Query :=
  let q1 := if query.RangeKeyName ≠ none ∧ query.RangeKey.isNil = false then
      q0.Range (deref query.RangeKeyName) query.RangeOp query.RangeKey
    else q0
  let q2 := if valueFromPtr query.Limit > 0 then q1.Limit (valueFromPtr query.Limit) else q1
  if query.Descending then q2.OrderDescending else q2

/-- The body of `QueryWithContext` after the base request is chosen; `err` is the named
result, so every return assigns it. -/
def queryBody (db : DB) (q0 : dynamo.Query) (query : Query) (item : GoValue) (w : World) :
    Exit (Option GoError × GoValue) :=
  if IsPointerOFSlice item = false then
    { ret := (some GoError.ErrInvalidPointerSliceType, item),
      err := some GoError.ErrInvalidPointerSliceType, world := w }
  else
    match isValidKey query.toKey with
    | some e => { ret := (some e, item), err := some e, world := w }
    | none =>
      match (buildQuery q0 query).AllWithContext db item w with
      | (some e, item1, w1) => { ret := (some e, item1), err := some e, world := w1 }
      | (none, item1, w1) => { ret := (none, item1), err := none, world := w1 }

/-- Go `Repository.QueryWithContext`. -/
def Repository.QueryWithContext (repository : Repository) (ctx : Context) (query : Query)
    (item : GoValue) (w : World) : (Option GoError × GoValue) × World :=
  (queryBody repository.dynamoClient
      ((repository.table query.TableName).Get (deref query.HashKeyName) query.HashKey) query item
      (repository.recordMetrics ctx OpRead query.toKey w).2).runDeferred
    (repository.recordMetrics ctx OpRead query.toKey w).1

/-- Modelled from the spec: `Model.IncreaseVersion` (model file is not among the
sources): the version goes up by one. -/
def Model.IncreaseVersion (m : Model) : Model :=
  { m with Version := m.Version + 1 }

/-- Modelled from the spec: `Model.InitCreatedAt` (model file is not among the
sources): the created timestamp is set to `djoemo.Now()` only when it is zero. -/
def Model.InitCreatedAt (m : Model) (w : World) : Model × World :=
  if m.CreatedAt = 0 then ({ m with CreatedAt := (Now w).1 }, (Now w).2) else (m, w)

/-- Modelled from the spec: `Model.InitUpdatedAt` (model file is not among the
sources): the updated timestamp is set to `djoemo.Now()`. -/
def Model.InitUpdatedAt (m : Model) (w : World) : Model × World :=
  ({ m with UpdatedAt := (Now w).1 }, (Now w).2)

/-- The error `OptimisticLockSaveWithContext` creates for an item without the model
capability. -/
def errNotModel : GoError :=
  GoError.errorsNew "Items to use with OptimisticLock must implement the ModelInterface"

/-- The conditional put and its translation, shared by `OptimisticLockSaveWithContext`
and `ConditionalUpdateWithContext`. -/
def conditionalPut (db : DB) (ctx : Context) (tableName : String) (update : dynamo.Put)
    (item : GoValue) (w : World) : Exit (Bool × Option GoError × GoValue) :=
  match update.Run db w with
  | (some e, w1) =>
    { ret := ((conditionalResult ctx tableName e w1).1.1, (conditionalResult ctx tableName e w1).1.2,
        item),
      err := some e, world := (conditionalResult ctx tableName e w1).2 }
  | (none, w1) => { ret := (true, none, item), err := none, world := w1 }

/-- The three mutations of the in-memory item before the put: `IncreaseVersion`,
`InitCreatedAt`, `InitUpdatedAt`, in this order. -/
def Model.stamp (model : Model) (w : World) : Model × World :=
  Model.InitUpdatedAt (Model.InitCreatedAt (Model.IncreaseVersion model) w).1
    (Model.InitCreatedAt (Model.IncreaseVersion model) w).2

/-- The body of `OptimisticLockSaveWithContext`.  The type error is returned without
being assigned to `err`.  The third component is the item the caller holds after the
call; `currentVersion` is read before the mutations. -/
def Repository.optimisticLockSaveBody (repository : Repository) (ctx : Context) (key : Key)
    (item : GoValue) (w : World) : Exit (Bool × Option GoError × GoValue) :=
  match item with
  | GoValue.model model fields =>
    conditionalPut repository.dynamoClient ctx key.TableName
      (((repository.table key.TableName).Put (GoValue.model (Model.stamp model w).1 fields)).If
        "attribute_not_exists(Version) OR Version = ?" [GoValue.int model.Version])
      (GoValue.model (Model.stamp model w).1 fields) (Model.stamp model w).2
  | _ => { ret := (false, some errNotModel, item), err := none, world := w }

/-- Go `Repository.OptimisticLockSaveWithContext`. -/
def Repository.OptimisticLockSaveWithContext (repository : Repository) (ctx : Context) (key : Key)
    (item : GoValue) (w : World) : (Bool × Option GoError × GoValue) × World :=
  (repository.optimisticLockSaveBody ctx key item
      (repository.recordMetrics ctx OpCommit key w).2).runDeferred
    (repository.recordMetrics ctx OpCommit key w).1

/-- Go `Repository.ConditionalUpdateWithContext`. -/
def Repository.ConditionalUpdateWithContext (repository : Repository) (ctx : Context) (key : Key)
    (item : GoValue) (expression : String) (expressionArgs : List GoValue) (w : World) :
    (Bool × Option GoError × GoValue) × World :=
  (conditionalPut repository.dynamoClient ctx key.TableName
      (((repository.table key.TableName).Put item).If expression expressionArgs) item
      (repository.recordMetrics ctx OpUpdate key w).2).runDeferred
    (repository.recordMetrics ctx OpUpdate key w).1

/-- Go `Iterator` as `ScanIteratorWithContext` fills it: the scan with its search
limit, the table name, the limit and the context (creating it performs no driver
call). -/
structure Iterator where
  scan : dynamo.Scan
  tableName : String
  searchLimit : Int
  ctx : Context

/-- The body of `ScanIteratorWithContext`. -/
def Repository.scanIteratorBody (repository : Repository) (ctx : Context) (key : Key)
    (searchLimit : Int) (w : World) : Exit (Option Iterator × Option GoError) :=
  match isValidTableName key with
  | some e => { ret := (none, some e), err := some e, world := w }
  | none =>
    { ret := (some { scan := ((repository.table key.TableName).Scan).SearchLimit searchLimit,
                     tableName := key.TableName, searchLimit := searchLimit, ctx := ctx }, none),
      err := none, world := w }

/-- Go `Repository.ScanIteratorWithContext`. -/
def Repository.ScanIteratorWithContext (repository : Repository) (ctx : Context) (key : Key)
    (searchLimit : Int) (w : World) : (Option Iterator × Option GoError) × World :=
  (repository.scanIteratorBody ctx key searchLimit
      (repository.recordMetrics ctx OpRead key w).2).runDeferred
    (repository.recordMetrics ctx OpRead key w).1

/-- The validation loop of `BatchGetItemsWithContext`: for the first offending key, the
returned error together with the value `err` holds at that return (the table mismatch
is returned without being assigned to `err`). -/
def batchGetCheck (tableName : String) : List Key → Option (GoError × Option GoError)
  | [] => none
  | key :: rest =>
    match isValidKey key with
    | some e => some (e, some e)
    | none =>
      if key.TableName ≠ tableName then some (GoError.ErrInvalidBatchRequest, none)
      else batchGetCheck tableName rest

/-- The batch handle of `BatchGetItemsWithContext`: by hash and range key name when the
first key has both a range key name and a range key value. -/
def Repository.batchGetHandle (repository : Repository) (tableName : String) (key0 : Key) :
    dynamo.Batch :=
  if key0.RangeKeyName ≠ none ∧ key0.RangeKey.isNil = false then
    (repository.table tableName).Batch (deref key0.HashKeyName) (some (deref key0.RangeKeyName))
  else (repository.table tableName).Batch (deref key0.HashKeyName) none

/-- The body of `BatchGetItemsWithContext`. -/
def Repository.batchGetItemsBody (repository : Repository) (ctx : Context) (keys : List Key)
    (out : GoValue) (w : World) : Exit (Bool × Option GoError × GoValue) :=
  match keys with
  | [] => { ret := (false, none, out), err := none, world := w }
  | key0 :: _ =>
    match batchGetCheck key0.TableName keys with
    | some (e, errVar) => { ret := (false, some e, out), err := errVar, world := w }
    | none =>
      getManyResult ctx key0.TableName
        ((repository.batchGetHandle key0.TableName key0).GetAll keys repository.dynamoClient out w)

/-- Go `Repository.BatchGetItemsWithContext`. -/
def Repository.BatchGetItemsWithContext (repository : Repository) (ctx : Context)
    (keys : List Key) (out : GoValue) (w : World) : (Bool × Option GoError × GoValue) × World :=
  (repository.batchGetItemsBody ctx keys out
      (repository.recordMultipleMetrics ctx OpRead keys w).2).runDeferred
    (repository.recordMultipleMetrics ctx OpRead keys w).1

/-! ## GlobalIndex -/

/-- Go `GlobalIndex`: an index name with the driver handle and metrics aggregator of
the repository it came from. -/
structure GlobalIndex where
  name : String
  dynamoClient : DB
  metrics : Metrics

/-- Go `Repository.GIndex`. -/
def Repository.GIndex (repository : Repository) (name : String) : GlobalIndex :=
  { name := name, dynamoClient := repository.dynamoClient, metrics := repository.metrics }

/-- Go `GlobalIndex.table`. -/
def GlobalIndex.table (_gi : GlobalIndex) (tableName : String) : dynamo.Table :=
  { name := tableName }

/-- Go `GlobalIndex.recordMetrics`. -/
def GlobalIndex.recordMetrics (gi : GlobalIndex) (ctx : Context) (op : String) (key : Key)
    (w : World) : (Option (Option GoError) → World → World) × World :=
  ((fun err w1 =>
      gi.metrics.Record ctx op key ((timeNow w1).1 - (timeNow w).1) (isOpSuccess err)
        (timeNow w1).2),
    (timeNow w).2)

/-- The body of `GlobalIndex.GetItemWithContext`. -/
def GlobalIndex.getItemBody (gi : GlobalIndex) (ctx : Context) (key : Key) (item : GoValue)
    (w : World) : Exit (Bool × Option GoError × GoValue) :=
  match isValidKey key with
  | some e => { ret := (false, some e, item), err := some e, world := w }
  | none =>
    match ((buildTableKeyCondition (gi.table key.TableName) key).Index gi.name).OneWithContext
        gi.dynamoClient item w with
    | (some e, item1, w1) =>
      if errorsIs e GoError.dynamoErrNotFound then
        { ret := (false, none, item1), err := some e,
          world := logInfo ctx key.TableName LogMessage.NoItemFound w1 }
      else { ret := (false, some e, item1), err := some e, world := w1 }
    | (none, item1, w1) => { ret := (true, none, item1), err := none, world := w1 }

/-- Go `GlobalIndex.GetItemWithContext`. -/
def GlobalIndex.GetItemWithContext (gi : GlobalIndex) (ctx : Context) (key : Key)
    (item : GoValue) (w : World) : (Bool × Option GoError × GoValue) × World :=
  (gi.getItemBody ctx key item (gi.recordMetrics ctx OpRead key w).2).runDeferred
    (gi.recordMetrics ctx OpRead key w).1

/-- The body of `GlobalIndex.GetItemsWithContext`. -/
def GlobalIndex.getItemsBody (gi : GlobalIndex) (ctx : Context) (key : Key) (items : GoValue)
    (w : World) : Exit (Bool × Option GoError × GoValue) :=
  match isValidKey key with
  | some e => { ret := (false, some e, items), err := some e, world := w }
  | none =>
    getManyResult ctx key.TableName
      ((((gi.table key.TableName).Get (deref key.HashKeyName) key.HashKey).Index
        gi.name).AllWithContext gi.dynamoClient items w)

/-- Go `GlobalIndex.GetItemsWithContext`. -/
def GlobalIndex.GetItemsWithContext (gi : GlobalIndex) (ctx : Context) (key : Key)
    (items : GoValue) (w : World) : (Bool × Option GoError × GoValue) × World :=
  (gi.getItemsBody ctx key items (gi.recordMetrics ctx OpRead key w).2).runDeferred
    (gi.recordMetrics ctx OpRead key w).1

/-- The body of `GlobalIndex.GetItemsWithRangeWithContext`. -/
def GlobalIndex.getItemsWithRangeBody (gi : GlobalIndex) (ctx : Context) (key : Key)
    (items : GoValue) (w : World) : Exit (Bool × Option GoError × GoValue) :=
  match isValidKey key with
  | some e => { ret := (false, some e, items), err := some e, world := w }
  | none =>
    getManyResult ctx key.TableName
      (((buildTableKeyCondition (gi.table key.TableName) key).Index gi.name).AllWithContext
        gi.dynamoClient items w)

/-- Go `GlobalIndex.GetItemsWithRangeWithContext`. -/
def GlobalIndex.GetItemsWithRangeWithContext (gi : GlobalIndex) (ctx : Context) (key : Key)
    (items : GoValue) (w : World) : (Bool × Option GoError × GoValue) × World :=
  (gi.getItemsWithRangeBody ctx key items (gi.recordMetrics ctx OpRead key w).2).runDeferred
    (gi.recordMetrics ctx OpRead key w).1

/-- Go `GlobalIndex.QueryWithContext`. -/
def GlobalIndex.QueryWithContext (gi : GlobalIndex) (ctx : Context) (query : Query)
    (item : GoValue) (w : World) : (Option GoError × GoValue) × World :=
  (queryBody gi.dynamoClient
      (((gi.table query.TableName).Get (deref query.HashKeyName) query.HashKey).Index gi.name)
      query item (gi.recordMetrics ctx OpRead query.toKey w).2).runDeferred
    (gi.recordMetrics ctx OpRead query.toKey w).1

/-! ## Reading the trace -/

/-- The driver calls of a trace, in order. -/
def driverCalls : List Event → List DriverCall
  | [] => []
  | Event.driver call :: rest => call :: driverCalls rest
  | _ :: rest => driverCalls rest

/-- One `Record` call on the aggregator: context, operation, key, duration, success. -/
structure MetricsRecord where
  ctx : Context
  caller : String
  key : Key
  duration : Int
  success : Bool

/-- The `Record` calls on the aggregator of a trace, in order. -/
def metricsRecords : List Event → List MetricsRecord
  | [] => []
  | Event.metricsRecord ctx caller key duration success :: rest =>
    { ctx := ctx, caller := caller, key := key, duration := duration, success := success } ::
      metricsRecords rest
  | _ :: rest => metricsRecords rest

/-- The events of one `Record` call on the aggregator `m`: the call itself, then one
call per registered sink, in registration order. -/
def recordEvents (m : Metrics) (ctx : Context) (caller : String) (key : Key) (duration : Int)
    (success : Bool) : List Event :=
  Event.metricsRecord ctx caller key duration success ::
    m.metrics.map (fun sink => Event.sinkRecord sink ctx caller key duration success)

/-- The world `w1` is `w` after a call that took its two clock readings and did nothing
but record once on `m`, with the duration between the two readings and the given
flag. -/
def OnlyRecorded (m : Metrics) (ctx : Context) (caller : String) (key : Key) (success : Bool)
    (w w1 : World) : Prop :=
  w1.trace = w.trace ++
    recordEvents m ctx caller key (w.clock (w.ticks + 1) - w.clock w.ticks) success

/-! ## Concrete inputs -/

/-- A valid key on table `UserTable` with hash key `UUID = "uuid"`. -/
def userKey : Key :=
  { TableName := "UserTable", HashKeyName := some "UUID", HashKey := GoValue.str "uuid",
    RangeKeyName := none, RangeKey := GoValue.nil }

/-- A key with nothing set. -/
def emptyKey : Key :=
  { TableName := "", HashKeyName := none, HashKey := GoValue.nil, RangeKeyName := none,
    RangeKey := GoValue.nil }

/-- A key with only the table name set. -/
def tableOnlyKey : Key :=
  { TableName := "UserTable", HashKeyName := none, HashKey := GoValue.nil, RangeKeyName := none,
    RangeKey := GoValue.nil }

/-- A key with table name and hash key name but no hash key value. -/
def noHashValueKey : Key :=
  { TableName := "UserTable", HashKeyName := some "UUID", HashKey := GoValue.nil,
    RangeKeyName := none, RangeKey := GoValue.nil }

/-- A key without a table name. -/
def noTableKey : Key :=
  { TableName := "", HashKeyName := some "UUID", HashKey := GoValue.str "uuid",
    RangeKeyName := none, RangeKey := GoValue.nil }

/-- A query whose key has no table name. -/
def noTableQuery : Query :=
  { toKey := noTableKey, RangeOp := Operator.Equal, Limit := none, Descending := false }

/-- A query on `userKey`. -/
def userQuery : Query :=
  { toKey := userKey, RangeOp := Operator.Equal, Limit := none, Descending := false }

/-- An empty destination: a pointer to an empty slice. -/
def emptyDest : GoValue :=
  GoValue.ptr (GoValue.slice [])

/-- A fresh model item: version 0 and zero timestamps. -/
def modelItem : GoValue :=
  GoValue.model { Version := 0, CreatedAt := 0, UpdatedAt := 0 } [("UUID", GoValue.str "uuid")]

/-- A valid key on table `ProfileTable`. -/
def profileKey : Key :=
  { TableName := "ProfileTable", HashKeyName := some "UUID", HashKey := GoValue.str "uuid",
    RangeKeyName := none, RangeKey := GoValue.nil }

/-- A driver that answers every call with the same error (or success) and leaves
destinations as they are. -/
def dbReplying (reply : Option GoError) : DB :=
  { run := fun _ => reply, fetch := fun _ dest => (reply, dest) }

/-- A destination holding one user: a pointer to a slice with one struct. -/
def oneUserDest : GoValue :=
  GoValue.ptr (GoValue.slice [GoValue.struct [("UUID", GoValue.str "uuid")]])

/-- A driver that succeeds and leaves `dest` in every destination. -/
def dbFilling (dest : GoValue) : DB :=
  { run := fun _ => none, fetch := fun _ _ => (none, dest) }

/-- A repository over `dbFilling dest` with one registered sink. -/
def repoFilling (dest : GoValue) : Repository :=
  { dynamoClient := dbFilling dest, metrics := { metrics := [7] } }

/-- A repository over `dbReplying reply` with one registered sink. -/
def repoReplying (reply : Option GoError) : Repository :=
  { dynamoClient := dbReplying reply, metrics := { metrics := [7] } }

/-- A world with an empty trace whose clocks read the tick number. -/
def world0 : World :=
  { clock := fun n => n, Now := fun n => 1000 + n, ticks := 0, trace := [] }

/-- A context without labels. -/
def ctx0 : Context :=
  { labels := none }

/-- A user item: a pointer to a plain struct. -/
def userItem : GoValue :=
  GoValue.ptr (GoValue.struct [("UUID", GoValue.str "uuid")])

/-- The call took the world from `w` to `w1` and called `Record` on the aggregator
exactly once in between, for this context, operation and key. -/
def RecordsOnce (ctx : Context) (caller : String) (key : Key) (w w1 : World) : Prop :=
  ∃ duration success, metricsRecords w1.trace = metricsRecords w.trace ++
    [{ ctx := ctx, caller := caller, key := key, duration := duration, success := success }]

/-- The call took the world from `w` to `w1` and called `Record` on the aggregator exactly
once per key of the list, in list order, each time with the same duration and the same
success flag. -/
def RecordsPerKey (ctx : Context) (caller : String) (keys : List Key) (w w1 : World) : Prop :=
  ∃ duration success, metricsRecords w1.trace = metricsRecords w.trace ++
    keys.map (fun key =>
      { ctx := ctx, caller := caller, key := key, duration := duration, success := success })

/-- The destination is a slice, or a pointer to a slice, holding `elems`. -/
def IsSliceOf (dest : GoValue) (elems : List GoValue) : Prop :=
  dest = GoValue.slice elems ∨ dest = GoValue.ptr (GoValue.slice elems)

/-- The contract of the get-many operations: given the driver reply (its error and the
destination as it left it), `(false, nil)` for not found and for success with an empty
destination, `(true, nil)` for success with at least one element, `(false, e)` for every
other driver error `e`. -/
def GetManyOutcome (reply : Option GoError × GoValue) (result : Bool × Option GoError) : Prop :=
  (∀ e, reply.1 = some e → errorsIs e GoError.dynamoErrNotFound = true → result = (false, none)) ∧
  (reply.1 = none → IsSliceOf reply.2 [] → result = (false, none)) ∧
  (∀ x xs, reply.1 = none → IsSliceOf reply.2 (x :: xs) → result = (true, none)) ∧
  (∀ e, reply.1 = some e → errorsIs e GoError.dynamoErrNotFound = false →
    result = (false, some e))

/-- The contract of the conditional writes: given the driver reply, `(true, nil)` when the
write is accepted, `(false, nil)` for an AWS error with the conditional check failed code,
`(false, e)` for every other driver error `e`, in particular for a plain error whose message
is that code. -/
def ConditionalOutcome (reply : Option GoError) (result : Bool × Option GoError) : Prop :=
  (reply = none → result = (true, none)) ∧
  (∀ message, reply = some (GoError.awsErr ErrCodeConditionalCheckFailedException message) →
    result = (false, none)) ∧
  (∀ e, reply = some e → awserrCode e ≠ some ErrCodeConditionalCheckFailedException →
    result = (false, some e)) ∧
  (reply = some (GoError.errorsNew ErrCodeConditionalCheckFailedException) →
    result = (false, some (GoError.errorsNew ErrCodeConditionalCheckFailedException)))

/-- A valid query on `userKey` whose limit is set to zero. -/
def zeroLimitQuery : Query :=
  { toKey := userKey, RangeOp := Operator.Equal, Limit := some 0, Descending := false }

/-- A valid key on table `ProfileTable` with the range key `Email = "user"`. -/
def profileRangeKey : Key :=
  { TableName := "ProfileTable", HashKeyName := some "UUID", HashKey := GoValue.str "uuid",
    RangeKeyName := some "Email", RangeKey := GoValue.str "user" }

/-- A valid query with range key, operator `BeginsWith`, limit 2 and descending order. -/
def profileQuery : Query :=
  { toKey := profileRangeKey, RangeOp := Operator.BeginsWith, Limit := some 2,
    Descending := true }

/-- A second valid key on table `UserTable`, with hash key `UUID = "uuid1"`. -/
def userKey1 : Key :=
  { TableName := "UserTable", HashKeyName := some "UUID", HashKey := GoValue.str "uuid1",
    RangeKeyName := none, RangeKey := GoValue.nil }

/-- The key `userKey` with the range key `UserName = "user"` set in addition. -/
def userRangeKey : Key :=
  { TableName := "UserTable", HashKeyName := some "UUID", HashKey := GoValue.str "uuid",
    RangeKeyName := some "UserName", RangeKey := GoValue.str "user" }

/-- The value is not a sequence: neither a slice nor an array. -/
def NotSequence (v : GoValue) : Prop :=
  v.Kind ≠ Kind.Slice ∧ v.Kind ≠ Kind.Array

/-- `UpdateWithContext` with kind `expression` took the world from `w` to its result by
issuing exactly one driver call, the execution of one update request on the table of the key,
addressed by the hash key, and by the range key when both its name and its value are set,
holding exactly the operations `ops` and no condition; and it returned the driver answer to
that request. -/
def UpdatesWith (repository : Repository) (ctx : Context) (expression : UpdateExpression)
    (key : Key) (values : List (String × GoValue)) (w : World) (ops : List dynamo.UpdateOp) :
    Prop :=
  driverCalls (repository.UpdateWithContext ctx expression key values w).2.trace =
    driverCalls w.trace ++
      [DriverCall.UpdateRun
        { table := key.TableName, hashKey := deref key.HashKeyName, hashValue := key.HashKey,
          range := if key.RangeKeyName ≠ none ∧ key.RangeKey.isNil = false then
            some (deref key.RangeKeyName, key.RangeKey) else none,
          ops := ops, conditions := [] }] ∧
  (repository.UpdateWithContext ctx expression key values w).1 =
    repository.dynamoClient.run
      (DriverCall.UpdateRun
        { table := key.TableName, hashKey := deref key.HashKeyName, hashValue := key.HashKey,
          range := if key.RangeKeyName ≠ none ∧ key.RangeKey.isNil = false then
            some (deref key.RangeKeyName, key.RangeKey) else none,
          ops := ops, conditions := [] })

/-! ## Metric labels carried by the context (`metrics.go`) -/

/-- The label name used by `WithSourceLabel`. -/
def labelSource : String := "source"

/-- Go map assignment `labels[key] = value` on a map given by its entries: the entry of the
key is replaced, the other entries stay. -/
def mapSet (labels : List (String × String)) (key value : String) : List (String × String) :=
  (key, value) :: labels.filter (fun entry => entry.1 != key)

/-- The value stored under `key` in a map that may be nil, if any. -/
def labelOf (labels : Option (List (String × String))) (key : String) : Option String :=
  match labels with
  | none => none
  | some entries => entries.lookup key

/-- Go map index `labels[key]` on a map that may be nil: the zero value `""` when the key is
absent. -/
def mapIndex (labels : Option (List (String × String))) (key : String) : String :=
  match labelOf labels key with
  | some value => value
  | none => ""

/-- Go `AddMetrics(ctx, key, value)`.  The first component is the context it returns.  The
label map is shared and assigned in place, so the second component is the context it was
given as its holder sees it afterwards: unchanged when it carried no label map (a new map is
attached to a new context), the returned context otherwise. -/
def AddMetrics (ctx : Context) (key value : String) : Context × Context :=
  match ctx.labels with
  | none => ({ labels := some (mapSet [] key value) }, ctx)
  | some labels =>
    ({ labels := some (mapSet labels key value) }, { labels := some (mapSet labels key value) })

/-- Go `WithSourceLabel(ctx, value)`. -/
def WithSourceLabel (ctx : Context) (value : String) : Context × Context :=
  AddMetrics ctx labelSource value

/-- Go `LabelsFromContext(ctx)`: the label map, nil when the context carries none. -/
def LabelsFromContext (ctx : Context) : Option (List (String × String)) :=
  ctx.labels

/-- Go `New()`: an aggregator without sinks. -/
def New : Metrics :=
  { metrics := [] }

/-- Go `Metrics.RecordMultiple`: `Record` for every key, in order. -/
def Metrics.RecordMultiple (m : Metrics) (ctx : Context) (caller : String) (key : List Key)
    (duration : Int) (success : Bool) (w : World) : World :=
  recordEach m ctx caller duration success key w

/-- One `Record` call on a sink: the sink, context, operation, key, duration, success. -/
structure SinkCall where
  sink : Nat
  ctx : Context
  caller : String
  key : Key
  duration : Int
  success : Bool

/-- The `Record` calls on the sinks of a trace, in order. -/
def sinkCalls : List Event → List SinkCall
  | [] => []
  | Event.sinkRecord sink ctx caller key duration success :: rest =>
    { sink := sink, ctx := ctx, caller := caller, key := key, duration := duration,
      success := success } :: sinkCalls rest
  | _ :: rest => sinkCalls rest

/-- The key `userKey` with a range key name but no range key value. -/
def rangeNameOnlyKey : Key :=
  { TableName := "UserTable", HashKeyName := some "UUID", HashKey := GoValue.str "uuid",
    RangeKeyName := some "UserName", RangeKey := GoValue.nil }

/-- The key `userKey` with a range key value but no range key name. -/
def rangeValueOnlyKey : Key :=
  { TableName := "UserTable", HashKeyName := some "UUID", HashKey := GoValue.str "uuid",
    RangeKeyName := none, RangeKey := GoValue.str "name1" }

/-- Two users to save: a slice of two structs. -/
def twoUsers : GoValue :=
  GoValue.slice
    [GoValue.struct [("UUID", GoValue.str "uuid1"), ("UserName", GoValue.str "name1")],
     GoValue.struct [("UUID", GoValue.str "uuid2"), ("UserName", GoValue.str "name2")]]

/-! ## Theorems -/

/-- Folding `emit` over the sinks appends one sink event per sink. -/
theorem foldl_emit_trace (f : Nat → Event) (sinks : List Nat) (w : World) :
    (sinks.foldl (fun w sink => w.emit (f sink)) w).trace = w.trace ++ sinks.map f := by
  induction sinks generalizing w with
  | nil => simp
  | cons sink rest ih =>
    rw [List.foldl_cons, ih]
    simp [World.emit]

/-- Folding `emit` leaves the clock readings alone. -/
theorem foldl_emit_ticks (f : Nat → Event) (sinks : List Nat) (w : World) :
    (sinks.foldl (fun w sink => w.emit (f sink)) w).ticks = w.ticks := by
  induction sinks generalizing w with
  | nil => simp
  | cons sink rest ih =>
    rw [List.foldl_cons, ih]
    simp [World.emit]

/-- The trace after `Metrics.Record`. -/
theorem Metrics.Record_trace (m : Metrics) (ctx : Context) (caller : String) (key : Key)
    (duration : Int) (success : Bool) (w : World) :
    (m.Record ctx caller key duration success w).trace =
      w.trace ++ recordEvents m ctx caller key duration success := by
  unfold Metrics.Record
  rw [foldl_emit_trace]
  simp [World.emit, recordEvents]

/-- An error reported by `isValidKey` is one of the three validation errors. -/
theorem isValidKey_error (key : Key) (e : GoError) (h : isValidKey key = some e) :
    e = GoError.ErrInvalidTableName ∨ e = GoError.ErrInvalidHashKeyName ∨
      e = GoError.ErrInvalidHashKeyValue := by
  unfold isValidKey isValidTableName at h
  split_ifs at h <;> simp_all

/-- A validation error is never the not-found signal. -/
theorem isValidKey_not_found (key : Key) (e : GoError) (h : isValidKey key = some e) :
    errorsIs e GoError.dynamoErrNotFound = false := by
  rcases isValidKey_error key e h with rfl | rfl | rfl <;> rfl

/-! ### C1: outcome of `GetItemWithContext` -/

/-- C1: for a structurally valid key, `GetItemWithContext` returns `(true, nil)` when the
driver fetch succeeds, `(false, nil)` when the driver error is `dynamo.ErrNotFound` (in
the sense of `errors.Is`), and `(false, e)` with the driver error `e` unchanged for every
other driver error. -/
theorem GetItemWithContext_outcome (repository : Repository) (ctx : Context) (key : Key)
    (item : GoValue) (w : World) (hkey : isValidKey key = none) :
    ((repository.dynamoClient.fetch
        (DriverCall.QueryOne (buildTableKeyCondition (repository.table key.TableName) key))
        item).1 = none →
      ((repository.GetItemWithContext ctx key item w).1.1,
        (repository.GetItemWithContext ctx key item w).1.2.1) = (true, none)) ∧
    ((repository.dynamoClient.fetch
        (DriverCall.QueryOne (buildTableKeyCondition (repository.table key.TableName) key))
        item).1 = some GoError.dynamoErrNotFound →
      ((repository.GetItemWithContext ctx key item w).1.1,
        (repository.GetItemWithContext ctx key item w).1.2.1) = (false, none)) ∧
    (∀ e, (repository.dynamoClient.fetch
        (DriverCall.QueryOne (buildTableKeyCondition (repository.table key.TableName) key))
        item).1 = some e → errorsIs e GoError.dynamoErrNotFound = true →
      ((repository.GetItemWithContext ctx key item w).1.1,
        (repository.GetItemWithContext ctx key item w).1.2.1) = (false, none)) ∧
    (∀ e, (repository.dynamoClient.fetch
        (DriverCall.QueryOne (buildTableKeyCondition (repository.table key.TableName) key))
        item).1 = some e → errorsIs e GoError.dynamoErrNotFound = false →
      ((repository.GetItemWithContext ctx key item w).1.1,
        (repository.GetItemWithContext ctx key item w).1.2.1) = (false, some e)) := by
  refine ⟨?_, ?_, ?_, ?_⟩
  · intro h
    simp [Repository.GetItemWithContext, Repository.getItemBody, Exit.runDeferred, hkey,
      dynamo.Query.OneWithContext, h]
  · intro h
    simp [Repository.GetItemWithContext, Repository.getItemBody, Exit.runDeferred, hkey,
      dynamo.Query.OneWithContext, h, errorsIs]
  · intro e h hnf
    simp [Repository.GetItemWithContext, Repository.getItemBody, Exit.runDeferred, hkey,
      dynamo.Query.OneWithContext, h, hnf]
  · intro e h hnf
    simp [Repository.GetItemWithContext, Repository.getItemBody, Exit.runDeferred, hkey,
      dynamo.Query.OneWithContext, h, hnf]

/-- C1 at concrete inputs: the key `userKey` against a driver that succeeds, one that
reports not found and one that fails with a plain error. -/
theorem GetItemWithContext_outcome_witness :
    isValidKey userKey = none ∧
    (((repoReplying none).GetItemWithContext ctx0 userKey userItem world0).1.1,
      ((repoReplying none).GetItemWithContext ctx0 userKey userItem world0).1.2.1)
        = (true, none) ∧
    (((repoReplying (some GoError.dynamoErrNotFound)).GetItemWithContext ctx0 userKey userItem
        world0).1.1,
      ((repoReplying (some GoError.dynamoErrNotFound)).GetItemWithContext ctx0 userKey userItem
        world0).1.2.1) = (false, none) ∧
    (((repoReplying (some (GoError.errorsNew "invalid query"))).GetItemWithContext ctx0 userKey
        userItem world0).1.1,
      ((repoReplying (some (GoError.errorsNew "invalid query"))).GetItemWithContext ctx0 userKey
        userItem world0).1.2.1) = (false, some (GoError.errorsNew "invalid query")) :=
  ⟨by decide,
    (GetItemWithContext_outcome (repoReplying none) ctx0 userKey userItem world0 (by decide)).1 rfl,
    (GetItemWithContext_outcome (repoReplying (some GoError.dynamoErrNotFound)) ctx0 userKey
      userItem world0 (by decide)).2.1 rfl,
    (GetItemWithContext_outcome (repoReplying (some (GoError.errorsNew "invalid query"))) ctx0
      userKey userItem world0 (by decide)).2.2.2 _ rfl rfl⟩

/-! ### C2: order of the checks of `isValidKey` -/

/-- C2: `isValidKey` checks in a fixed order: an empty table name gives
`ErrInvalidTableName` whatever the other fields are; otherwise an empty (or missing) hash
key name gives `ErrInvalidHashKeyName`; otherwise a nil hash key value gives
`ErrInvalidHashKeyValue`; and there is no error exactly when all three are present. -/
theorem isValidKey_order (key : Key) :
    (key.TableName = "" → isValidKey key = some GoError.ErrInvalidTableName) ∧
    (key.TableName ≠ "" → (key.HashKeyName = none ∨ key.HashKeyName = some "") →
      isValidKey key = some GoError.ErrInvalidHashKeyName) ∧
    (key.TableName ≠ "" → ¬ (key.HashKeyName = none ∨ key.HashKeyName = some "") →
      key.HashKey = GoValue.nil → isValidKey key = some GoError.ErrInvalidHashKeyValue) ∧
    (isValidKey key = none ↔
      key.TableName ≠ "" ∧ ¬ (key.HashKeyName = none ∨ key.HashKeyName = some "") ∧
        key.HashKey ≠ GoValue.nil) := by
  have hnil : key.HashKey.isNil = true ↔ key.HashKey = GoValue.nil := by
    cases key.HashKey <;> simp [GoValue.isNil]
  refine ⟨?_, ?_, ?_, ?_⟩
  · intro h
    simp [isValidKey, isValidTableName, h]
  · intro h1 h2
    simp [isValidKey, isValidTableName, h1, h2]
  · intro h1 h2 h3
    simp [isValidKey, isValidTableName, h1, h2, h3, GoValue.isNil]
  · unfold isValidKey isValidTableName
    split_ifs with h1 h2 h3
    · simp [h1]
    · simp [h1, h2]
    · simp [h1, h2, hnil.mp h3]
    · have : key.HashKey ≠ GoValue.nil := fun h => h3 (hnil.mpr h)
      simp [h1, h2, this]

/-- C2 at concrete inputs: a key with nothing set fails on the table name first, a key
with only a table name fails on the hash key name, a key without hash key value fails on
the value, and `userKey` passes. -/
theorem isValidKey_order_witness :
    isValidKey emptyKey = some GoError.ErrInvalidTableName ∧
    isValidKey tableOnlyKey = some GoError.ErrInvalidHashKeyName ∧
    isValidKey noHashValueKey = some GoError.ErrInvalidHashKeyValue ∧
    isValidKey userKey = none :=
  ⟨(isValidKey_order emptyKey).1 rfl,
    (isValidKey_order tableOnlyKey).2.1 (by decide) (Or.inl rfl),
    (isValidKey_order noHashValueKey).2.2.1 (by decide) (by decide) rfl,
    (isValidKey_order userKey).2.2.2.mpr ⟨by decide, by decide, by simp [userKey]⟩⟩

/-! ### C3: a rejected key short-circuits every validating operation -/

/-- The trace after the deferred recorder of the repository ran at an exit. -/
theorem Repository.recordMetrics_exit_trace {α : Type} (repository : Repository) (ctx : Context)
    (op : String) (key : Key) (w : World) (x : Exit α) :
    (x.runDeferred (repository.recordMetrics ctx op key w).1).2.trace =
      x.world.trace ++ recordEvents repository.metrics ctx op key
        (x.world.clock x.world.ticks - w.clock w.ticks) (isOpSuccess (some x.err)) := by
  simp [Exit.runDeferred, Repository.recordMetrics, Metrics.Record_trace, timeNow]

/-- The trace after the deferred recorder of an index handle ran at an exit. -/
theorem GlobalIndex.indexRecordMetrics_exit_trace {α : Type} (gi : GlobalIndex) (ctx : Context)
    (op : String) (key : Key) (w : World) (x : Exit α) :
    (x.runDeferred (gi.recordMetrics ctx op key w).1).2.trace =
      x.world.trace ++ recordEvents gi.metrics ctx op key
        (x.world.clock x.world.ticks - w.clock w.ticks) (isOpSuccess (some x.err)) := by
  simp [Exit.runDeferred, GlobalIndex.recordMetrics, Metrics.Record_trace, timeNow]

/-- The return values are those of the body, whatever is deferred. -/
theorem Exit.runDeferred_fst {α : Type} (x : Exit α)
    (deferred : Option (Option GoError) → World → World) : (x.runDeferred deferred).1 = x.ret :=
  rfl

/-- A validation error makes `isOpSuccess` false. -/
theorem isOpSuccess_invalid (key : Key) (e : GoError) (h : isValidKey key = some e) :
    isOpSuccess (some (some e)) = false := by
  simp [isOpSuccess, isValidKey_not_found key e h]

/-- A rejected key fails the preparation of an update with the validation error. -/
theorem prepareUpdate_invalid (repository : Repository) (key : Key)
    (updateExpressions : UpdateExpressions) (e : GoError) (h : isValidKey key = some e) :
    repository.prepareUpdateWithUpdateExpressions key updateExpressions = Except.error e := by
  simp [Repository.prepareUpdateWithUpdateExpressions, h]

/-- C3: for a key that `isValidKey` rejects with `e` (for `QueryWithContext`: a query whose
key is rejected with `eq`, and a pointer-to-slice destination), each of `GetItemWithContext`,
`GetItemsWithContext`, `SaveItemWithContext`, `SaveItemsWithContext`, `UpdateWithContext`,
`UpdateWithUpdateExpressions`, `DeleteItemWithContext`, `QueryWithContext` on the repository
and `GetItemWithContext`, `GetItemsWithContext`, `QueryWithContext` on an index handle
returns exactly that error (with found = false for the get operations), and all it adds to
the trace is one `Record` with success = false: no driver call is issued. -/
theorem invalid_key_short_circuits (repository : Repository) (gi : GlobalIndex) (ctx : Context)
    (key : Key) (query : Query) (item dest : GoValue) (expression : UpdateExpression)
    (values : List (String × GoValue)) (updateExpressions : UpdateExpressions) (w : World)
    (e eq : GoError) (hkey : isValidKey key = some e) (hquery : isValidKey query.toKey = some eq)
    (hdest : IsPointerOFSlice dest = true) :
    ((repository.GetItemWithContext ctx key item w).1 = (false, some e, item) ∧
      OnlyRecorded repository.metrics ctx OpRead key false w
        (repository.GetItemWithContext ctx key item w).2) ∧
    ((repository.GetItemsWithContext ctx key item w).1 = (false, some e, item) ∧
      OnlyRecorded repository.metrics ctx OpRead key false w
        (repository.GetItemsWithContext ctx key item w).2) ∧
    ((repository.SaveItemWithContext ctx key item w).1 = some e ∧
      OnlyRecorded repository.metrics ctx OpCommit key false w
        (repository.SaveItemWithContext ctx key item w).2) ∧
    ((repository.SaveItemsWithContext ctx key item w).1 = some e ∧
      OnlyRecorded repository.metrics ctx OpCommit key false w
        (repository.SaveItemsWithContext ctx key item w).2) ∧
    ((repository.UpdateWithContext ctx expression key values w).1 = some e ∧
      OnlyRecorded repository.metrics ctx OpUpdate key false w
        (repository.UpdateWithContext ctx expression key values w).2) ∧
    ((repository.UpdateWithUpdateExpressions ctx key updateExpressions w).1 = some e ∧
      OnlyRecorded repository.metrics ctx OpUpdate key false w
        (repository.UpdateWithUpdateExpressions ctx key updateExpressions w).2) ∧
    ((repository.DeleteItemWithContext ctx key w).1 = some e ∧
      OnlyRecorded repository.metrics ctx OpDelete key false w
        (repository.DeleteItemWithContext ctx key w).2) ∧
    ((repository.QueryWithContext ctx query dest w).1 = (some eq, dest) ∧
      OnlyRecorded repository.metrics ctx OpRead query.toKey false w
        (repository.QueryWithContext ctx query dest w).2) ∧
    ((gi.GetItemWithContext ctx key item w).1 = (false, some e, item) ∧
      OnlyRecorded gi.metrics ctx OpRead key false w (gi.GetItemWithContext ctx key item w).2) ∧
    ((gi.GetItemsWithContext ctx key item w).1 = (false, some e, item) ∧
      OnlyRecorded gi.metrics ctx OpRead key false w (gi.GetItemsWithContext ctx key item w).2) ∧
    ((gi.QueryWithContext ctx query dest w).1 = (some eq, dest) ∧
      OnlyRecorded gi.metrics ctx OpRead query.toKey false w
        (gi.QueryWithContext ctx query dest w).2) := by
  have hs := isOpSuccess_invalid key e hkey
  have hsq := isOpSuccess_invalid query.toKey eq hquery
  have hp := prepareUpdate_invalid repository key updateExpressions e hkey
  refine ⟨⟨?_, ?_⟩, ⟨?_, ?_⟩, ⟨?_, ?_⟩, ⟨?_, ?_⟩, ⟨?_, ?_⟩, ⟨?_, ?_⟩, ⟨?_, ?_⟩, ⟨?_, ?_⟩, ⟨?_, ?_⟩,
    ⟨?_, ?_⟩, ⟨?_, ?_⟩⟩
  · simp [Repository.GetItemWithContext, Exit.runDeferred_fst, Repository.getItemBody, hkey]
  · unfold OnlyRecorded Repository.GetItemWithContext
    rw [Repository.recordMetrics_exit_trace]
    simp [Repository.getItemBody, hkey, hs, Repository.recordMetrics, timeNow]
  · simp [Repository.GetItemsWithContext, Exit.runDeferred_fst, Repository.getItemsBody, hkey]
  · unfold OnlyRecorded Repository.GetItemsWithContext
    rw [Repository.recordMetrics_exit_trace]
    simp [Repository.getItemsBody, hkey, hs, Repository.recordMetrics, timeNow]
  · simp [Repository.SaveItemWithContext, Exit.runDeferred_fst, Repository.saveItemBody, hkey]
  · unfold OnlyRecorded Repository.SaveItemWithContext
    rw [Repository.recordMetrics_exit_trace]
    simp [Repository.saveItemBody, hkey, hs, Repository.recordMetrics, timeNow]
  · simp [Repository.SaveItemsWithContext, Exit.runDeferred_fst, Repository.saveItemsBody, hkey]
  · unfold OnlyRecorded Repository.SaveItemsWithContext
    rw [Repository.recordMetrics_exit_trace]
    simp [Repository.saveItemsBody, hkey, hs, Repository.recordMetrics, timeNow]
  · simp [Repository.UpdateWithContext, Exit.runDeferred_fst, Repository.updateBody, hkey]
  · unfold OnlyRecorded Repository.UpdateWithContext
    rw [Repository.recordMetrics_exit_trace]
    simp [Repository.updateBody, hkey, hs, Repository.recordMetrics, timeNow]
  · simp [Repository.UpdateWithUpdateExpressions, Exit.runDeferred_fst,
      Repository.updateWithUpdateExpressionsBody, hp]
  · unfold OnlyRecorded Repository.UpdateWithUpdateExpressions
    rw [Repository.recordMetrics_exit_trace]
    simp [Repository.updateWithUpdateExpressionsBody, hp, hs, Repository.recordMetrics, timeNow]
  · simp [Repository.DeleteItemWithContext, Exit.runDeferred_fst, Repository.deleteItemBody, hkey]
  · unfold OnlyRecorded Repository.DeleteItemWithContext
    rw [Repository.recordMetrics_exit_trace]
    simp [Repository.deleteItemBody, hkey, hs, Repository.recordMetrics, timeNow]
  · simp [Repository.QueryWithContext, Exit.runDeferred_fst, queryBody, hquery, hdest]
  · unfold OnlyRecorded Repository.QueryWithContext
    rw [Repository.recordMetrics_exit_trace]
    simp [queryBody, hquery, hdest, hsq, Repository.recordMetrics, timeNow]
  · simp [GlobalIndex.GetItemWithContext, Exit.runDeferred_fst, GlobalIndex.getItemBody, hkey]
  · unfold OnlyRecorded GlobalIndex.GetItemWithContext
    rw [GlobalIndex.indexRecordMetrics_exit_trace]
    simp [GlobalIndex.getItemBody, hkey, hs, GlobalIndex.recordMetrics, timeNow]
  · simp [GlobalIndex.GetItemsWithContext, Exit.runDeferred_fst, GlobalIndex.getItemsBody, hkey]
  · unfold OnlyRecorded GlobalIndex.GetItemsWithContext
    rw [GlobalIndex.indexRecordMetrics_exit_trace]
    simp [GlobalIndex.getItemsBody, hkey, hs, GlobalIndex.recordMetrics, timeNow]
  · simp [GlobalIndex.QueryWithContext, Exit.runDeferred_fst, queryBody, hquery, hdest]
  · unfold OnlyRecorded GlobalIndex.QueryWithContext
    rw [GlobalIndex.indexRecordMetrics_exit_trace]
    simp [queryBody, hquery, hdest, hsq, GlobalIndex.recordMetrics, timeNow]

/-- C3 at concrete inputs: `GetItemWithContext` with a key without table name against a
driver that would succeed returns `(false, ErrInvalidTableName)` and the whole trace is
the `Record` call with success = false and its fan-out to the one sink. -/
theorem invalid_key_short_circuits_witness :
    isValidKey noTableKey = some GoError.ErrInvalidTableName ∧
    isValidKey noTableQuery.toKey = some GoError.ErrInvalidTableName ∧
    IsPointerOFSlice emptyDest = true ∧
    ((repoReplying none).GetItemWithContext ctx0 noTableKey userItem world0).1 =
      (false, some GoError.ErrInvalidTableName, userItem) ∧
    ((repoReplying none).GetItemWithContext ctx0 noTableKey userItem world0).2.trace =
      [Event.metricsRecord ctx0 OpRead noTableKey 1 false,
        Event.sinkRecord 7 ctx0 OpRead noTableKey 1 false] :=
  ⟨by decide, by decide, rfl,
    (invalid_key_short_circuits (repoReplying none) ((repoReplying none).GIndex "index") ctx0
      noTableKey noTableQuery userItem emptyDest UpdateExpression.Set [] [] world0
      GoError.ErrInvalidTableName GoError.ErrInvalidTableName (by decide) (by decide) rfl).1.1,
    by
      simpa [OnlyRecorded, recordEvents, world0, repoReplying] using
        (invalid_key_short_circuits (repoReplying none) ((repoReplying none).GIndex "index") ctx0
          noTableKey noTableQuery userItem emptyDest UpdateExpression.Set [] [] world0
          GoError.ErrInvalidTableName GoError.ErrInvalidTableName (by decide) (by decide)
          rfl).1.2⟩

/-! ### C4: the two conditional puts do not validate the key -/

/-- C4: evaluation at a key without table name.  `isValidKey` rejects the key, yet
`OptimisticLockSaveWithContext` and `ConditionalUpdateWithContext` issue the conditional
put on table `""`, return `(true, nil)` when the driver accepts it and record
success = true: neither function calls `isValidKey`. -/
theorem conditional_puts_skip_validation :
    isValidKey noTableKey = some GoError.ErrInvalidTableName ∧
    ((repoReplying none).OptimisticLockSaveWithContext ctx0 noTableKey modelItem world0).1 =
      (true, none,
        GoValue.model { Version := 1, CreatedAt := 1001, UpdatedAt := 1002 }
          [("UUID", GoValue.str "uuid")]) ∧
    ((repoReplying none).OptimisticLockSaveWithContext ctx0 noTableKey modelItem world0).2.trace =
      [Event.driver (DriverCall.PutRun
          { table := "",
            item := GoValue.model { Version := 1, CreatedAt := 1001, UpdatedAt := 1002 }
              [("UUID", GoValue.str "uuid")],
            conditions := [{ expression := "attribute_not_exists(Version) OR Version = ?",
                             args := [GoValue.int 0] }] }),
        Event.metricsRecord ctx0 OpCommit noTableKey 3 true,
        Event.sinkRecord 7 ctx0 OpCommit noTableKey 3 true] ∧
    ((repoReplying none).ConditionalUpdateWithContext ctx0 noTableKey userItem "UserName = ?"
        [GoValue.str "username"] world0).1 = (true, none, userItem) ∧
    ((repoReplying none).ConditionalUpdateWithContext ctx0 noTableKey userItem "UserName = ?"
        [GoValue.str "username"] world0).2.trace =
      [Event.driver (DriverCall.PutRun
          { table := "", item := userItem,
            conditions := [{ expression := "UserName = ?", args := [GoValue.str "username"] }] }),
        Event.metricsRecord ctx0 OpUpdate noTableKey 1 true,
        Event.sinkRecord 7 ctx0 OpUpdate noTableKey 1 true] :=
  ⟨by decide, rfl, rfl, rfl, rfl⟩

/-! ### C5: the recorded success flag on the error returns -/

/-- C5: evaluation at three inputs where an error other than not-found is returned to the
caller while the recorded success flag is true, next to the sibling path that records
false.  `UpdateWithContext` with `SetExpr` and a value that is not a slice returns
`ErrInvalidSliceType` (held by a variable that shadows `err`); `BatchGetItemsWithContext`
with keys of two tables returns `ErrInvalidBatchRequest` and `OptimisticLockSaveWithContext`
with an item that is no model returns the type error (both returned without being assigned
to `err`); `SaveItemsWithContext` with an item that is not a slice returns
`ErrInvalidSliceType` and records false. -/
theorem error_returns_recorded_as_success :
    ((repoReplying none).UpdateWithContext ctx0 UpdateExpression.SetExpr userKey
        [("Meta.$ = ?", GoValue.str "foo")] world0).1 = some GoError.ErrInvalidSliceType ∧
    ((repoReplying none).UpdateWithContext ctx0 UpdateExpression.SetExpr userKey
        [("Meta.$ = ?", GoValue.str "foo")] world0).2.trace =
      [Event.metricsRecord ctx0 OpUpdate userKey 1 true,
        Event.sinkRecord 7 ctx0 OpUpdate userKey 1 true] ∧
    ((repoReplying none).BatchGetItemsWithContext ctx0 [userKey, profileKey] emptyDest
        world0).1 = (false, some GoError.ErrInvalidBatchRequest, emptyDest) ∧
    ((repoReplying none).BatchGetItemsWithContext ctx0 [userKey, profileKey] emptyDest
        world0).2.trace =
      [Event.metricsRecord ctx0 OpRead userKey 1 true,
        Event.sinkRecord 7 ctx0 OpRead userKey 1 true,
        Event.metricsRecord ctx0 OpRead profileKey 1 true,
        Event.sinkRecord 7 ctx0 OpRead profileKey 1 true] ∧
    ((repoReplying none).OptimisticLockSaveWithContext ctx0 userKey userItem world0).1 =
      (false, some errNotModel, userItem) ∧
    ((repoReplying none).OptimisticLockSaveWithContext ctx0 userKey userItem world0).2.trace =
      [Event.metricsRecord ctx0 OpCommit userKey 1 true,
        Event.sinkRecord 7 ctx0 OpCommit userKey 1 true] ∧
    ((repoReplying none).SaveItemsWithContext ctx0 userKey userItem world0).1 =
      some GoError.ErrInvalidSliceType ∧
    ((repoReplying none).SaveItemsWithContext ctx0 userKey userItem world0).2.trace =
      [Event.metricsRecord ctx0 OpCommit userKey 1 false,
        Event.sinkRecord 7 ctx0 OpCommit userKey 1 false] :=
  ⟨rfl, rfl, rfl, rfl, rfl, rfl, rfl, rfl⟩

/-! ### C6: one `Record` per call, one per key for the batch operations -/

/-- The records of a concatenated trace. -/
theorem metricsRecords_append (l1 l2 : List Event) :
    metricsRecords (l1 ++ l2) = metricsRecords l1 ++ metricsRecords l2 := by
  induction l1 with
  | nil => rfl
  | cons ev rest ih => cases ev <;> simp [metricsRecords, ih]

/-- Sink calls are not calls on the aggregator. -/
theorem metricsRecords_sinks (f : Nat → Event) (sinks : List Nat)
    (hf : ∀ sink, metricsRecords [f sink] = []) : metricsRecords (sinks.map f) = [] := by
  induction sinks with
  | nil => rfl
  | cons sink rest ih =>
    have h := metricsRecords_append [f sink] (rest.map f)
    simp only [List.singleton_append] at h
    simp [h, hf, ih]

/-- One `Record` call on the aggregator is one record. -/
theorem metricsRecords_recordEvents (m : Metrics) (ctx : Context) (caller : String) (key : Key)
    (duration : Int) (success : Bool) :
    metricsRecords (recordEvents m ctx caller key duration success) =
      [{ ctx := ctx, caller := caller, key := key, duration := duration, success := success }] := by
  have h : metricsRecords
      (m.metrics.map (fun sink => Event.sinkRecord sink ctx caller key duration success)) = [] :=
    metricsRecords_sinks _ _ (fun _ => rfl)
  simp [recordEvents, metricsRecords, h]

/-- A driver call adds no record. -/
theorem metricsRecords_emit_driver (w : World) (call : DriverCall) :
    metricsRecords (w.emit (Event.driver call)).trace = metricsRecords w.trace := by
  simp [World.emit, metricsRecords_append, metricsRecords]

/-- A log line adds no record. -/
theorem metricsRecords_logInfo (ctx : Context) (tableName : String) (message : LogMessage)
    (w : World) : metricsRecords (logInfo ctx tableName message w).trace = metricsRecords w.trace := by
  simp [logInfo, World.emit, metricsRecords_append, metricsRecords]

/-- The translation of a conditional write error adds no record. -/
theorem metricsRecords_conditionalResult (ctx : Context) (tableName : String) (e : GoError)
    (w : World) :
    metricsRecords (conditionalResult ctx tableName e w).2.trace = metricsRecords w.trace := by
  unfold conditionalResult
  split <;> simp [metricsRecords_logInfo]

/-- The tail of the get-many operations adds no record. -/
theorem metricsRecords_getManyResult (ctx : Context) (tableName : String)
    (r : Option GoError × GoValue × World) :
    metricsRecords (getManyResult ctx tableName r).world.trace = metricsRecords r.2.2.trace := by
  unfold getManyResult
  split
  · split <;> simp [metricsRecords_logInfo]
  · rfl

/-- The conditional put adds no record. -/
theorem metricsRecords_conditionalPut (db : DB) (ctx : Context) (tableName : String)
    (update : dynamo.Put) (item : GoValue) (w : World) :
    metricsRecords (conditionalPut db ctx tableName update item w).world.trace =
      metricsRecords w.trace := by
  unfold conditionalPut
  cases hrun : db.run (DriverCall.PutRun update) <;>
    simp [dynamo.Put.Run, hrun, metricsRecords_conditionalResult, metricsRecords_emit_driver]

/-- The model stamps add no event. -/
theorem Model.stamp_trace (model : Model) (w : World) : (model.stamp w).2.trace = w.trace := by
  unfold Model.stamp Model.InitUpdatedAt Model.InitCreatedAt
  split <;> simp [Now]

/-- The query body adds no record. -/
theorem metricsRecords_queryBody (db : DB) (q0 : dynamo.Query) (query : Query) (item : GoValue)
    (w : World) : metricsRecords (queryBody db q0 query item w).world.trace = metricsRecords w.trace := by
  unfold queryBody
  split
  · rfl
  · split
    · rfl
    · cases hrun : (db.fetch (DriverCall.QueryAll (buildQuery q0 query)) item).1 <;>
        simp [dynamo.Query.AllWithContext, hrun, metricsRecords_emit_driver]

/-- With a body that adds no record, a repository operation records exactly once. -/
theorem Repository.recordsOnce {α : Type} (repository : Repository) (ctx : Context) (op : String)
    (key : Key) (w : World) (body : World → Exit α)
    (hbody : ∀ w0, metricsRecords (body w0).world.trace = metricsRecords w0.trace) :
    RecordsOnce ctx op key w
      ((body (repository.recordMetrics ctx op key w).2).runDeferred
        (repository.recordMetrics ctx op key w).1).2 := by
  refine ⟨(body (repository.recordMetrics ctx op key w).2).world.clock
      (body (repository.recordMetrics ctx op key w).2).world.ticks - w.clock w.ticks,
    isOpSuccess (some (body (repository.recordMetrics ctx op key w).2).err), ?_⟩
  rw [Repository.recordMetrics_exit_trace, metricsRecords_append, metricsRecords_recordEvents,
    hbody]
  simp [Repository.recordMetrics, timeNow]

/-- With a body that adds no record, an index operation records exactly once. -/
theorem GlobalIndex.indexRecordsOnce {α : Type} (gi : GlobalIndex) (ctx : Context) (op : String)
    (key : Key) (w : World) (body : World → Exit α)
    (hbody : ∀ w0, metricsRecords (body w0).world.trace = metricsRecords w0.trace) :
    RecordsOnce ctx op key w
      ((body (gi.recordMetrics ctx op key w).2).runDeferred (gi.recordMetrics ctx op key w).1).2 := by
  refine ⟨(body (gi.recordMetrics ctx op key w).2).world.clock
      (body (gi.recordMetrics ctx op key w).2).world.ticks - w.clock w.ticks,
    isOpSuccess (some (body (gi.recordMetrics ctx op key w).2).err), ?_⟩
  rw [GlobalIndex.indexRecordMetrics_exit_trace, metricsRecords_append, metricsRecords_recordEvents,
    hbody]
  simp [GlobalIndex.recordMetrics, timeNow]

/-- The records added by the loop of `recordMultipleMetrics`. -/
theorem metricsRecords_recordEach (metrics : Metrics) (ctx : Context) (op : String)
    (duration : Int) (success : Bool) (keys : List Key) (w : World) :
    metricsRecords (recordEach metrics ctx op duration success keys w).trace =
      metricsRecords w.trace ++ keys.map (fun key =>
        { ctx := ctx, caller := op, key := key, duration := duration, success := success }) := by
  induction keys generalizing w with
  | nil => simp [recordEach]
  | cons key rest ih =>
    simp [recordEach, ih, Metrics.Record_trace, metricsRecords_append,
      metricsRecords_recordEvents]

/-- With a body that adds no record, a batch operation records once per key. -/
theorem Repository.recordsPerKey {α : Type} (repository : Repository) (ctx : Context)
    (op : String) (keys : List Key) (w : World) (body : World → Exit α)
    (hbody : ∀ w0, metricsRecords (body w0).world.trace = metricsRecords w0.trace) :
    RecordsPerKey ctx op keys w
      ((body (repository.recordMultipleMetrics ctx op keys w).2).runDeferred
        (repository.recordMultipleMetrics ctx op keys w).1).2 := by
  refine ⟨(body (repository.recordMultipleMetrics ctx op keys w).2).world.clock
      (body (repository.recordMultipleMetrics ctx op keys w).2).world.ticks - w.clock w.ticks,
    isOpSuccess (some (body (repository.recordMultipleMetrics ctx op keys w).2).err), ?_⟩
  simp only [Exit.runDeferred, Repository.recordMultipleMetrics]
  rw [metricsRecords_recordEach]
  simp [timeNow, hbody]

/-- The body of `GetItemWithContext` adds no record. -/
theorem Repository.getItemBody_records (repository : Repository) (ctx : Context) (key : Key)
    (item : GoValue) (w : World) :
    metricsRecords (repository.getItemBody ctx key item w).world.trace = metricsRecords w.trace := by
  unfold Repository.getItemBody
  split
  · rfl
  · cases hrun : (repository.dynamoClient.fetch (DriverCall.QueryOne
        (buildTableKeyCondition (repository.table key.TableName) key)) item).1
    · simp [dynamo.Query.OneWithContext, hrun, metricsRecords_emit_driver]
    · simp only [dynamo.Query.OneWithContext, hrun]
      split <;> simp [metricsRecords_logInfo, metricsRecords_emit_driver]

/-- The body of `SaveItemWithContext` adds no record. -/
theorem Repository.saveItemBody_records (repository : Repository) (key : Key) (item : GoValue)
    (w : World) :
    metricsRecords (repository.saveItemBody key item w).world.trace = metricsRecords w.trace := by
  unfold Repository.saveItemBody
  split
  · rfl
  · cases hrun : repository.dynamoClient.run
        (DriverCall.PutRun ((repository.table key.TableName).Put item)) <;>
      simp [dynamo.Put.Run, hrun, metricsRecords_emit_driver]

/-- Running an update adds no record. -/
theorem metricsRecords_updateRun (db : DB) (update : dynamo.Update) (w : World) :
    metricsRecords (match update.RunWithContext db w with
      | (some e, w1) => ({ ret := some e, err := some e, world := w1 } : Exit (Option GoError))
      | (none, w1) => { ret := none, err := none, world := w1 }).world.trace =
      metricsRecords w.trace := by
  cases hrun : db.run (DriverCall.UpdateRun update) <;>
    simp [dynamo.Update.RunWithContext, hrun, metricsRecords_emit_driver]

/-- The body of `UpdateWithContext` adds no record. -/
theorem Repository.updateBody_records (repository : Repository) (expression : UpdateExpression)
    (key : Key) (values : List (String × GoValue)) (w : World) :
    metricsRecords (repository.updateBody expression key values w).world.trace =
      metricsRecords w.trace := by
  unfold Repository.updateBody
  split
  · rfl
  · split
    · rfl
    · exact metricsRecords_updateRun _ _ _

/-- The body of `UpdateWithUpdateExpressions` adds no record. -/
theorem Repository.updateWithUpdateExpressionsBody_records (repository : Repository) (key : Key)
    (updateExpressions : UpdateExpressions) (w : World) :
    metricsRecords (repository.updateWithUpdateExpressionsBody key updateExpressions w).world.trace =
      metricsRecords w.trace := by
  unfold Repository.updateWithUpdateExpressionsBody
  split
  · rfl
  · exact metricsRecords_updateRun _ _ _

/-- The body of `UpdateWithUpdateExpressionsAndReturnValue` adds no record. -/
theorem Repository.updateReturnValueBody_records (repository : Repository) (key : Key)
    (item : GoValue) (updateExpressions : UpdateExpressions) (w : World) :
    metricsRecords (repository.updateReturnValueBody key item updateExpressions w).world.trace =
      metricsRecords w.trace := by
  unfold Repository.updateReturnValueBody
  split
  · rfl
  · rename_i update _
    cases hrun : (repository.dynamoClient.fetch (DriverCall.UpdateValue update) item).1 <;>
      simp [dynamo.Update.ValueWithContext, hrun, metricsRecords_emit_driver]

/-- The body of `ConditionalUpdateWithUpdateExpressionsAndReturnValue` adds no record. -/
theorem Repository.conditionalUpdateReturnValueBody_records (repository : Repository)
    (ctx : Context) (key : Key) (item : GoValue) (updateExpressions : UpdateExpressions)
    (conditionExpression : String) (conditionArgs : List GoValue) (w : World) :
    metricsRecords (repository.conditionalUpdateReturnValueBody ctx key item updateExpressions
      conditionExpression conditionArgs w).world.trace = metricsRecords w.trace := by
  unfold Repository.conditionalUpdateReturnValueBody
  split
  · rfl
  · rename_i update _
    cases hrun : (repository.dynamoClient.fetch
        (DriverCall.UpdateValue (update.If conditionExpression conditionArgs)) item).1 <;>
      simp [dynamo.Update.ValueWithContext, hrun, metricsRecords_emit_driver,
        metricsRecords_conditionalResult]

/-- The body of `DeleteItemWithContext` adds no record. -/
theorem Repository.deleteItemBody_records (repository : Repository) (key : Key) (w : World) :
    metricsRecords (repository.deleteItemBody key w).world.trace = metricsRecords w.trace := by
  unfold Repository.deleteItemBody
  split
  · rfl
  · generalize (if key.RangeKeyName ≠ none ∧ key.RangeKey.isNil = false then
        ((repository.table key.TableName).Delete (deref key.HashKeyName) key.HashKey).Range
          (deref key.RangeKeyName) key.RangeKey
      else (repository.table key.TableName).Delete (deref key.HashKeyName) key.HashKey) = d
    cases hrun : repository.dynamoClient.run (DriverCall.DeleteRun d) <;>
      simp [dynamo.Delete.RunWithContext, hrun, metricsRecords_emit_driver]

/-- The body of `SaveItemsWithContext` adds no record. -/
theorem Repository.saveItemsBody_records (repository : Repository) (key : Key) (items : GoValue)
    (w : World) :
    metricsRecords (repository.saveItemsBody key items w).world.trace = metricsRecords w.trace := by
  unfold Repository.saveItemsBody
  split
  · rfl
  · split
    · rfl
    · rename_i itemSlice _
      cases hrun : repository.dynamoClient.run
          (DriverCall.BatchWritePut (repository.batchByNames key) itemSlice) <;>
        simp [dynamo.Batch.WritePutRun, hrun, metricsRecords_emit_driver]

/-- The body of `DeleteItemsWithContext` adds no record. -/
theorem Repository.deleteItemsBody_records (repository : Repository) (keys : List Key)
    (w : World) :
    metricsRecords (repository.deleteItemsBody keys w).world.trace = metricsRecords w.trace := by
  cases keys with
  | nil => rfl
  | cons key0 rest =>
    simp only [Repository.deleteItemsBody]
    split
    · rfl
    · cases hrun : repository.dynamoClient.run
          (DriverCall.BatchWriteDelete (repository.batchByNames key0) (key0 :: rest)) <;>
        simp [dynamo.Batch.WriteDeleteRun, hrun, metricsRecords_emit_driver]

/-- The body of `GetItemsWithContext` adds no record. -/
theorem Repository.getItemsBody_records (repository : Repository) (ctx : Context) (key : Key)
    (items : GoValue) (w : World) :
    metricsRecords (repository.getItemsBody ctx key items w).world.trace = metricsRecords w.trace := by
  unfold Repository.getItemsBody
  split
  · rfl
  · simp [metricsRecords_getManyResult, dynamo.Query.AllWithContext, metricsRecords_emit_driver]

/-- The body of `OptimisticLockSaveWithContext` adds no record. -/
theorem Repository.optimisticLockSaveBody_records (repository : Repository) (ctx : Context)
    (key : Key) (item : GoValue) (w : World) :
    metricsRecords (repository.optimisticLockSaveBody ctx key item w).world.trace =
      metricsRecords w.trace := by
  unfold Repository.optimisticLockSaveBody
  split
  · simp [metricsRecords_conditionalPut, Model.stamp_trace]
  · rfl

/-- The body of `ScanIteratorWithContext` adds no record. -/
theorem Repository.scanIteratorBody_records (repository : Repository) (ctx : Context) (key : Key)
    (searchLimit : Int) (w : World) :
    metricsRecords (repository.scanIteratorBody ctx key searchLimit w).world.trace =
      metricsRecords w.trace := by
  unfold Repository.scanIteratorBody
  split <;> rfl

/-- The body of `BatchGetItemsWithContext` adds no record. -/
theorem Repository.batchGetItemsBody_records (repository : Repository) (ctx : Context)
    (keys : List Key) (out : GoValue) (w : World) :
    metricsRecords (repository.batchGetItemsBody ctx keys out w).world.trace =
      metricsRecords w.trace := by
  unfold Repository.batchGetItemsBody
  split
  · rfl
  · split
    · rfl
    · simp [metricsRecords_getManyResult, dynamo.Batch.GetAll, metricsRecords_emit_driver]

/-- The body of `GlobalIndex.GetItemWithContext` adds no record. -/
theorem GlobalIndex.indexGetItemBody_records (gi : GlobalIndex) (ctx : Context) (key : Key)
    (item : GoValue) (w : World) :
    metricsRecords (gi.getItemBody ctx key item w).world.trace = metricsRecords w.trace := by
  unfold GlobalIndex.getItemBody
  split
  · rfl
  · cases hrun : (gi.dynamoClient.fetch (DriverCall.QueryOne
        ((buildTableKeyCondition (gi.table key.TableName) key).Index gi.name)) item).1
    · simp [dynamo.Query.OneWithContext, hrun, metricsRecords_emit_driver]
    · simp only [dynamo.Query.OneWithContext, hrun]
      split <;> simp [metricsRecords_logInfo, metricsRecords_emit_driver]

/-- The body of `GlobalIndex.GetItemsWithContext` adds no record. -/
theorem GlobalIndex.indexGetItemsBody_records (gi : GlobalIndex) (ctx : Context) (key : Key)
    (items : GoValue) (w : World) :
    metricsRecords (gi.getItemsBody ctx key items w).world.trace = metricsRecords w.trace := by
  unfold GlobalIndex.getItemsBody
  split
  · rfl
  · simp [metricsRecords_getManyResult, dynamo.Query.AllWithContext, metricsRecords_emit_driver]

/-- The body of `GlobalIndex.GetItemsWithRangeWithContext` adds no record. -/
theorem GlobalIndex.getItemsWithRangeBody_records (gi : GlobalIndex) (ctx : Context) (key : Key)
    (items : GoValue) (w : World) :
    metricsRecords (gi.getItemsWithRangeBody ctx key items w).world.trace =
      metricsRecords w.trace := by
  unfold GlobalIndex.getItemsWithRangeBody
  split
  · rfl
  · simp [metricsRecords_getManyResult, dynamo.Query.AllWithContext, metricsRecords_emit_driver]

/-- C6: every single-key operation of the repository and of an index handle calls `Record`
on the aggregator exactly once, whatever the inputs and the driver answer (validation error,
driver error, success), and `DeleteItemsWithContext` and `BatchGetItemsWithContext` call it
exactly once per key of the input list, in list order, every call with the same duration
and the same success flag. -/
theorem record_once_per_key (repository : Repository) (gi : GlobalIndex) (ctx : Context)
    (key : Key) (keys : List Key) (query : Query) (item : GoValue)
    (expression : UpdateExpression) (values : List (String × GoValue))
    (updateExpressions : UpdateExpressions) (condition : String) (args : List GoValue)
    (searchLimit : Int) (w : World) :
    RecordsOnce ctx OpRead key w (repository.GetItemWithContext ctx key item w).2 ∧
    RecordsOnce ctx OpCommit key w (repository.SaveItemWithContext ctx key item w).2 ∧
    RecordsOnce ctx OpUpdate key w (repository.UpdateWithContext ctx expression key values w).2 ∧
    RecordsOnce ctx OpUpdate key w
      (repository.UpdateWithUpdateExpressions ctx key updateExpressions w).2 ∧
    RecordsOnce ctx OpUpdate key w
      (repository.UpdateWithUpdateExpressionsAndReturnValue ctx key item updateExpressions w).2 ∧
    RecordsOnce ctx OpUpdate key w
      (repository.ConditionalUpdateWithUpdateExpressionsAndReturnValue ctx key item
        updateExpressions condition args w).2 ∧
    RecordsOnce ctx OpDelete key w (repository.DeleteItemWithContext ctx key w).2 ∧
    RecordsOnce ctx OpCommit key w (repository.SaveItemsWithContext ctx key item w).2 ∧
    RecordsOnce ctx OpRead key w (repository.GetItemsWithContext ctx key item w).2 ∧
    RecordsOnce ctx OpRead query.toKey w (repository.QueryWithContext ctx query item w).2 ∧
    RecordsOnce ctx OpCommit key w (repository.OptimisticLockSaveWithContext ctx key item w).2 ∧
    RecordsOnce ctx OpUpdate key w
      (repository.ConditionalUpdateWithContext ctx key item condition args w).2 ∧
    RecordsOnce ctx OpRead key w (repository.ScanIteratorWithContext ctx key searchLimit w).2 ∧
    RecordsOnce ctx OpRead key w (gi.GetItemWithContext ctx key item w).2 ∧
    RecordsOnce ctx OpRead key w (gi.GetItemsWithContext ctx key item w).2 ∧
    RecordsOnce ctx OpRead key w (gi.GetItemsWithRangeWithContext ctx key item w).2 ∧
    RecordsOnce ctx OpRead query.toKey w (gi.QueryWithContext ctx query item w).2 ∧
    RecordsPerKey ctx OpDelete keys w (repository.DeleteItemsWithContext ctx keys w).2 ∧
    RecordsPerKey ctx OpRead keys w (repository.BatchGetItemsWithContext ctx keys item w).2 := by
  refine ⟨?_, ?_, ?_, ?_, ?_, ?_, ?_, ?_, ?_, ?_, ?_, ?_, ?_, ?_, ?_, ?_, ?_, ?_, ?_⟩
  · exact repository.recordsOnce ctx OpRead key w _ (repository.getItemBody_records ctx key item)
  · exact repository.recordsOnce ctx OpCommit key w _ (repository.saveItemBody_records key item)
  · exact repository.recordsOnce ctx OpUpdate key w _
      (repository.updateBody_records expression key values)
  · exact repository.recordsOnce ctx OpUpdate key w _
      (repository.updateWithUpdateExpressionsBody_records key updateExpressions)
  · exact repository.recordsOnce ctx OpUpdate key w _
      (repository.updateReturnValueBody_records key item updateExpressions)
  · exact repository.recordsOnce ctx OpUpdate key w _
      (repository.conditionalUpdateReturnValueBody_records ctx key item updateExpressions
        condition args)
  · exact repository.recordsOnce ctx OpDelete key w _ (repository.deleteItemBody_records key)
  · exact repository.recordsOnce ctx OpCommit key w _ (repository.saveItemsBody_records key item)
  · exact repository.recordsOnce ctx OpRead key w _ (repository.getItemsBody_records ctx key item)
  · exact repository.recordsOnce ctx OpRead query.toKey w _
      (metricsRecords_queryBody repository.dynamoClient _ query item)
  · exact repository.recordsOnce ctx OpCommit key w _
      (repository.optimisticLockSaveBody_records ctx key item)
  · exact repository.recordsOnce ctx OpUpdate key w _
      (metricsRecords_conditionalPut repository.dynamoClient ctx key.TableName _ item)
  · exact repository.recordsOnce ctx OpRead key w _
      (repository.scanIteratorBody_records ctx key searchLimit)
  · exact gi.indexRecordsOnce ctx OpRead key w _ (gi.indexGetItemBody_records ctx key item)
  · exact gi.indexRecordsOnce ctx OpRead key w _ (gi.indexGetItemsBody_records ctx key item)
  · exact gi.indexRecordsOnce ctx OpRead key w _ (gi.getItemsWithRangeBody_records ctx key item)
  · exact gi.indexRecordsOnce ctx OpRead query.toKey w _
      (metricsRecords_queryBody gi.dynamoClient _ query item)
  · exact repository.recordsPerKey ctx OpDelete keys w _ (repository.deleteItemsBody_records keys)
  · exact repository.recordsPerKey ctx OpRead keys w _
      (repository.batchGetItemsBody_records ctx keys item)

/-! ### C7: outcome of the get-many operations -/

/-- The tail of the get-many operations meets the contract. -/
theorem getManyResult_outcome (ctx : Context) (tableName : String) (reply : Option GoError × GoValue)
    (w : World) :
    GetManyOutcome reply
      ((getManyResult ctx tableName (reply.1, reply.2, w)).ret.1,
        (getManyResult ctx tableName (reply.1, reply.2, w)).ret.2.1) := by
  refine ⟨?_, ?_, ?_, ?_⟩
  · intro e h hnf
    simp [getManyResult, h, hnf]
  · intro h hs
    rcases hs with hs | hs <;>
      simp [getManyResult, h, hs, hasItems, GoValue.Kind, GoValue.Elem, GoValue.Len]
  · intro x xs h hs
    rcases hs with hs | hs <;>
      simp [getManyResult, h, hs, hasItems, GoValue.Kind, GoValue.Elem, GoValue.Len]
  · intro e h hnf
    simp [getManyResult, h, hnf]

/-- A list of valid keys of one table passes the check of `BatchGetItemsWithContext`. -/
theorem batchGetCheck_none (tableName : String) (keys : List Key)
    (hvalid : ∀ k ∈ keys, isValidKey k = none) (htable : ∀ k ∈ keys, k.TableName = tableName) :
    batchGetCheck tableName keys = none := by
  induction keys with
  | nil => rfl
  | cons key rest ih =>
    have h1 := hvalid key (List.mem_cons_self _ _)
    have h2 := htable key (List.mem_cons_self _ _)
    simp only [batchGetCheck, h1, h2, ne_eq, not_true_eq_false, if_false]
    exact ih (fun k hk => hvalid k (List.mem_cons_of_mem _ hk))
      (fun k hk => htable k (List.mem_cons_of_mem _ hk))

/-- C7: for a valid key, `GetItemsWithContext`, and for a non-empty list of valid keys of one
table, `BatchGetItemsWithContext`, meet the get-many contract with respect to the reply of
the driver to the request they issue: `(false, nil)` when the driver reports not found or
succeeds leaving the destination (a slice or a pointer to a slice) empty, `(true, nil)` when
it succeeds leaving at least one element, `(false, e)` for every other driver error `e`. -/
theorem get_many_outcome (repository : Repository) (ctx : Context) (key key0 : Key)
    (rest : List Key) (items : GoValue) (w : World) (hkey : isValidKey key = none)
    (hvalid : ∀ k ∈ key0 :: rest, isValidKey k = none)
    (htable : ∀ k ∈ key0 :: rest, k.TableName = key0.TableName) :
    GetManyOutcome
      (repository.dynamoClient.fetch
        (DriverCall.QueryAll
          ((repository.table key.TableName).Get (deref key.HashKeyName) key.HashKey)) items)
      ((repository.GetItemsWithContext ctx key items w).1.1,
        (repository.GetItemsWithContext ctx key items w).1.2.1) ∧
    GetManyOutcome
      (repository.dynamoClient.fetch
        (DriverCall.BatchGetAll (repository.batchGetHandle key0.TableName key0) (key0 :: rest))
        items)
      ((repository.BatchGetItemsWithContext ctx (key0 :: rest) items w).1.1,
        (repository.BatchGetItemsWithContext ctx (key0 :: rest) items w).1.2.1) := by
  constructor
  · simp only [Repository.GetItemsWithContext, Exit.runDeferred_fst, Repository.getItemsBody,
      hkey, dynamo.Query.AllWithContext]
    exact getManyResult_outcome _ _ _ _
  · simp only [Repository.BatchGetItemsWithContext, Exit.runDeferred_fst,
      Repository.batchGetItemsBody, batchGetCheck_none _ _ hvalid htable, dynamo.Batch.GetAll]
    exact getManyResult_outcome _ _ _ _

/-- C7 at concrete inputs: with `userKey`, a driver that leaves one element gives
`(true, nil)` for both operations, a driver that leaves the destination empty gives
`(false, nil)`, a driver that reports not found gives `(false, nil)` and a driver that
fails with a plain error gives that error. -/
theorem get_many_outcome_witness :
    isValidKey userKey = none ∧
    (((repoFilling oneUserDest).GetItemsWithContext ctx0 userKey emptyDest world0).1.1,
      ((repoFilling oneUserDest).GetItemsWithContext ctx0 userKey emptyDest world0).1.2.1) =
        (true, none) ∧
    (((repoFilling oneUserDest).BatchGetItemsWithContext ctx0 [userKey] emptyDest world0).1.1,
      ((repoFilling oneUserDest).BatchGetItemsWithContext ctx0 [userKey] emptyDest world0).1.2.1) =
        (true, none) ∧
    (((repoFilling emptyDest).GetItemsWithContext ctx0 userKey emptyDest world0).1.1,
      ((repoFilling emptyDest).GetItemsWithContext ctx0 userKey emptyDest world0).1.2.1) =
        (false, none) ∧
    (((repoReplying (some GoError.dynamoErrNotFound)).BatchGetItemsWithContext ctx0 [userKey]
        emptyDest world0).1.1,
      ((repoReplying (some GoError.dynamoErrNotFound)).BatchGetItemsWithContext ctx0 [userKey]
        emptyDest world0).1.2.1) = (false, none) ∧
    (((repoReplying (some (GoError.errorsNew "invalid query"))).GetItemsWithContext ctx0 userKey
        emptyDest world0).1.1,
      ((repoReplying (some (GoError.errorsNew "invalid query"))).GetItemsWithContext ctx0 userKey
        emptyDest world0).1.2.1) = (false, some (GoError.errorsNew "invalid query")) :=
  have hvalid : ∀ k ∈ [userKey], isValidKey k = none := by
    intro k hk
    rw [List.mem_singleton.mp hk]
    decide
  have htable : ∀ k ∈ [userKey], k.TableName = userKey.TableName := by
    intro k hk
    rw [List.mem_singleton.mp hk]
  ⟨by decide,
    (get_many_outcome (repoFilling oneUserDest) ctx0 userKey userKey [] emptyDest world0
      (by decide) hvalid htable).1.2.2.1 _ _ rfl (Or.inr rfl),
    (get_many_outcome (repoFilling oneUserDest) ctx0 userKey userKey [] emptyDest world0
      (by decide) hvalid htable).2.2.2.1 _ _ rfl (Or.inr rfl),
    (get_many_outcome (repoFilling emptyDest) ctx0 userKey userKey [] emptyDest world0
      (by decide) hvalid htable).1.2.1 rfl (Or.inr rfl),
    (get_many_outcome (repoReplying (some GoError.dynamoErrNotFound)) ctx0 userKey userKey []
      emptyDest world0 (by decide) hvalid htable).2.1 _ rfl rfl,
    (get_many_outcome (repoReplying (some (GoError.errorsNew "invalid query"))) ctx0 userKey
      userKey [] emptyDest world0 (by decide) hvalid htable).1.2.2.2 _ rfl rfl⟩

/-! ### C8: outcome of the three conditional writes -/

/-- The translation of a conditional write error meets the contract. -/
theorem conditionalPut_outcome (db : DB) (ctx : Context) (tableName : String)
    (update : dynamo.Put) (item : GoValue) (w : World) :
    ConditionalOutcome (db.run (DriverCall.PutRun update))
      ((conditionalPut db ctx tableName update item w).ret.1,
        (conditionalPut db ctx tableName update item w).ret.2.1) := by
  refine ⟨?_, ?_, ?_, ?_⟩
  · intro h
    simp [conditionalPut, dynamo.Put.Run, h]
  · intro message h
    simp [conditionalPut, dynamo.Put.Run, h, conditionalResult, awserrCode]
  · intro e h hne
    simp [conditionalPut, dynamo.Put.Run, h, conditionalResult, hne]
  · intro h
    simp [conditionalPut, dynamo.Put.Run, h, conditionalResult, awserrCode]

/-- C8: the three conditional writes meet the conditional write contract with respect to the
reply of the driver to the request they issue: `ConditionalUpdateWithUpdateExpressionsAndReturnValue`
(when the update is prepared without error), `ConditionalUpdateWithContext`, and
`OptimisticLockSaveWithContext` with a model item.  The result is `(true, nil)` when the driver
accepts the write, `(false, nil)` when the driver error is an AWS error whose code is
`ConditionalCheckFailedException`, and `(false, e)` for every other driver error `e`,
including a plain error whose message equals that code. -/
theorem conditional_write_outcome (repository : Repository) (ctx : Context) (key : Key)
    (item : GoValue) (updateExpressions : UpdateExpressions) (update : dynamo.Update)
    (condition : String) (args : List GoValue) (model : Model) (fields : List (String × GoValue))
    (w : World)
    (hprepare : repository.prepareUpdateWithUpdateExpressions key updateExpressions =
      Except.ok update) :
    ConditionalOutcome
      (repository.dynamoClient.fetch (DriverCall.UpdateValue (update.If condition args)) item).1
      ((repository.ConditionalUpdateWithUpdateExpressionsAndReturnValue ctx key item
          updateExpressions condition args w).1.1,
        (repository.ConditionalUpdateWithUpdateExpressionsAndReturnValue ctx key item
          updateExpressions condition args w).1.2.1) ∧
    ConditionalOutcome
      (repository.dynamoClient.run
        (DriverCall.PutRun (((repository.table key.TableName).Put item).If condition args)))
      ((repository.ConditionalUpdateWithContext ctx key item condition args w).1.1,
        (repository.ConditionalUpdateWithContext ctx key item condition args w).1.2.1) ∧
    ConditionalOutcome
      (repository.dynamoClient.run
        (DriverCall.PutRun (((repository.table key.TableName).Put
          (GoValue.model (model.stamp (repository.recordMetrics ctx OpCommit key w).2).1
            fields)).If
          "attribute_not_exists(Version) OR Version = ?" [GoValue.int model.Version])))
      ((repository.OptimisticLockSaveWithContext ctx key (GoValue.model model fields) w).1.1,
        (repository.OptimisticLockSaveWithContext ctx key (GoValue.model model fields)
          w).1.2.1) := by
  refine ⟨⟨?_, ?_, ?_, ?_⟩, ?_, ?_⟩
  · intro h
    simp [Repository.ConditionalUpdateWithUpdateExpressionsAndReturnValue, Exit.runDeferred_fst,
      Repository.conditionalUpdateReturnValueBody, hprepare, dynamo.Update.ValueWithContext, h]
  · intro message h
    simp [Repository.ConditionalUpdateWithUpdateExpressionsAndReturnValue, Exit.runDeferred_fst,
      Repository.conditionalUpdateReturnValueBody, hprepare, dynamo.Update.ValueWithContext, h,
      conditionalResult, awserrCode]
  · intro e h hne
    simp [Repository.ConditionalUpdateWithUpdateExpressionsAndReturnValue, Exit.runDeferred_fst,
      Repository.conditionalUpdateReturnValueBody, hprepare, dynamo.Update.ValueWithContext, h,
      conditionalResult, hne]
  · intro h
    simp [Repository.ConditionalUpdateWithUpdateExpressionsAndReturnValue, Exit.runDeferred_fst,
      Repository.conditionalUpdateReturnValueBody, hprepare, dynamo.Update.ValueWithContext, h,
      conditionalResult, awserrCode]
  · simp only [Repository.ConditionalUpdateWithContext, Exit.runDeferred_fst]
    exact conditionalPut_outcome _ _ _ _ _ _
  · simp only [Repository.OptimisticLockSaveWithContext, Exit.runDeferred_fst,
      Repository.optimisticLockSaveBody]
    exact conditionalPut_outcome _ _ _ _ _ _

/-- C8 at concrete inputs: on `userKey`, an AWS error with the conditional check failed code
makes the expression update return `(false, nil)`, a plain error with that text makes the
conditional put return it as an error, and an accepted optimistic save returns
`(true, nil)`. -/
theorem conditional_write_outcome_witness :
    (((repoReplying (some (GoError.awsErr ErrCodeConditionalCheckFailedException "rejected")))
        |>.ConditionalUpdateWithUpdateExpressionsAndReturnValue ctx0 userKey userItem []
          "UserName = ?" [GoValue.str "user"] world0).1.1,
      ((repoReplying (some (GoError.awsErr ErrCodeConditionalCheckFailedException "rejected")))
        |>.ConditionalUpdateWithUpdateExpressionsAndReturnValue ctx0 userKey userItem []
          "UserName = ?" [GoValue.str "user"] world0).1.2.1) = (false, none) ∧
    (((repoReplying (some (GoError.errorsNew ErrCodeConditionalCheckFailedException)))
        |>.ConditionalUpdateWithContext ctx0 userKey userItem "UserName = ?"
          [GoValue.str "user"] world0).1.1,
      ((repoReplying (some (GoError.errorsNew ErrCodeConditionalCheckFailedException)))
        |>.ConditionalUpdateWithContext ctx0 userKey userItem "UserName = ?"
          [GoValue.str "user"] world0).1.2.1) =
      (false, some (GoError.errorsNew ErrCodeConditionalCheckFailedException)) ∧
    (((repoReplying none).OptimisticLockSaveWithContext ctx0 userKey
        (GoValue.model { Version := 0, CreatedAt := 0, UpdatedAt := 0 } []) world0).1.1,
      ((repoReplying none).OptimisticLockSaveWithContext ctx0 userKey
        (GoValue.model { Version := 0, CreatedAt := 0, UpdatedAt := 0 } []) world0).1.2.1) =
      (true, none) :=
  ⟨(conditional_write_outcome
      (repoReplying (some (GoError.awsErr ErrCodeConditionalCheckFailedException "rejected")))
      ctx0 userKey userItem [] _ "UserName = ?" [GoValue.str "user"]
      { Version := 0, CreatedAt := 0, UpdatedAt := 0 } [] world0 rfl).1.2.1 "rejected" rfl,
    (conditional_write_outcome
      (repoReplying (some (GoError.errorsNew ErrCodeConditionalCheckFailedException)))
      ctx0 userKey userItem [] _ "UserName = ?" [GoValue.str "user"]
      { Version := 0, CreatedAt := 0, UpdatedAt := 0 } [] world0 rfl).2.1.2.2.2 rfl,
    (conditional_write_outcome (repoReplying none) ctx0 userKey userItem [] _ "UserName = ?"
      [GoValue.str "user"] { Version := 0, CreatedAt := 0, UpdatedAt := 0 } [] world0
      rfl).2.2.1 rfl⟩

/-! ### C9 and C10: the optimistic lock protocol -/

/-- The driver calls of a concatenated trace. -/
theorem driverCalls_append (l1 l2 : List Event) :
    driverCalls (l1 ++ l2) = driverCalls l1 ++ driverCalls l2 := by
  induction l1 with
  | nil => rfl
  | cons ev rest ih => cases ev <;> simp [driverCalls, ih]

/-- Recording is not a driver call. -/
theorem driverCalls_recordEvents (m : Metrics) (ctx : Context) (caller : String) (key : Key)
    (duration : Int) (success : Bool) :
    driverCalls (recordEvents m ctx caller key duration success) = [] := by
  have h : ∀ sinks : List Nat, driverCalls
      (sinks.map (fun sink => Event.sinkRecord sink ctx caller key duration success)) = [] := by
    intro sinks
    induction sinks with
    | nil => rfl
    | cons sink rest ih => simpa [driverCalls] using ih
  simp [recordEvents, driverCalls, h]

/-- The translation of a conditional write error issues no driver call. -/
theorem driverCalls_conditionalResult (ctx : Context) (tableName : String) (e : GoError)
    (w : World) :
    driverCalls (conditionalResult ctx tableName e w).2.trace = driverCalls w.trace := by
  unfold conditionalResult
  split <;> simp [logInfo, World.emit, driverCalls_append, driverCalls]

/-- The conditional put issues exactly its put. -/
theorem driverCalls_conditionalPut (db : DB) (ctx : Context) (tableName : String)
    (update : dynamo.Put) (item : GoValue) (w : World) :
    driverCalls (conditionalPut db ctx tableName update item w).world.trace =
      driverCalls w.trace ++ [DriverCall.PutRun update] := by
  unfold conditionalPut
  cases hrun : db.run (DriverCall.PutRun update) <;>
    simp [dynamo.Put.Run, hrun, driverCalls_conditionalResult, World.emit, driverCalls_append,
      driverCalls]

/-- The conditional put hands the item back as it got it. -/
theorem conditionalPut_item (db : DB) (ctx : Context) (tableName : String)
    (update : dynamo.Put) (item : GoValue) (w : World) :
    (conditionalPut db ctx tableName update item w).ret.2.2 = item := by
  unfold conditionalPut
  cases hrun : db.run (DriverCall.PutRun update) <;> simp [dynamo.Put.Run, hrun]

/-- What the three mutations make of a model. -/
theorem Model.stamp_fst (model : Model) (w : World) :
    (model.stamp w).1 =
      { Version := model.Version + 1,
        CreatedAt := if model.CreatedAt = 0 then w.Now w.ticks else model.CreatedAt,
        UpdatedAt := w.Now (if model.CreatedAt = 0 then w.ticks + 1 else w.ticks) } := by
  unfold Model.stamp Model.InitUpdatedAt Model.InitCreatedAt Model.IncreaseVersion
  split <;> simp_all [Now]

/-- C9: for a model item whose in-memory version is `v`, `OptimisticLockSaveWithContext`
issues exactly one driver call, a full-item put on the table of the key whose only condition
is `attribute_not_exists(Version) OR Version = ?` with argument `v` (the value before the
increment); the item it writes, which is also the item the caller holds afterwards, carries
version `v + 1`, an updated timestamp read from `djoemo.Now()` and a created timestamp read
from `djoemo.Now()` if it was zero (kept otherwise); when the driver accepts the put the
result is `(true, nil)`. -/
theorem OptimisticLockSave_protocol (repository : Repository) (ctx : Context) (key : Key)
    (model : Model) (fields : List (String × GoValue)) (w : World) :
    ∃ stamped : Model,
      stamped.Version = model.Version + 1 ∧
      stamped.CreatedAt = (if model.CreatedAt = 0 then w.Now (w.ticks + 1) else model.CreatedAt) ∧
      stamped.UpdatedAt = w.Now (if model.CreatedAt = 0 then w.ticks + 2 else w.ticks + 1) ∧
      driverCalls
          (repository.OptimisticLockSaveWithContext ctx key (GoValue.model model fields) w).2.trace =
        driverCalls w.trace ++
          [DriverCall.PutRun
            { table := key.TableName, item := GoValue.model stamped fields,
              conditions := [{ expression := "attribute_not_exists(Version) OR Version = ?",
                               args := [GoValue.int model.Version] }] }] ∧
      (repository.OptimisticLockSaveWithContext ctx key (GoValue.model model fields) w).1.2.2 =
        GoValue.model stamped fields ∧
      (repository.dynamoClient.run
          (DriverCall.PutRun
            { table := key.TableName, item := GoValue.model stamped fields,
              conditions := [{ expression := "attribute_not_exists(Version) OR Version = ?",
                               args := [GoValue.int model.Version] }] }) = none →
        ((repository.OptimisticLockSaveWithContext ctx key (GoValue.model model fields) w).1.1,
          (repository.OptimisticLockSaveWithContext ctx key (GoValue.model model fields)
            w).1.2.1) = (true, none)) := by
  refine ⟨(model.stamp (repository.recordMetrics ctx OpCommit key w).2).1, ?_, ?_, ?_, ?_, ?_, ?_⟩
  · simp [Model.stamp_fst]
  · simp [Model.stamp_fst, Repository.recordMetrics, timeNow]
  · simp [Model.stamp_fst, Repository.recordMetrics, timeNow, Nat.add_assoc]
  · unfold Repository.OptimisticLockSaveWithContext
    rw [Repository.recordMetrics_exit_trace, driverCalls_append, driverCalls_recordEvents]
    simp only [Repository.optimisticLockSaveBody, driverCalls_conditionalPut, Model.stamp_trace,
      List.append_nil]
    simp [Repository.recordMetrics, timeNow, dynamo.Put.If, dynamo.Table.Put, Repository.table]
  · simp only [Repository.OptimisticLockSaveWithContext, Exit.runDeferred_fst,
      Repository.optimisticLockSaveBody, conditionalPut_item]
  · intro h
    have h1 := (conditionalPut_outcome repository.dynamoClient ctx key.TableName
      (((repository.table key.TableName).Put
        (GoValue.model (model.stamp (repository.recordMetrics ctx OpCommit key w).2).1 fields)).If
        "attribute_not_exists(Version) OR Version = ?" [GoValue.int model.Version])
      (GoValue.model (model.stamp (repository.recordMetrics ctx OpCommit key w).2).1 fields)
      (model.stamp (repository.recordMetrics ctx OpCommit key w).2).2).1 h
    simpa [Repository.OptimisticLockSaveWithContext, Exit.runDeferred_fst,
      Repository.optimisticLockSaveBody] using h1

/-- C9 at concrete inputs: the fresh model item (version 0, zero timestamps) saved on
`userKey` against an accepting driver comes back with version 1, created at the clock
reading 1001 and updated at 1002, and the result is `(true, nil)`. -/
theorem OptimisticLockSave_protocol_witness :
    ∃ stamped : Model, stamped.Version = 1 ∧ stamped.CreatedAt = 1001 ∧
      stamped.UpdatedAt = 1002 ∧
      ((repoReplying none).OptimisticLockSaveWithContext ctx0 userKey modelItem world0).1 =
        (true, none, GoValue.model stamped [("UUID", GoValue.str "uuid")]) := by
  obtain ⟨stamped, hv, hc, hu, -, hitem, hok⟩ :=
    OptimisticLockSave_protocol (repoReplying none) ctx0 userKey
      { Version := 0, CreatedAt := 0, UpdatedAt := 0 } [("UUID", GoValue.str "uuid")] world0
  refine ⟨stamped, by simpa using hv, by simpa [world0] using hc, by simpa [world0] using hu, ?_⟩
  have h := hok rfl
  have h1 : ((repoReplying none).OptimisticLockSaveWithContext ctx0 userKey modelItem
      world0).1.1 = true := congrArg Prod.fst h
  have h2 : ((repoReplying none).OptimisticLockSaveWithContext ctx0 userKey modelItem
      world0).1.2.1 = none := congrArg Prod.snd h
  exact Prod.ext h1 (Prod.ext h2 hitem)

/-- The body of `OptimisticLockSaveWithContext` for an item that is no model. -/
theorem optimisticLockSaveBody_not_model (repository : Repository) (ctx : Context) (key : Key)
    (item : GoValue) (w : World) (hitem : ∀ model fields, item ≠ GoValue.model model fields) :
    repository.optimisticLockSaveBody ctx key item w =
      { ret := (false, some errNotModel, item), err := none, world := w } := by
  unfold Repository.optimisticLockSaveBody
  split
  · exact absurd rfl (hitem _ _)
  · rfl

/-- C10: for an item that does not implement `ModelInterface`, `OptimisticLockSaveWithContext`
returns `(false, err)` with the non-nil type error, leaves the item as it was and issues no
driver call. -/
theorem OptimisticLockSave_rejects_non_model (repository : Repository) (ctx : Context)
    (key : Key) (item : GoValue) (w : World)
    (hitem : ∀ model fields, item ≠ GoValue.model model fields) :
    (repository.OptimisticLockSaveWithContext ctx key item w).1 =
      (false, some errNotModel, item) ∧
    driverCalls (repository.OptimisticLockSaveWithContext ctx key item w).2.trace =
      driverCalls w.trace := by
  constructor
  · simp [Repository.OptimisticLockSaveWithContext, Exit.runDeferred_fst,
      optimisticLockSaveBody_not_model repository ctx key item _ hitem]
  · unfold Repository.OptimisticLockSaveWithContext
    rw [Repository.recordMetrics_exit_trace, driverCalls_append, driverCalls_recordEvents,
      optimisticLockSaveBody_not_model repository ctx key item _ hitem]
    simp [Repository.recordMetrics, timeNow]

/-- C10 at concrete inputs: a plain user struct pointer on `userKey` is rejected with the type
error, unchanged, and the trace holds no driver call. -/
theorem OptimisticLockSave_rejects_non_model_witness :
    ((repoReplying none).OptimisticLockSaveWithContext ctx0 userKey userItem world0).1 =
      (false, some errNotModel, userItem) ∧
    driverCalls ((repoReplying none).OptimisticLockSaveWithContext ctx0 userKey userItem
      world0).2.trace = [] :=
  OptimisticLockSave_rejects_non_model (repoReplying none) ctx0 userKey userItem world0
    (fun _ _ h => GoValue.noConfusion h)

/-! ### C11: the destination check of `QueryWithContext` -/

/-- C11: `QueryWithContext`, on the repository and on an index handle, returns
`ErrInvalidPointerSliceType` for every destination that is not a pointer to a slice, whatever
the key of the query is (no hypothesis on it: the destination check comes first), and all it
adds to the trace is one `Record` with success = false: no driver call is issued. -/
theorem Query_rejects_non_pointer_slice (repository : Repository) (gi : GlobalIndex)
    (ctx : Context) (query : Query) (dest : GoValue) (w : World)
    (hdest : IsPointerOFSlice dest = false) :
    ((repository.QueryWithContext ctx query dest w).1 =
        (some GoError.ErrInvalidPointerSliceType, dest) ∧
      OnlyRecorded repository.metrics ctx OpRead query.toKey false w
        (repository.QueryWithContext ctx query dest w).2) ∧
    ((gi.QueryWithContext ctx query dest w).1 = (some GoError.ErrInvalidPointerSliceType, dest) ∧
      OnlyRecorded gi.metrics ctx OpRead query.toKey false w
        (gi.QueryWithContext ctx query dest w).2) := by
  have hs : isOpSuccess (some (some GoError.ErrInvalidPointerSliceType)) = false := rfl
  refine ⟨⟨?_, ?_⟩, ⟨?_, ?_⟩⟩
  · simp [Repository.QueryWithContext, Exit.runDeferred_fst, queryBody, hdest]
  · unfold OnlyRecorded Repository.QueryWithContext
    rw [Repository.recordMetrics_exit_trace]
    simp [queryBody, hdest, hs, Repository.recordMetrics, timeNow]
  · simp [GlobalIndex.QueryWithContext, Exit.runDeferred_fst, queryBody, hdest]
  · unfold OnlyRecorded GlobalIndex.QueryWithContext
    rw [GlobalIndex.indexRecordMetrics_exit_trace]
    simp [queryBody, hdest, hs, GlobalIndex.recordMetrics, timeNow]

/-- C11 at concrete inputs: a pointer to a struct as destination is rejected both with the
valid query `userQuery` (on the repository) and with a query without table name (on an index
handle), and the repository trace is the one `Record` with success = false. -/
theorem Query_rejects_non_pointer_slice_witness :
    IsPointerOFSlice userItem = false ∧
    ((repoReplying none).QueryWithContext ctx0 userQuery userItem world0).1 =
      (some GoError.ErrInvalidPointerSliceType, userItem) ∧
    ((repoReplying none).QueryWithContext ctx0 userQuery userItem world0).2.trace =
      [Event.metricsRecord ctx0 OpRead userKey 1 false,
        Event.sinkRecord 7 ctx0 OpRead userKey 1 false] ∧
    (((repoReplying none).GIndex "index").QueryWithContext ctx0 noTableQuery userItem world0).1 =
      (some GoError.ErrInvalidPointerSliceType, userItem) :=
  ⟨rfl,
    (Query_rejects_non_pointer_slice (repoReplying none) ((repoReplying none).GIndex "index") ctx0
      userQuery userItem world0 rfl).1.1,
    by
      simpa [OnlyRecorded, recordEvents, world0, repoReplying, userQuery] using
        (Query_rejects_non_pointer_slice (repoReplying none) ((repoReplying none).GIndex "index")
          ctx0 userQuery userItem world0 rfl).1.2,
    (Query_rejects_non_pointer_slice (repoReplying none) ((repoReplying none).GIndex "index") ctx0
      noTableQuery userItem world0 rfl).2.1⟩

/-! ### C13: `DeleteItemsWithContext` with no keys -/

/-- C13: `DeleteItemsWithContext` with an empty (or nil) key list returns nil and leaves the
trace as it was: no driver call, no `Record`. -/
theorem DeleteItems_empty (repository : Repository) (ctx : Context) (w : World) :
    (repository.DeleteItemsWithContext ctx [] w).1 = none ∧
    (repository.DeleteItemsWithContext ctx [] w).2.trace = w.trace ∧
    driverCalls (repository.DeleteItemsWithContext ctx [] w).2.trace = driverCalls w.trace ∧
    metricsRecords (repository.DeleteItemsWithContext ctx [] w).2.trace =
      metricsRecords w.trace := by
  have h : (repository.DeleteItemsWithContext ctx [] w).2.trace = w.trace := rfl
  exact ⟨rfl, h, by rw [h], by rw [h]⟩

/-! ### C12: the request built by `QueryWithContext` -/

/-- Go `v == nil` is false exactly for the values other than the nil interface. -/
theorem GoValue.isNil_eq_false_iff (v : GoValue) : v.isNil = false ↔ v ≠ GoValue.nil := by
  cases v <;> simp [GoValue.isNil]

/-- A valid key has a hash key name, and `deref` reads it. -/
theorem isValidKey_hashKeyName (key : Key) (h : isValidKey key = none) :
    key.HashKeyName = some (deref key.HashKeyName) := by
  unfold isValidKey isValidTableName at h
  split_ifs at h with h1 h2 h3
  cases hn : key.HashKeyName with
  | none => exact absurd (Or.inl hn) h2
  | some name => rfl

/-- A valid key has a table name. -/
theorem isValidKey_tableName (key : Key) (h : isValidKey key = none) : key.TableName ≠ "" := by
  unfold isValidKey isValidTableName at h
  split_ifs at h with h1 h2 h3
  exact h1

/-- A valid key has a hash key value. -/
theorem isValidKey_hashKey (key : Key) (h : isValidKey key = none) : key.HashKey ≠ GoValue.nil := by
  unfold isValidKey isValidTableName at h
  split_ifs at h with h1 h2 h3
  exact (GoValue.isNil_eq_false_iff _).mp (by simpa using h3)

/-- The query body with a valid key and a pointer-to-slice destination issues exactly the
built request. -/
theorem driverCalls_queryBody (db : DB) (q0 : dynamo.Query) (query : Query) (item : GoValue)
    (w : World) (hkey : isValidKey query.toKey = none) (hdest : IsPointerOFSlice item = true) :
    driverCalls (queryBody db q0 query item w).world.trace =
      driverCalls w.trace ++ [DriverCall.QueryAll (buildQuery q0 query)] := by
  unfold queryBody
  cases hrun : (db.fetch (DriverCall.QueryAll (buildQuery q0 query)) item).1 <;>
    simp [hkey, hdest, dynamo.Query.AllWithContext, hrun, World.emit, driverCalls_append,
      driverCalls]

/-- C12 (refuted as stated): the valid query `zeroLimitQuery` has its limit set (to 0), the
destination is a pointer to a slice, and the one request `QueryWithContext` issues carries no
limit. -/
theorem Query_limit_zero_not_carried :
    isValidKey zeroLimitQuery.toKey = none ∧ IsPointerOFSlice emptyDest = true ∧
    zeroLimitQuery.Limit = some 0 ∧
    driverCalls ((repoReplying none).QueryWithContext ctx0 zeroLimitQuery emptyDest world0).2.trace =
      [DriverCall.QueryAll
        { table := "UserTable", hashKey := "UUID", hashValue := GoValue.str "uuid", range := none,
          index := none, limit := none, descending := false }] :=
  ⟨by decide, rfl, rfl, rfl⟩

/-- C12 (amended): for every valid query and pointer-to-slice destination, `QueryWithContext`
issues exactly one driver call, a query on the table of the key with the hash key equality
condition and no index; the request has a range condition, with the operator of the query,
exactly when a range key name and a range key value are both set; it carries the limit of the
query when a limit greater than zero is set, and no limit when the limit is unset, zero or
negative; it is ordered descending exactly when the query is descending. -/
theorem Query_request (repository : Repository) (ctx : Context) (query : Query) (dest : GoValue)
    (w : World) (hkey : isValidKey query.toKey = none) (hdest : IsPointerOFSlice dest = true) :
    ∃ r : dynamo.Query,
      driverCalls (repository.QueryWithContext ctx query dest w).2.trace =
        driverCalls w.trace ++ [DriverCall.QueryAll r] ∧
      r.table = query.TableName ∧ query.HashKeyName = some r.hashKey ∧
      r.hashValue = query.HashKey ∧ r.index = none ∧
      (∀ name, query.RangeKeyName = some name → query.RangeKey ≠ GoValue.nil →
        r.range = some { name := name, op := query.RangeOp, value := query.RangeKey }) ∧
      (query.RangeKeyName = none ∨ query.RangeKey = GoValue.nil → r.range = none) ∧
      (∀ n, query.Limit = some n → 0 < n → r.limit = some n) ∧
      (∀ n, query.Limit = some n → n ≤ 0 → r.limit = none) ∧
      (query.Limit = none → r.limit = none) ∧
      r.descending = query.Descending := by
  refine ⟨buildQuery
    ((repository.table query.TableName).Get (deref query.HashKeyName) query.HashKey) query,
    ?_, ?_, ?_, ?_, ?_, ?_, ?_, ?_, ?_, ?_, ?_⟩
  · unfold Repository.QueryWithContext
    rw [Repository.recordMetrics_exit_trace, driverCalls_append, driverCalls_recordEvents,
      driverCalls_queryBody _ _ _ _ _ hkey hdest]
    simp [Repository.recordMetrics, timeNow]
  · unfold buildQuery
    split_ifs <;> rfl
  · rw [isValidKey_hashKeyName query.toKey hkey]
    unfold buildQuery
    split_ifs <;> rfl
  · unfold buildQuery
    split_ifs <;> rfl
  · unfold buildQuery
    split_ifs <;> rfl
  · intro name hname hval
    have hnil := (GoValue.isNil_eq_false_iff _).mpr hval
    unfold buildQuery
    split_ifs <;> simp_all [dynamo.Query.Range, dynamo.Query.Limit, dynamo.Query.OrderDescending,
      deref]
  · intro h
    have hcond : ¬ (query.RangeKeyName ≠ none ∧ query.RangeKey.isNil = false) := by
      rintro ⟨h1, h2⟩
      rcases h with h | h
      · exact h1 h
      · exact (GoValue.isNil_eq_false_iff _).mp h2 h
    unfold buildQuery
    split_ifs <;> simp_all [dynamo.Query.Limit, dynamo.Query.OrderDescending, dynamo.Table.Get]
  · intro n hn hpos
    unfold buildQuery
    split_ifs <;> simp_all [dynamo.Query.Range, dynamo.Query.Limit, dynamo.Query.OrderDescending,
      valueFromPtr]
  · intro n hn hle
    have hnot : ¬ (valueFromPtr query.Limit > 0) := by
      simp [hn, valueFromPtr, hle]
    unfold buildQuery
    split_ifs <;> simp_all [dynamo.Query.Range, dynamo.Query.OrderDescending, dynamo.Table.Get]
  · intro hn
    have hnot : ¬ (valueFromPtr query.Limit > 0) := by
      simp [hn, valueFromPtr]
    unfold buildQuery
    split_ifs <;> simp_all [dynamo.Query.Range, dynamo.Query.OrderDescending, dynamo.Table.Get]
  · unfold buildQuery
    split_ifs <;> simp_all [dynamo.Query.Range, dynamo.Query.Limit, dynamo.Query.OrderDescending,
      dynamo.Table.Get]

/-- C12 (amended) at concrete inputs: the query on `ProfileTable` with range key `Email`,
operator `BeginsWith`, limit 2 and descending order issues one request with that range
condition, limit 2 and descending order. -/
theorem Query_request_witness :
    isValidKey profileQuery.toKey = none ∧ IsPointerOFSlice emptyDest = true ∧
    ∃ r : dynamo.Query,
      driverCalls ((repoReplying none).QueryWithContext ctx0 profileQuery emptyDest world0).2.trace =
        [DriverCall.QueryAll r] ∧
      r.table = "ProfileTable" ∧ r.hashKey = "UUID" ∧
      r.range = some { name := "Email", op := Operator.BeginsWith, value := GoValue.str "user" } ∧
      r.limit = some 2 ∧ r.descending = true := by
  refine ⟨by decide, rfl, ?_⟩
  obtain ⟨r, hcall, htable, hhash, -, -, hrange, -, hlimit, -, -, hdesc⟩ :=
    Query_request (repoReplying none) ctx0 profileQuery emptyDest world0 (by decide) rfl
  refine ⟨r, by simpa [world0, driverCalls] using hcall, htable, ?_, ?_, ?_, hdesc⟩
  · have h : some "UUID" = some r.hashKey := hhash
    exact (Option.some.inj h).symm
  · exact hrange "Email" rfl (by simp [profileQuery, profileRangeKey])
  · exact hlimit 2 rfl (by decide)

/-! ### C14, C15: validation and the batched delete of `DeleteItemsWithContext` -/

/-- The deferred recorder of the repository issues no driver call. -/
theorem Repository.recordMetrics_exit_driverCalls {α : Type} (repository : Repository)
    (ctx : Context) (op : String) (key : Key) (w : World) (x : Exit α) :
    driverCalls (x.runDeferred (repository.recordMetrics ctx op key w).1).2.trace =
      driverCalls x.world.trace := by
  rw [Repository.recordMetrics_exit_trace, driverCalls_append, driverCalls_recordEvents]
  simp

/-- The deferred recorder of an index handle issues no driver call. -/
theorem GlobalIndex.indexRecordMetrics_exit_driverCalls {α : Type} (gi : GlobalIndex)
    (ctx : Context) (op : String) (key : Key) (w : World) (x : Exit α) :
    driverCalls (x.runDeferred (gi.recordMetrics ctx op key w).1).2.trace =
      driverCalls x.world.trace := by
  rw [GlobalIndex.indexRecordMetrics_exit_trace, driverCalls_append, driverCalls_recordEvents]
  simp

/-- The loop of `recordMultipleMetrics` issues no driver call. -/
theorem driverCalls_recordEach (metrics : Metrics) (ctx : Context) (op : String)
    (duration : Int) (success : Bool) (keys : List Key) (w : World) :
    driverCalls (recordEach metrics ctx op duration success keys w).trace =
      driverCalls w.trace := by
  induction keys generalizing w with
  | nil => rfl
  | cons key rest ih =>
    simp [recordEach, ih, Metrics.Record_trace, driverCalls_append, driverCalls_recordEvents]

/-- The deferred recorder of the batch operations issues no driver call. -/
theorem Repository.recordMultipleMetrics_exit_driverCalls {α : Type} (repository : Repository)
    (ctx : Context) (op : String) (keys : List Key) (w : World) (x : Exit α) :
    driverCalls (x.runDeferred (repository.recordMultipleMetrics ctx op keys w).1).2.trace =
      driverCalls x.world.trace := by
  simp [Exit.runDeferred, Repository.recordMultipleMetrics, driverCalls_recordEach, timeNow]

/-- The validation loop stops at the first rejected key. -/
theorem firstInvalid_append (pre post : List Key) (bad : Key) (e : GoError)
    (hpre : ∀ k ∈ pre, isValidKey k = none) (hbad : isValidKey bad = some e) :
    firstInvalid (pre ++ bad :: post) = some e := by
  induction pre with
  | nil => simp [firstInvalid, hbad]
  | cons key rest ih =>
    have h1 := hpre key (List.mem_cons_self _ _)
    simp only [List.cons_append, firstInvalid, h1]
    exact ih (fun k hk => hpre k (List.mem_cons_of_mem _ hk))

/-- The validation loop passes a list of valid keys. -/
theorem firstInvalid_none (keys : List Key) (hvalid : ∀ k ∈ keys, isValidKey k = none) :
    firstInvalid keys = none := by
  induction keys with
  | nil => rfl
  | cons key rest ih =>
    have h1 := hvalid key (List.mem_cons_self _ _)
    simp only [firstInvalid, h1]
    exact ih (fun k hk => hvalid k (List.mem_cons_of_mem _ hk))

/-- The body of `DeleteItemsWithContext` on a non-empty list whose validation fails. -/
theorem deleteItemsBody_invalid (repository : Repository) (keys : List Key) (e : GoError)
    (w : World) (hne : keys ≠ []) (h : firstInvalid keys = some e) :
    repository.deleteItemsBody keys w = { ret := some e, err := some e, world := w } := by
  cases keys with
  | nil => exact absurd rfl hne
  | cons key0 rest => simp [Repository.deleteItemsBody, h]

/-- C14: for a key list in which `bad` is the first key that `isValidKey` rejects (every key
before it is valid, any keys may follow), `DeleteItemsWithContext` returns the validation
error of `bad` and issues no driver call, so no batched delete. -/
theorem DeleteItems_first_invalid (repository : Repository) (ctx : Context)
    (pre post : List Key) (bad : Key) (e : GoError) (w : World)
    (hpre : ∀ k ∈ pre, isValidKey k = none) (hbad : isValidKey bad = some e) :
    (repository.DeleteItemsWithContext ctx (pre ++ bad :: post) w).1 = some e ∧
    driverCalls (repository.DeleteItemsWithContext ctx (pre ++ bad :: post) w).2.trace =
      driverCalls w.trace := by
  have hbody := fun w0 => deleteItemsBody_invalid repository (pre ++ bad :: post) e w0
    (by simp) (firstInvalid_append pre post bad e hpre hbad)
  constructor
  · simp [Repository.DeleteItemsWithContext, Exit.runDeferred_fst, hbody]
  · unfold Repository.DeleteItemsWithContext
    rw [Repository.recordMultipleMetrics_exit_driverCalls, hbody]
    simp [Repository.recordMultipleMetrics, timeNow]

/-- C14 at concrete inputs: with a valid key first and keys without hash key value and
without table name after it, the error is the one of the first rejected key,
`ErrInvalidHashKeyValue`, and the trace holds no driver call. -/
theorem DeleteItems_first_invalid_witness :
    isValidKey userKey = none ∧ isValidKey noHashValueKey = some GoError.ErrInvalidHashKeyValue ∧
    ((repoReplying none).DeleteItemsWithContext ctx0 [userKey, noHashValueKey, noTableKey]
      world0).1 = some GoError.ErrInvalidHashKeyValue ∧
    driverCalls ((repoReplying none).DeleteItemsWithContext ctx0
      [userKey, noHashValueKey, noTableKey] world0).2.trace = [] :=
  have hpre : ∀ k ∈ [userKey], isValidKey k = none := by
    intro k hk
    rw [List.mem_singleton.mp hk]
    decide
  ⟨by decide, by decide,
    (DeleteItems_first_invalid (repoReplying none) ctx0 [userKey] [noTableKey] noHashValueKey
      GoError.ErrInvalidHashKeyValue world0 hpre (by decide)).1,
    (DeleteItems_first_invalid (repoReplying none) ctx0 [userKey] [noTableKey] noHashValueKey
      GoError.ErrInvalidHashKeyValue world0 hpre (by decide)).2⟩

/-- C15: for a non-empty list of valid keys, `DeleteItemsWithContext` issues exactly one
driver call, a batched delete on the table of the first key that holds exactly the input
keys in input order, and returns what the driver answers to it (nil or the driver error). -/
theorem DeleteItems_one_batch (repository : Repository) (ctx : Context) (key0 : Key)
    (rest : List Key) (w : World) (hvalid : ∀ k ∈ key0 :: rest, isValidKey k = none) :
    ∃ b : dynamo.Batch,
      b.table = key0.TableName ∧
      driverCalls (repository.DeleteItemsWithContext ctx (key0 :: rest) w).2.trace =
        driverCalls w.trace ++ [DriverCall.BatchWriteDelete b (key0 :: rest)] ∧
      (repository.DeleteItemsWithContext ctx (key0 :: rest) w).1 =
        repository.dynamoClient.run (DriverCall.BatchWriteDelete b (key0 :: rest)) := by
  have hfirst := firstInvalid_none (key0 :: rest) hvalid
  refine ⟨repository.batchByNames key0, ?_, ?_, ?_⟩
  · unfold Repository.batchByNames
    split_ifs <;> rfl
  · unfold Repository.DeleteItemsWithContext
    rw [Repository.recordMultipleMetrics_exit_driverCalls]
    simp only [Repository.deleteItemsBody, hfirst]
    cases hrun : repository.dynamoClient.run
        (DriverCall.BatchWriteDelete (repository.batchByNames key0) (key0 :: rest)) <;>
      simp [dynamo.Batch.WriteDeleteRun, hrun, World.emit, driverCalls_append, driverCalls,
        Repository.recordMultipleMetrics, timeNow]
  · simp only [Repository.DeleteItemsWithContext, Exit.runDeferred_fst, Repository.deleteItemsBody,
      hfirst]
    cases hrun : repository.dynamoClient.run
        (DriverCall.BatchWriteDelete (repository.batchByNames key0) (key0 :: rest)) <;>
      simp [dynamo.Batch.WriteDeleteRun, hrun]

/-- C15 at concrete inputs: two valid keys against a driver that fails with a plain error:
one batched delete with the two keys in order, and that error as the result. -/
theorem DeleteItems_one_batch_witness :
    ∃ b : dynamo.Batch,
      b.table = "UserTable" ∧
      driverCalls ((repoReplying (some (GoError.errorsNew "failed to delete"))).DeleteItemsWithContext
        ctx0 [userKey, userKey1] world0).2.trace =
        [DriverCall.BatchWriteDelete b [userKey, userKey1]] ∧
      ((repoReplying (some (GoError.errorsNew "failed to delete"))).DeleteItemsWithContext ctx0
        [userKey, userKey1] world0).1 = some (GoError.errorsNew "failed to delete") := by
  have hvalid : ∀ k ∈ [userKey, userKey1], isValidKey k = none := by
    intro k hk
    rcases List.mem_cons.mp hk with h | h
    · rw [h]
      decide
    · rw [List.mem_singleton.mp h]
      decide
  obtain ⟨b, htable, hcalls, hres⟩ :=
    DeleteItems_one_batch (repoReplying (some (GoError.errorsNew "failed to delete"))) ctx0
      userKey [userKey1] world0 hvalid
  exact ⟨b, htable, by simpa [world0, driverCalls] using hcalls, hres⟩

/-! ### C16: keys of more than one table in `BatchGetItemsWithContext` -/

/-- The check of `BatchGetItemsWithContext` on valid keys of which one names another table. -/
theorem batchGetCheck_mismatch (tableName : String) (keys : List Key)
    (hvalid : ∀ k ∈ keys, isValidKey k = none) (hdiff : ∃ k ∈ keys, k.TableName ≠ tableName) :
    batchGetCheck tableName keys = some (GoError.ErrInvalidBatchRequest, none) := by
  induction keys with
  | nil =>
    obtain ⟨k, hk, -⟩ := hdiff
    exact absurd hk (List.not_mem_nil k)
  | cons key rest ih =>
    have h1 := hvalid key (List.mem_cons_self _ _)
    by_cases ht : key.TableName = tableName
    · simp only [batchGetCheck, h1, ht, ne_eq, not_true_eq_false, if_false]
      apply ih (fun k hk => hvalid k (List.mem_cons_of_mem _ hk))
      obtain ⟨k, hk, hne⟩ := hdiff
      rcases List.mem_cons.mp hk with h | h
      · exact absurd (h ▸ ht) hne
      · exact ⟨k, h, hne⟩
    · simp [batchGetCheck, h1, ht]

/-- C16: for a non-empty list of individually valid keys in which some key names a table
other than that of the first key, `BatchGetItemsWithContext` returns
`(false, ErrInvalidBatchRequest)`, leaves the destination alone and issues no driver call. -/
theorem BatchGetItems_mixed_tables (repository : Repository) (ctx : Context) (key0 : Key)
    (rest : List Key) (out : GoValue) (w : World)
    (hvalid : ∀ k ∈ key0 :: rest, isValidKey k = none)
    (hdiff : ∃ k ∈ key0 :: rest, k.TableName ≠ key0.TableName) :
    (repository.BatchGetItemsWithContext ctx (key0 :: rest) out w).1 =
      (false, some GoError.ErrInvalidBatchRequest, out) ∧
    driverCalls (repository.BatchGetItemsWithContext ctx (key0 :: rest) out w).2.trace =
      driverCalls w.trace := by
  have hcheck := batchGetCheck_mismatch key0.TableName (key0 :: rest) hvalid hdiff
  constructor
  · simp [Repository.BatchGetItemsWithContext, Exit.runDeferred_fst,
      Repository.batchGetItemsBody, hcheck]
  · unfold Repository.BatchGetItemsWithContext
    rw [Repository.recordMultipleMetrics_exit_driverCalls]
    simp [Repository.batchGetItemsBody, hcheck, Repository.recordMultipleMetrics, timeNow]

/-- C16 at concrete inputs: a key on `UserTable` followed by a key on `ProfileTable`. -/
theorem BatchGetItems_mixed_tables_witness :
    isValidKey userKey = none ∧ isValidKey profileKey = none ∧
    profileKey.TableName ≠ userKey.TableName ∧
    ((repoFilling oneUserDest).BatchGetItemsWithContext ctx0 [userKey, profileKey] emptyDest
      world0).1 = (false, some GoError.ErrInvalidBatchRequest, emptyDest) ∧
    driverCalls ((repoFilling oneUserDest).BatchGetItemsWithContext ctx0 [userKey, profileKey]
      emptyDest world0).2.trace = [] :=
  have hvalid : ∀ k ∈ [userKey, profileKey], isValidKey k = none := by
    intro k hk
    rcases List.mem_cons.mp hk with h | h
    · rw [h]
      decide
    · rw [List.mem_singleton.mp h]
      decide
  have hdiff : ∃ k ∈ [userKey, profileKey], k.TableName ≠ userKey.TableName :=
    ⟨profileKey, by simp, by decide⟩
  ⟨by decide, by decide, by decide,
    (BatchGetItems_mixed_tables (repoFilling oneUserDest) ctx0 userKey [profileKey] emptyDest
      world0 hvalid hdiff).1,
    (BatchGetItems_mixed_tables (repoFilling oneUserDest) ctx0 userKey [profileKey] emptyDest
      world0 hvalid hdiff).2⟩

/-! ### C17: `GetItemsWithContext` ignores the range key -/

/-- The tail of the get-many operations issues no driver call. -/
theorem driverCalls_getManyResult (ctx : Context) (tableName : String)
    (r : Option GoError × GoValue × World) :
    driverCalls (getManyResult ctx tableName r).world.trace = driverCalls r.2.2.trace := by
  unfold getManyResult
  split
  · split <;> simp [logInfo, World.emit, driverCalls_append, driverCalls]
  · rfl

/-- The one request of `GetItemsWithContext` on the repository, for a valid key. -/
theorem Repository.GetItems_driverCalls (repository : Repository) (ctx : Context) (key : Key)
    (items : GoValue) (w : World) (hkey : isValidKey key = none) :
    driverCalls (repository.GetItemsWithContext ctx key items w).2.trace =
      driverCalls w.trace ++
        [DriverCall.QueryAll
          { table := key.TableName, hashKey := deref key.HashKeyName, hashValue := key.HashKey,
            range := none, index := none, limit := none, descending := false }] := by
  unfold Repository.GetItemsWithContext
  rw [Repository.recordMetrics_exit_driverCalls]
  simp [Repository.getItemsBody, hkey, driverCalls_getManyResult, dynamo.Query.AllWithContext,
    World.emit, driverCalls_append, driverCalls, Repository.recordMetrics, timeNow,
    dynamo.Table.Get, Repository.table]

/-- The one request of `GetItemsWithContext` on an index handle, for a valid key. -/
theorem GlobalIndex.GetItems_index_driverCalls (gi : GlobalIndex) (ctx : Context) (key : Key)
    (items : GoValue) (w : World) (hkey : isValidKey key = none) :
    driverCalls (gi.GetItemsWithContext ctx key items w).2.trace =
      driverCalls w.trace ++
        [DriverCall.QueryAll
          { table := key.TableName, hashKey := deref key.HashKeyName, hashValue := key.HashKey,
            range := none, index := some gi.name, limit := none, descending := false }] := by
  unfold GlobalIndex.GetItemsWithContext
  rw [GlobalIndex.indexRecordMetrics_exit_driverCalls]
  simp [GlobalIndex.getItemsBody, hkey, driverCalls_getManyResult, dynamo.Query.AllWithContext,
    World.emit, driverCalls_append, driverCalls, GlobalIndex.recordMetrics, timeNow,
    dynamo.Table.Get, dynamo.Query.Index, GlobalIndex.table]

/-- C17: `GetItemsWithContext`, on the repository and on an index handle, ignores the range
key: for two valid keys that agree on table name, hash key name and hash key value (and may
differ in range key name and value), the driver calls it issues are the same, and the one
request issued has no range condition. -/
theorem GetItems_ignores_range (repository : Repository) (gi : GlobalIndex) (ctx : Context)
    (key1 key2 : Key) (items : GoValue) (w : World)
    (hkey1 : isValidKey key1 = none) (hkey2 : isValidKey key2 = none)
    (htable : key1.TableName = key2.TableName) (hname : key1.HashKeyName = key2.HashKeyName)
    (hhash : key1.HashKey = key2.HashKey) :
    driverCalls (repository.GetItemsWithContext ctx key1 items w).2.trace =
      driverCalls (repository.GetItemsWithContext ctx key2 items w).2.trace ∧
    driverCalls (gi.GetItemsWithContext ctx key1 items w).2.trace =
      driverCalls (gi.GetItemsWithContext ctx key2 items w).2.trace ∧
    (∃ r : dynamo.Query, r.range = none ∧
      driverCalls (repository.GetItemsWithContext ctx key1 items w).2.trace =
        driverCalls w.trace ++ [DriverCall.QueryAll r]) ∧
    (∃ r : dynamo.Query, r.range = none ∧ r.index = some gi.name ∧
      driverCalls (gi.GetItemsWithContext ctx key1 items w).2.trace =
        driverCalls w.trace ++ [DriverCall.QueryAll r]) := by
  refine ⟨?_, ?_, ⟨_, rfl, repository.GetItems_driverCalls ctx key1 items w hkey1⟩,
    ⟨_, rfl, rfl, gi.GetItems_index_driverCalls ctx key1 items w hkey1⟩⟩
  · rw [repository.GetItems_driverCalls ctx key1 items w hkey1,
      repository.GetItems_driverCalls ctx key2 items w hkey2, htable, hname, hhash]
  · rw [gi.GetItems_index_driverCalls ctx key1 items w hkey1,
      gi.GetItems_index_driverCalls ctx key2 items w hkey2, htable, hname, hhash]

/-- C17 at concrete inputs: `userKey` and the same key with the range key `UserName` set give
the same driver calls, on the repository and on the index `index`. -/
theorem GetItems_ignores_range_witness :
    isValidKey userKey = none ∧ isValidKey userRangeKey = none ∧
    userRangeKey.RangeKeyName = some "UserName" ∧
    driverCalls ((repoReplying none).GetItemsWithContext ctx0 userKey emptyDest world0).2.trace =
      driverCalls ((repoReplying none).GetItemsWithContext ctx0 userRangeKey emptyDest
        world0).2.trace ∧
    driverCalls (((repoReplying none).GIndex "index").GetItemsWithContext ctx0 userKey emptyDest
        world0).2.trace =
      driverCalls (((repoReplying none).GIndex "index").GetItemsWithContext ctx0 userRangeKey
        emptyDest world0).2.trace :=
  ⟨by decide, by decide, rfl,
    (GetItems_ignores_range (repoReplying none) ((repoReplying none).GIndex "index") ctx0 userKey
      userRangeKey emptyDest world0 (by decide) (by decide) rfl rfl rfl).1,
    (GetItems_ignores_range (repoReplying none) ((repoReplying none).GIndex "index") ctx0 userKey
      userRangeKey emptyDest world0 (by decide) (by decide) rfl rfl rfl).2.1⟩

/-! ### C18: `SaveItemsWithContext` with items that are no slice -/

/-- The conversion fails on everything that is not a slice. -/
theorem InterfaceToArrayOfInterface_not_slice (args : GoValue) (h : args.Kind ≠ Kind.Slice) :
    InterfaceToArrayOfInterface args = ([], some GoError.ErrInvalidSliceType) := by
  cases args <;> simp_all [InterfaceToArrayOfInterface, GoValue.Kind]

/-- C18: for a valid key and items that are neither a slice nor an array,
`SaveItemsWithContext` returns `ErrInvalidSliceType` and all it adds to the trace is one
`Record` with success = false (no batched write); with a key that `isValidKey` rejects the
validation error of the key is returned instead, for the same items. -/
theorem SaveItems_rejects_non_slice (repository : Repository) (ctx : Context)
    (key badKey : Key) (items : GoValue) (e : GoError) (w : World)
    (hkey : isValidKey key = none) (hitems : NotSequence items)
    (hbad : isValidKey badKey = some e) :
    ((repository.SaveItemsWithContext ctx key items w).1 = some GoError.ErrInvalidSliceType ∧
      OnlyRecorded repository.metrics ctx OpCommit key false w
        (repository.SaveItemsWithContext ctx key items w).2) ∧
    ((repository.SaveItemsWithContext ctx badKey items w).1 = some e ∧
      OnlyRecorded repository.metrics ctx OpCommit badKey false w
        (repository.SaveItemsWithContext ctx badKey items w).2) := by
  have hconv := InterfaceToArrayOfInterface_not_slice items hitems.1
  have hs : isOpSuccess (some (some GoError.ErrInvalidSliceType)) = false := rfl
  have hsb := isOpSuccess_invalid badKey e hbad
  refine ⟨⟨?_, ?_⟩, ⟨?_, ?_⟩⟩
  · simp [Repository.SaveItemsWithContext, Exit.runDeferred_fst, Repository.saveItemsBody, hkey,
      hconv]
  · unfold OnlyRecorded Repository.SaveItemsWithContext
    rw [Repository.recordMetrics_exit_trace]
    simp [Repository.saveItemsBody, hkey, hconv, hs, Repository.recordMetrics, timeNow]
  · simp [Repository.SaveItemsWithContext, Exit.runDeferred_fst, Repository.saveItemsBody, hbad]
  · unfold OnlyRecorded Repository.SaveItemsWithContext
    rw [Repository.recordMetrics_exit_trace]
    simp [Repository.saveItemsBody, hbad, hsb, Repository.recordMetrics, timeNow]

/-- C18 at concrete inputs: a pointer to a struct as items gives `ErrInvalidSliceType` with
`userKey` and `ErrInvalidTableName` with a key without table name; the trace of the first
call is the one `Record` with success = false. -/
theorem SaveItems_rejects_non_slice_witness :
    isValidKey userKey = none ∧ NotSequence userItem ∧
    isValidKey noTableKey = some GoError.ErrInvalidTableName ∧
    ((repoReplying none).SaveItemsWithContext ctx0 userKey userItem world0).1 =
      some GoError.ErrInvalidSliceType ∧
    ((repoReplying none).SaveItemsWithContext ctx0 userKey userItem world0).2.trace =
      [Event.metricsRecord ctx0 OpCommit userKey 1 false,
        Event.sinkRecord 7 ctx0 OpCommit userKey 1 false] ∧
    ((repoReplying none).SaveItemsWithContext ctx0 noTableKey userItem world0).1 =
      some GoError.ErrInvalidTableName :=
  have hitems : NotSequence userItem := ⟨by decide, by decide⟩
  ⟨by decide, hitems, by decide,
    (SaveItems_rejects_non_slice (repoReplying none) ctx0 userKey noTableKey userItem
      GoError.ErrInvalidTableName world0 (by decide) hitems (by decide)).1.1,
    by
      simpa [OnlyRecorded, recordEvents, world0, repoReplying] using
        (SaveItems_rejects_non_slice (repoReplying none) ctx0 userKey noTableKey userItem
          GoError.ErrInvalidTableName world0 (by decide) hitems (by decide)).1.2,
    (SaveItems_rejects_non_slice (repoReplying none) ctx0 userKey noTableKey userItem
      GoError.ErrInvalidTableName world0 (by decide) hitems (by decide)).2.1⟩

/-! ### C19: the request built by `UpdateWithContext` -/

/-- The update request by key, field by field. -/
theorem Repository.updateByKey_eq (repository : Repository) (key : Key) :
    repository.updateByKey key =
      { table := key.TableName, hashKey := deref key.HashKeyName, hashValue := key.HashKey,
        range := if key.RangeKeyName ≠ none ∧ key.RangeKey.isNil = false then
          some (deref key.RangeKeyName, key.RangeKey) else none,
        ops := [], conditions := [] } := by
  unfold Repository.updateByKey
  split_ifs with h <;> simp [dynamo.Update.Range, dynamo.Table.Update, Repository.table]

/-- The loop over the values for a kind other than `SetExpr` whose step appends the operation
`mk expr value`: one such operation per entry, in iteration order. -/
theorem applyValues_simple (expression : UpdateExpression)
    (mk : String → GoValue → dynamo.UpdateOp) (hne : expression ≠ UpdateExpression.SetExpr)
    (hstep : ∀ (u : dynamo.Update) expr value,
      applySimple expression u expr value = { u with ops := u.ops ++ [mk expr value] })
    (values : List (String × GoValue)) (u : dynamo.Update) :
    applyValues expression u values =
      Except.ok { u with ops := u.ops ++ values.map (fun entry => mk entry.1 entry.2) } := by
  induction values generalizing u with
  | nil => simp [applyValues]
  | cons entry rest ih =>
    obtain ⟨expr, value⟩ := entry
    simp only [applyValues, if_neg hne, hstep, ih]
    simp

/-- The loop over the values for `SetExpr` when every value is a slice: one `SetExpr`
operation per entry with the elements of the slice as arguments, in iteration order. -/
theorem applyValues_setExpr (entries : List (String × List GoValue)) (u : dynamo.Update) :
    applyValues UpdateExpression.SetExpr u
        (entries.map (fun entry => (entry.1, GoValue.slice entry.2))) =
      Except.ok
        { u with ops := u.ops ++ entries.map (fun entry => dynamo.UpdateOp.SetExpr entry.1 entry.2) } := by
  induction entries generalizing u with
  | nil => simp [applyValues]
  | cons entry rest ih =>
    obtain ⟨expr, elems⟩ := entry
    simp only [List.map_cons, applyValues, if_true, InterfaceToArrayOfInterface, ih]
    simp [applySimple, dynamo.Update.SetExpr]

/-- When the loop over the values succeeds with `update`, `UpdateWithContext` executes
`update` once and returns the driver answer. -/
theorem UpdateWithContext_ok (repository : Repository) (ctx : Context)
    (expression : UpdateExpression) (key : Key) (values : List (String × GoValue)) (w : World)
    (update : dynamo.Update) (hkey : isValidKey key = none)
    (happly : applyValues expression (repository.updateByKey key) values = Except.ok update) :
    driverCalls (repository.UpdateWithContext ctx expression key values w).2.trace =
      driverCalls w.trace ++ [DriverCall.UpdateRun update] ∧
    (repository.UpdateWithContext ctx expression key values w).1 =
      repository.dynamoClient.run (DriverCall.UpdateRun update) := by
  constructor
  · unfold Repository.UpdateWithContext
    rw [Repository.recordMetrics_exit_driverCalls]
    simp only [Repository.updateBody, hkey, happly]
    cases hrun : repository.dynamoClient.run (DriverCall.UpdateRun update) <;>
      simp [dynamo.Update.RunWithContext, hrun, World.emit, driverCalls_append, driverCalls,
        Repository.recordMetrics, timeNow]
  · simp only [Repository.UpdateWithContext, Exit.runDeferred_fst, Repository.updateBody, hkey,
      happly]
    cases hrun : repository.dynamoClient.run (DriverCall.UpdateRun update) <;>
      simp [dynamo.Update.RunWithContext, hrun]

/-- C19: for every valid key and every values map (visited in iteration order),
`UpdateWithContext` with kind `Add`, `Set`, `SetSet` or `SetIfNotExists`, and with kind
`SetExpr` when every value is a slice, builds one update request addressed by the hash key
(and by the range key when both its name and value are set) that holds, for each entry of
the map, exactly one operation of the requested kind on that attribute (for `SetExpr`: with
the elements of the slice as arguments) and nothing else, executes it once and returns the
driver answer. -/
theorem UpdateWithContext_request (repository : Repository) (ctx : Context) (key : Key)
    (values : List (String × GoValue)) (entries : List (String × List GoValue)) (w : World)
    (hkey : isValidKey key = none) :
    UpdatesWith repository ctx UpdateExpression.Add key values w
      (values.map (fun entry => dynamo.UpdateOp.Add entry.1 entry.2)) ∧
    UpdatesWith repository ctx UpdateExpression.Set key values w
      (values.map (fun entry => dynamo.UpdateOp.Set entry.1 entry.2)) ∧
    UpdatesWith repository ctx UpdateExpression.SetSet key values w
      (values.map (fun entry => dynamo.UpdateOp.SetSet entry.1 entry.2)) ∧
    UpdatesWith repository ctx UpdateExpression.SetIfNotExists key values w
      (values.map (fun entry => dynamo.UpdateOp.SetIfNotExists entry.1 entry.2)) ∧
    UpdatesWith repository ctx UpdateExpression.SetExpr key
      (entries.map (fun entry => (entry.1, GoValue.slice entry.2))) w
      (entries.map (fun entry => dynamo.UpdateOp.SetExpr entry.1 entry.2)) := by
  refine ⟨?_, ?_, ?_, ?_, ?_⟩
  · have h := applyValues_simple UpdateExpression.Add dynamo.UpdateOp.Add (by decide)
      (fun u expr value => by simp [applySimple, dynamo.Update.Add]) values
      (repository.updateByKey key)
    have h2 := UpdateWithContext_ok repository ctx UpdateExpression.Add key values w _ hkey h
    simpa [UpdatesWith, Repository.updateByKey_eq] using h2
  · have h := applyValues_simple UpdateExpression.Set dynamo.UpdateOp.Set (by decide)
      (fun u expr value => by simp [applySimple, dynamo.Update.Set]) values
      (repository.updateByKey key)
    have h2 := UpdateWithContext_ok repository ctx UpdateExpression.Set key values w _ hkey h
    simpa [UpdatesWith, Repository.updateByKey_eq] using h2
  · have h := applyValues_simple UpdateExpression.SetSet dynamo.UpdateOp.SetSet (by decide)
      (fun u expr value => by simp [applySimple, dynamo.Update.SetSet]) values
      (repository.updateByKey key)
    have h2 := UpdateWithContext_ok repository ctx UpdateExpression.SetSet key values w _ hkey h
    simpa [UpdatesWith, Repository.updateByKey_eq] using h2
  · have h := applyValues_simple UpdateExpression.SetIfNotExists dynamo.UpdateOp.SetIfNotExists
      (by decide) (fun u expr value => by simp [applySimple, dynamo.Update.SetIfNotExists]) values
      (repository.updateByKey key)
    have h2 := UpdateWithContext_ok repository ctx UpdateExpression.SetIfNotExists key values w _
      hkey h
    simpa [UpdatesWith, Repository.updateByKey_eq] using h2
  · have h := applyValues_setExpr entries (repository.updateByKey key)
    have h2 := UpdateWithContext_ok repository ctx UpdateExpression.SetExpr key _ w _ hkey h
    simpa [UpdatesWith, Repository.updateByKey_eq] using h2

/-- C19 at concrete inputs: on `userKey`, kind `SetExpr` with the entry
`"Meta.$ = ?" ↦ ["foo", "bar"]` executes one update holding the one `SetExpr` operation with
arguments `"foo"`, `"bar"`, and kind `Set` with two entries executes one update holding the
two `Set` operations. -/
theorem UpdateWithContext_request_witness :
    isValidKey userKey = none ∧
    UpdatesWith (repoReplying none) ctx0 UpdateExpression.SetExpr userKey
      [("Meta.$ = ?", GoValue.slice [GoValue.str "foo", GoValue.str "bar"])] world0
      [dynamo.UpdateOp.SetExpr "Meta.$ = ?" [GoValue.str "foo", GoValue.str "bar"]] ∧
    UpdatesWith (repoReplying none) ctx0 UpdateExpression.Set userKey
      [("UserName", GoValue.str "name2"), ("TraceID", GoValue.str "name4")] world0
      [dynamo.UpdateOp.Set "UserName" (GoValue.str "name2"),
        dynamo.UpdateOp.Set "TraceID" (GoValue.str "name4")] :=
  ⟨by decide,
    (UpdateWithContext_request (repoReplying none) ctx0 userKey []
      [("Meta.$ = ?", [GoValue.str "foo", GoValue.str "bar"])] world0 (by decide)).2.2.2.2,
    (UpdateWithContext_request (repoReplying none) ctx0 userKey
      [("UserName", GoValue.str "name2"), ("TraceID", GoValue.str "name4")] [] world0
      (by decide)).2.1⟩

/-! ### C20: `SetExpr` with a value that is no sequence -/

/-- A value of kind slice is a slice. -/
theorem GoValue.kind_slice (v : GoValue) (h : v.Kind = Kind.Slice) :
    ∃ elems, v = GoValue.slice elems := by
  cases v <;> simp [GoValue.Kind] at h ⊢

/-- The loop over the values fails with nothing but the conversion error. -/
theorem applyValues_error (expression : UpdateExpression) (values : List (String × GoValue))
    (u : dynamo.Update) (err : GoError) (h : applyValues expression u values = Except.error err) :
    err = GoError.ErrInvalidSliceType := by
  induction values generalizing u with
  | nil => simp [applyValues] at h
  | cons entry rest ih =>
    obtain ⟨expr, value⟩ := entry
    unfold applyValues at h
    split_ifs at h with hexpr
    · by_cases hv : value.Kind = Kind.Slice
      · obtain ⟨elems, rfl⟩ := GoValue.kind_slice value hv
        simp only [InterfaceToArrayOfInterface] at h
        exact ih _ h
      · rw [InterfaceToArrayOfInterface_not_slice value hv] at h
        simp only [Except.error.injEq] at h
        exact h.symm
    · exact ih _ h

/-- The loop over the values with kind `SetExpr` fails when some value is not a slice. -/
theorem applyValues_setExpr_bad (values : List (String × GoValue)) (u : dynamo.Update)
    (hbad : ∃ entry ∈ values, entry.2.Kind ≠ Kind.Slice) :
    applyValues UpdateExpression.SetExpr u values = Except.error GoError.ErrInvalidSliceType := by
  induction values generalizing u with
  | nil =>
    obtain ⟨entry, hmem, -⟩ := hbad
    exact absurd hmem (List.not_mem_nil entry)
  | cons entry rest ih =>
    obtain ⟨expr, value⟩ := entry
    by_cases hv : value.Kind = Kind.Slice
    · have hrest : ∃ entry ∈ rest, entry.2.Kind ≠ Kind.Slice := by
        obtain ⟨entry, hmem, hne⟩ := hbad
        rcases List.mem_cons.mp hmem with h | h
        · exact absurd (h ▸ hv) hne
        · exact ⟨entry, h, hne⟩
      obtain ⟨elems, rfl⟩ := GoValue.kind_slice value hv
      simp only [applyValues, if_true, InterfaceToArrayOfInterface]
      exact ih _ hrest
    · simp [applyValues, InterfaceToArrayOfInterface_not_slice value hv]

/-- The loop over the groups fails when a `SetExpr` group holds a value that is not a slice. -/
theorem applyGroups_setExpr_bad (updateExpressions : UpdateExpressions) (u : dynamo.Update)
    (hbad : ∃ group ∈ updateExpressions, group.1 = UpdateExpression.SetExpr ∧
      ∃ entry ∈ group.2, entry.2.Kind ≠ Kind.Slice) :
    applyGroups u updateExpressions = Except.error GoError.ErrInvalidSliceType := by
  induction updateExpressions generalizing u with
  | nil =>
    obtain ⟨group, hmem, -⟩ := hbad
    exact absurd hmem (List.not_mem_nil group)
  | cons group rest ih =>
    obtain ⟨expression, v⟩ := group
    unfold applyGroups
    cases happly : applyValues expression u v with
    | error err => simp [applyValues_error expression v u err happly]
    | ok u1 =>
      simp only
      apply ih
      obtain ⟨g, hmem, hkind, hentry⟩ := hbad
      rcases List.mem_cons.mp hmem with h | h
      · subst h
        simp only at hkind
        subst hkind
        rw [applyValues_setExpr_bad v u hentry] at happly
        exact absurd happly (by simp)
      · exact ⟨g, h, hkind, hentry⟩

/-- C20: for every valid key, `UpdateWithContext` with kind `SetExpr` whose map holds a value
that is not a sequence, and `UpdateWithUpdateExpressions` with a `SetExpr` group that holds
such a value, return `ErrInvalidSliceType` and issue no driver call: no update request is
executed. -/
theorem SetExpr_rejects_non_sequence (repository : Repository) (ctx : Context) (key : Key)
    (values : List (String × GoValue)) (updateExpressions : UpdateExpressions) (w : World)
    (hkey : isValidKey key = none) (hvalues : ∃ entry ∈ values, NotSequence entry.2)
    (hgroups : ∃ group ∈ updateExpressions, group.1 = UpdateExpression.SetExpr ∧
      ∃ entry ∈ group.2, NotSequence entry.2) :
    ((repository.UpdateWithContext ctx UpdateExpression.SetExpr key values w).1 =
        some GoError.ErrInvalidSliceType ∧
      driverCalls (repository.UpdateWithContext ctx UpdateExpression.SetExpr key values w).2.trace =
        driverCalls w.trace) ∧
    ((repository.UpdateWithUpdateExpressions ctx key updateExpressions w).1 =
        some GoError.ErrInvalidSliceType ∧
      driverCalls (repository.UpdateWithUpdateExpressions ctx key updateExpressions w).2.trace =
        driverCalls w.trace) := by
  have h1 : applyValues UpdateExpression.SetExpr (repository.updateByKey key) values =
      Except.error GoError.ErrInvalidSliceType := by
    obtain ⟨entry, hmem, hns⟩ := hvalues
    exact applyValues_setExpr_bad values _ ⟨entry, hmem, hns.1⟩
  have h2 : repository.prepareUpdateWithUpdateExpressions key updateExpressions =
      Except.error GoError.ErrInvalidSliceType := by
    obtain ⟨group, hmem, hkind, entry, hentry, hns⟩ := hgroups
    simp only [Repository.prepareUpdateWithUpdateExpressions, hkey]
    exact applyGroups_setExpr_bad updateExpressions _ ⟨group, hmem, hkind, entry, hentry, hns.1⟩
  refine ⟨⟨?_, ?_⟩, ⟨?_, ?_⟩⟩
  · simp [Repository.UpdateWithContext, Exit.runDeferred_fst, Repository.updateBody, hkey, h1]
  · unfold Repository.UpdateWithContext
    rw [Repository.recordMetrics_exit_driverCalls]
    simp [Repository.updateBody, hkey, h1, Repository.recordMetrics, timeNow]
  · simp [Repository.UpdateWithUpdateExpressions, Exit.runDeferred_fst,
      Repository.updateWithUpdateExpressionsBody, h2]
  · unfold Repository.UpdateWithUpdateExpressions
    rw [Repository.recordMetrics_exit_driverCalls]
    simp [Repository.updateWithUpdateExpressionsBody, h2, Repository.recordMetrics, timeNow]

/-- C20 at concrete inputs: on `userKey`, the entry `"Meta.$ = ?" ↦ "foo"` (a string) after a
well-formed entry makes `UpdateWithContext` with `SetExpr` fail, and the same map as the
`SetExpr` group after a `Set` group makes `UpdateWithUpdateExpressions` fail, both with
`ErrInvalidSliceType` and without a driver call. -/
theorem SetExpr_rejects_non_sequence_witness :
    isValidKey userKey = none ∧ NotSequence (GoValue.str "foo") ∧
    ((repoReplying none).UpdateWithContext ctx0 UpdateExpression.SetExpr userKey
      [("Tags = ?", GoValue.slice [GoValue.str "a"]), ("Meta.$ = ?", GoValue.str "foo")]
      world0).1 = some GoError.ErrInvalidSliceType ∧
    driverCalls ((repoReplying none).UpdateWithContext ctx0 UpdateExpression.SetExpr userKey
      [("Tags = ?", GoValue.slice [GoValue.str "a"]), ("Meta.$ = ?", GoValue.str "foo")]
      world0).2.trace = [] ∧
    ((repoReplying none).UpdateWithUpdateExpressions ctx0 userKey
      [(UpdateExpression.Set, [("UserName", GoValue.str "name2")]),
        (UpdateExpression.SetExpr, [("Meta.$ = ?", GoValue.str "foo")])] world0).1 =
      some GoError.ErrInvalidSliceType ∧
    driverCalls ((repoReplying none).UpdateWithUpdateExpressions ctx0 userKey
      [(UpdateExpression.Set, [("UserName", GoValue.str "name2")]),
        (UpdateExpression.SetExpr, [("Meta.$ = ?", GoValue.str "foo")])] world0).2.trace = [] :=
  have hns : NotSequence (GoValue.str "foo") := ⟨by decide, by decide⟩
  have hvalues : ∃ entry ∈
      [("Tags = ?", GoValue.slice [GoValue.str "a"]), ("Meta.$ = ?", GoValue.str "foo")],
      NotSequence entry.2 := ⟨("Meta.$ = ?", GoValue.str "foo"), by simp, hns⟩
  have hgroups : ∃ group ∈
      [(UpdateExpression.Set, [("UserName", GoValue.str "name2")]),
        (UpdateExpression.SetExpr, [("Meta.$ = ?", GoValue.str "foo")])],
      group.1 = UpdateExpression.SetExpr ∧ ∃ entry ∈ group.2, NotSequence entry.2 :=
    ⟨(UpdateExpression.SetExpr, [("Meta.$ = ?", GoValue.str "foo")]), by simp, rfl,
      ("Meta.$ = ?", GoValue.str "foo"), by simp, hns⟩
  ⟨by decide, hns,
    (SetExpr_rejects_non_sequence (repoReplying none) ctx0 userKey _ _ world0 (by decide) hvalues
      hgroups).1.1,
    (SetExpr_rejects_non_sequence (repoReplying none) ctx0 userKey _ _ world0 (by decide) hvalues
      hgroups).1.2,
    (SetExpr_rejects_non_sequence (repoReplying none) ctx0 userKey _ _ world0 (by decide) hvalues
      hgroups).2.1,
    (SetExpr_rejects_non_sequence (repoReplying none) ctx0 userKey _ _ world0 (by decide) hvalues
      hgroups).2.2⟩

/-! ### C21: `QueryWithContext` on an index handle against the repository -/

/-- Scoping the base request to an index commutes with building the query. -/
theorem buildQuery_Index (q0 : dynamo.Query) (query : Query) (name : String) :
    buildQuery (q0.Index name) query = (buildQuery q0 query).Index name := by
  unfold buildQuery
  split_ifs <;> rfl

/-- The request built from the plain `Table.Get` has no index. -/
theorem buildQuery_Get_index (table : dynamo.Table) (name : String) (value : GoValue)
    (query : Query) : (buildQuery (table.Get name value) query).index = none := by
  unfold buildQuery
  split_ifs <;> rfl

/-- The query body issues no driver call when the destination or the key is rejected. -/
theorem driverCalls_queryBody_rejected (db : DB) (q0 : dynamo.Query) (query : Query)
    (item : GoValue) (w : World)
    (h : IsPointerOFSlice item = false ∨ isValidKey query.toKey ≠ none) :
    driverCalls (queryBody db q0 query item w).world.trace = driverCalls w.trace := by
  unfold queryBody
  split
  · rfl
  · split
    · rfl
    · rename_i hp _ hk
      rcases h with h | h
      · exact absurd h hp
      · exact absurd hk h

/-- The return values of the query body when the destination or the key is rejected do not
depend on the base request. -/
theorem queryBody_rejected_ret (db : DB) (q0 q1 : dynamo.Query) (query : Query) (item : GoValue)
    (w w1 : World) (h : IsPointerOFSlice item = false ∨ isValidKey query.toKey ≠ none) :
    (queryBody db q0 query item w).ret = (queryBody db q1 query item w1).ret := by
  unfold queryBody
  split
  · rfl
  · split
    · rfl
    · rename_i hp _ hk
      rcases h with h | h
      · exact absurd h hp
      · exact absurd hk h

/-- The return values of the query body with a valid key and a pointer-to-slice destination
are the driver reply to the built request. -/
theorem queryBody_ret (db : DB) (q0 : dynamo.Query) (query : Query) (item : GoValue) (w : World)
    (hkey : isValidKey query.toKey = none) (hdest : IsPointerOFSlice item = true) :
    (queryBody db q0 query item w).ret = db.fetch (DriverCall.QueryAll (buildQuery q0 query)) item := by
  unfold queryBody
  simp only [hkey, hdest, dynamo.Query.AllWithContext, Bool.true_eq_false, if_false]
  generalize db.fetch (DriverCall.QueryAll (buildQuery q0 query)) item = reply
  obtain ⟨err, item1⟩ := reply
  cases err <;> rfl

/-- C21: for every index name `n`, query and destination, `GIndex(n).QueryWithContext`
behaves as `Repository.QueryWithContext` except for the index scope.  When the destination is
no pointer to a slice or the key is rejected, both return the same error and neither issues a
driver call.  Otherwise each issues exactly one request and returns the driver reply to it,
and the two requests agree on table, hash condition, range condition with its operator,
limit and order; the one of the repository has no index, the one of the handle has index
`n`. -/
theorem GIndex_Query_refines (repository : Repository) (n : String) (ctx : Context)
    (query : Query) (dest : GoValue) (w : World) :
    (IsPointerOFSlice dest = false ∨ isValidKey query.toKey ≠ none →
      ((repository.GIndex n).QueryWithContext ctx query dest w).1 =
        (repository.QueryWithContext ctx query dest w).1 ∧
      driverCalls ((repository.GIndex n).QueryWithContext ctx query dest w).2.trace =
        driverCalls w.trace ∧
      driverCalls (repository.QueryWithContext ctx query dest w).2.trace = driverCalls w.trace) ∧
    (IsPointerOFSlice dest = true → isValidKey query.toKey = none →
      ∃ r ri : dynamo.Query,
        ri.table = r.table ∧ ri.hashKey = r.hashKey ∧ ri.hashValue = r.hashValue ∧
        ri.range = r.range ∧ ri.limit = r.limit ∧ ri.descending = r.descending ∧
        r.index = none ∧ ri.index = some n ∧
        driverCalls (repository.QueryWithContext ctx query dest w).2.trace =
          driverCalls w.trace ++ [DriverCall.QueryAll r] ∧
        driverCalls ((repository.GIndex n).QueryWithContext ctx query dest w).2.trace =
          driverCalls w.trace ++ [DriverCall.QueryAll ri] ∧
        (repository.QueryWithContext ctx query dest w).1 =
          repository.dynamoClient.fetch (DriverCall.QueryAll r) dest ∧
        ((repository.GIndex n).QueryWithContext ctx query dest w).1 =
          repository.dynamoClient.fetch (DriverCall.QueryAll ri) dest) := by
  constructor
  · intro h
    refine ⟨?_, ?_, ?_⟩
    · simp only [GlobalIndex.QueryWithContext, Repository.QueryWithContext, Exit.runDeferred_fst]
      exact queryBody_rejected_ret _ _ _ _ _ _ _ h
    · unfold GlobalIndex.QueryWithContext
      rw [GlobalIndex.indexRecordMetrics_exit_driverCalls, driverCalls_queryBody_rejected _ _ _ _ _ h]
      simp [GlobalIndex.recordMetrics, timeNow]
    · unfold Repository.QueryWithContext
      rw [Repository.recordMetrics_exit_driverCalls, driverCalls_queryBody_rejected _ _ _ _ _ h]
      simp [Repository.recordMetrics, timeNow]
  · intro hdest hkey
    refine ⟨buildQuery
        ((repository.table query.TableName).Get (deref query.HashKeyName) query.HashKey) query,
      (buildQuery
        ((repository.table query.TableName).Get (deref query.HashKeyName) query.HashKey)
        query).Index n,
      rfl, rfl, rfl, rfl, rfl, rfl, buildQuery_Get_index _ _ _ _, rfl, ?_, ?_, ?_, ?_⟩
    · unfold Repository.QueryWithContext
      rw [Repository.recordMetrics_exit_driverCalls, driverCalls_queryBody _ _ _ _ _ hkey hdest]
      simp [Repository.recordMetrics, timeNow]
    · unfold GlobalIndex.QueryWithContext
      rw [GlobalIndex.indexRecordMetrics_exit_driverCalls,
        driverCalls_queryBody _ _ _ _ _ hkey hdest, buildQuery_Index]
      simp [GlobalIndex.recordMetrics, timeNow, Repository.GIndex, GlobalIndex.table,
        Repository.table]
    · simp only [Repository.QueryWithContext, Exit.runDeferred_fst]
      exact queryBody_ret _ _ _ _ _ hkey hdest
    · simp only [GlobalIndex.QueryWithContext, Exit.runDeferred_fst]
      rw [queryBody_ret _ _ _ _ _ hkey hdest, buildQuery_Index]
      rfl

/-- C21 at concrete inputs: the query `profileQuery` (range key, `BeginsWith`, limit 2,
descending) into a pointer to a slice issues on the repository a request without index and on
the handle of index `"index"` the same request with that index; into a pointer to a struct
both return the same error. -/
theorem GIndex_Query_refines_witness :
    IsPointerOFSlice emptyDest = true ∧ isValidKey profileQuery.toKey = none ∧
    IsPointerOFSlice userItem = false ∧
    (∃ r ri : dynamo.Query,
      ri.range = r.range ∧ ri.limit = r.limit ∧ ri.descending = r.descending ∧
      r.index = none ∧ ri.index = some "index" ∧
      driverCalls ((repoReplying none).QueryWithContext ctx0 profileQuery emptyDest world0).2.trace =
        [DriverCall.QueryAll r] ∧
      driverCalls (((repoReplying none).GIndex "index").QueryWithContext ctx0 profileQuery
        emptyDest world0).2.trace = [DriverCall.QueryAll ri]) ∧
    (((repoReplying none).GIndex "index").QueryWithContext ctx0 profileQuery userItem world0).1 =
      ((repoReplying none).QueryWithContext ctx0 profileQuery userItem world0).1 := by
  refine ⟨rfl, by decide, rfl, ?_, ?_⟩
  · obtain ⟨r, ri, -, -, -, hrange, hlimit, hdesc, hr, hri, hcalls, hicalls, -, -⟩ :=
      (GIndex_Query_refines (repoReplying none) "index" ctx0 profileQuery emptyDest world0).2 rfl
        (by decide)
    exact ⟨r, ri, hrange, hlimit, hdesc, hr, hri, by simpa [world0, driverCalls] using hcalls,
      by simpa [world0, driverCalls] using hicalls⟩
  · exact ((GIndex_Query_refines (repoReplying none) "index" ctx0 profileQuery userItem world0).1
      (Or.inl rfl)).1

/-! ### C22: `GetItemsWithRangeWithContext` against `GetItemsWithContext` on an index -/

/-- The one request of `GetItemsWithRangeWithContext`, for a valid key. -/
theorem GlobalIndex.GetItemsWithRange_driverCalls (gi : GlobalIndex) (ctx : Context) (key : Key)
    (items : GoValue) (w : World) (hkey : isValidKey key = none) :
    driverCalls (gi.GetItemsWithRangeWithContext ctx key items w).2.trace =
      driverCalls w.trace ++
        [DriverCall.QueryAll ((buildTableKeyCondition (gi.table key.TableName) key).Index gi.name)] := by
  unfold GlobalIndex.GetItemsWithRangeWithContext
  rw [GlobalIndex.indexRecordMetrics_exit_driverCalls]
  simp [GlobalIndex.getItemsWithRangeBody, hkey, driverCalls_getManyResult,
    dynamo.Query.AllWithContext, World.emit, driverCalls_append, driverCalls,
    GlobalIndex.recordMetrics, timeNow]

/-- C22: for a valid key with both a range key name and a range key value,
`GlobalIndex.GetItemsWithRangeWithContext` issues one index query with the hash key equality
condition and the equality condition on that range key, while `GlobalIndex.GetItemsWithContext`
issues the index query with the hash condition only; for a valid key with neither range key
name nor range key value the two issue the same request. -/
theorem GetItemsWithRange_adds_range (gi : GlobalIndex) (ctx : Context) (key : Key)
    (items : GoValue) (w : World) (hkey : isValidKey key = none) :
    (∀ name, key.RangeKeyName = some name → key.RangeKey ≠ GoValue.nil →
      driverCalls (gi.GetItemsWithRangeWithContext ctx key items w).2.trace =
        driverCalls w.trace ++
          [DriverCall.QueryAll
            { table := key.TableName, hashKey := deref key.HashKeyName, hashValue := key.HashKey,
              range := some { name := name, op := Operator.Equal, value := key.RangeKey },
              index := some gi.name, limit := none, descending := false }] ∧
      driverCalls (gi.GetItemsWithContext ctx key items w).2.trace =
        driverCalls w.trace ++
          [DriverCall.QueryAll
            { table := key.TableName, hashKey := deref key.HashKeyName, hashValue := key.HashKey,
              range := none, index := some gi.name, limit := none, descending := false }]) ∧
    (key.RangeKeyName = none → key.RangeKey = GoValue.nil →
      driverCalls (gi.GetItemsWithRangeWithContext ctx key items w).2.trace =
        driverCalls (gi.GetItemsWithContext ctx key items w).2.trace) := by
  constructor
  · intro name hname hval
    have hnil := (GoValue.isNil_eq_false_iff _).mpr hval
    refine ⟨?_, gi.GetItems_index_driverCalls ctx key items w hkey⟩
    rw [gi.GetItemsWithRange_driverCalls ctx key items w hkey]
    simp [buildTableKeyCondition, hname, hnil, dynamo.Query.Range, dynamo.Query.Index,
      dynamo.Table.Get, GlobalIndex.table, deref]
  · intro hname hval
    rw [gi.GetItemsWithRange_driverCalls ctx key items w hkey,
      gi.GetItems_index_driverCalls ctx key items w hkey]
    simp [buildTableKeyCondition, hname, dynamo.Query.Index, dynamo.Table.Get, GlobalIndex.table]

/-- C22 at concrete inputs: on the index `"index"`, the key `userRangeKey` (range key
`UserName = "user"`) gives a request with the range equality condition for
`GetItemsWithRangeWithContext`, and `userKey` (no range key) gives the same driver calls for
both operations. -/
theorem GetItemsWithRange_adds_range_witness :
    isValidKey userRangeKey = none ∧ isValidKey userKey = none ∧
    driverCalls (((repoReplying none).GIndex "index").GetItemsWithRangeWithContext ctx0
      userRangeKey emptyDest world0).2.trace =
      [DriverCall.QueryAll
        { table := "UserTable", hashKey := "UUID", hashValue := GoValue.str "uuid",
          range := some { name := "UserName", op := Operator.Equal, value := GoValue.str "user" },
          index := some "index", limit := none, descending := false }] ∧
    driverCalls (((repoReplying none).GIndex "index").GetItemsWithRangeWithContext ctx0 userKey
      emptyDest world0).2.trace =
      driverCalls (((repoReplying none).GIndex "index").GetItemsWithContext ctx0 userKey emptyDest
        world0).2.trace :=
  ⟨by decide, by decide,
    ((GetItemsWithRange_adds_range ((repoReplying none).GIndex "index") ctx0 userRangeKey
      emptyDest world0 (by decide)).1 "UserName" rfl (by simp [userRangeKey])).1,
    (GetItemsWithRange_adds_range ((repoReplying none).GIndex "index") ctx0 userKey emptyDest
      world0 (by decide)).2 rfl rfl⟩

/-! ### C23: `ScanIteratorWithContext` validates the table name only -/

/-- C23: for every key with a non-empty table name, whatever its hash key name and value are,
`ScanIteratorWithContext` returns a non-nil iterator on that table whose scan carries the
given limit, with a nil error; for every key with an empty table name it returns
`(nil, ErrInvalidTableName)`; in both cases it issues no driver call. -/
theorem ScanIterator_validates_table_only (repository : Repository) (ctx : Context) (key : Key)
    (searchLimit : Int) (w : World) :
    (key.TableName ≠ "" →
      (repository.ScanIteratorWithContext ctx key searchLimit w).1 =
        (some { scan := { table := key.TableName, searchLimit := some searchLimit },
                tableName := key.TableName, searchLimit := searchLimit, ctx := ctx }, none)) ∧
    (key.TableName = "" →
      (repository.ScanIteratorWithContext ctx key searchLimit w).1 =
        (none, some GoError.ErrInvalidTableName)) ∧
    driverCalls (repository.ScanIteratorWithContext ctx key searchLimit w).2.trace =
      driverCalls w.trace := by
  refine ⟨?_, ?_, ?_⟩
  · intro h
    simp [Repository.ScanIteratorWithContext, Exit.runDeferred_fst, Repository.scanIteratorBody,
      isValidTableName, h, dynamo.Scan.SearchLimit, dynamo.Table.Scan, Repository.table]
  · intro h
    simp [Repository.ScanIteratorWithContext, Exit.runDeferred_fst, Repository.scanIteratorBody,
      isValidTableName, h]
  · unfold Repository.ScanIteratorWithContext
    rw [Repository.recordMetrics_exit_driverCalls]
    unfold Repository.scanIteratorBody
    split <;> simp [Repository.recordMetrics, timeNow]

/-- C23 at concrete inputs: a key with only the table name set (no hash key name, no hash key
value, rejected by `isValidKey`) gets an iterator with limit 1; a key without table name gets
`ErrInvalidTableName`. -/
theorem ScanIterator_validates_table_only_witness :
    isValidKey tableOnlyKey = some GoError.ErrInvalidHashKeyName ∧
    ((repoReplying none).ScanIteratorWithContext ctx0 tableOnlyKey 1 world0).1 =
      (some { scan := { table := "UserTable", searchLimit := some 1 }, tableName := "UserTable",
              searchLimit := 1, ctx := ctx0 }, none) ∧
    ((repoReplying none).ScanIteratorWithContext ctx0 noTableKey 1 world0).1 =
      (none, some GoError.ErrInvalidTableName) ∧
    driverCalls ((repoReplying none).ScanIteratorWithContext ctx0 tableOnlyKey 1 world0).2.trace =
      [] :=
  ⟨by decide,
    (ScanIterator_validates_table_only (repoReplying none) ctx0 tableOnlyKey 1 world0).1
      (by decide),
    (ScanIterator_validates_table_only (repoReplying none) ctx0 noTableKey 1 world0).2.1 rfl,
    (ScanIterator_validates_table_only (repoReplying none) ctx0 tableOnlyKey 1 world0).2.2⟩

/-! ### C24: the fan-out of the metrics aggregator -/

/-- The sink calls of a concatenated trace. -/
theorem sinkCalls_append (l1 l2 : List Event) :
    sinkCalls (l1 ++ l2) = sinkCalls l1 ++ sinkCalls l2 := by
  induction l1 with
  | nil => rfl
  | cons ev rest ih => cases ev <;> simp [sinkCalls, ih]

/-- The sink calls among the events of one `Record` on the aggregator. -/
theorem sinkCalls_recordEvents (m : Metrics) (ctx : Context) (caller : String) (key : Key)
    (duration : Int) (success : Bool) :
    sinkCalls (recordEvents m ctx caller key duration success) =
      m.metrics.map (fun sink =>
        { sink := sink, ctx := ctx, caller := caller, key := key, duration := duration,
          success := success }) := by
  have h : ∀ sinks : List Nat, sinkCalls
      (sinks.map (fun sink => Event.sinkRecord sink ctx caller key duration success)) =
      sinks.map (fun sink =>
        ({ sink := sink, ctx := ctx, caller := caller, key := key, duration := duration,
           success := success } : SinkCall)) := by
    intro sinks
    induction sinks with
    | nil => rfl
    | cons sink rest ih => simp [sinkCalls, ih]
  simp [recordEvents, sinkCalls, h]

/-- C24: `Metrics.Add` appends the sink at the end of the registered list, keeping the
earlier sinks and their order; `Metrics.Record` calls `Record` on every registered sink
exactly once, in registration order, with the context, operation name, key, duration and
success flag it was given, issues no driver call and takes no clock reading; with zero sinks
it calls no sink: all that is left in the trace is the entry of the call itself. -/
theorem Metrics_fan_out (m : Metrics) (metric : Nat) (ctx : Context) (caller : String)
    (key : Key) (duration : Int) (success : Bool) (w : World) :
    (m.Add metric).metrics = m.metrics ++ [metric] ∧
    sinkCalls (m.Record ctx caller key duration success w).trace =
      sinkCalls w.trace ++ m.metrics.map (fun sink =>
        { sink := sink, ctx := ctx, caller := caller, key := key, duration := duration,
          success := success }) ∧
    sinkCalls ((m.Add metric).Record ctx caller key duration success w).trace =
      sinkCalls (m.Record ctx caller key duration success w).trace ++
        [{ sink := metric, ctx := ctx, caller := caller, key := key, duration := duration,
           success := success }] ∧
    driverCalls (m.Record ctx caller key duration success w).trace = driverCalls w.trace ∧
    (m.Record ctx caller key duration success w).ticks = w.ticks ∧
    New.Record ctx caller key duration success w =
      w.emit (Event.metricsRecord ctx caller key duration success) ∧
    sinkCalls (New.Record ctx caller key duration success w).trace = sinkCalls w.trace := by
  have hrec : ∀ m0 : Metrics, sinkCalls (m0.Record ctx caller key duration success w).trace =
      sinkCalls w.trace ++ m0.metrics.map (fun sink =>
        ({ sink := sink, ctx := ctx, caller := caller, key := key, duration := duration,
           success := success } : SinkCall)) := by
    intro m0
    rw [Metrics.Record_trace, sinkCalls_append, sinkCalls_recordEvents]
  refine ⟨rfl, hrec m, ?_, ?_, ?_, rfl, ?_⟩
  · rw [hrec, hrec]
    simp [Metrics.Add]
  · rw [Metrics.Record_trace, driverCalls_append, driverCalls_recordEvents]
    simp
  · unfold Metrics.Record
    rw [foldl_emit_ticks]
    rfl
  · rw [hrec]
    simp [New]

/-! ### C25: labels carried by the context -/

/-- Looking up another key is not affected by dropping the entries of `key`. -/
theorem lookup_filter_ne (labels : List (String × String)) (key other : String)
    (hne : other ≠ key) :
    (labels.filter (fun entry => entry.1 != key)).lookup other = labels.lookup other := by
  induction labels with
  | nil => rfl
  | cons entry rest ih =>
    obtain ⟨k, v⟩ := entry
    by_cases hk : k = key
    · subst hk
      have h1 : (other == k) = false := by simpa using hne
      simp [List.filter, List.lookup, h1, ih]
    · have h2 : (k != key) = true := by simpa using hk
      simp only [List.filter, h2, List.lookup, ih]

/-- After the map assignment the key holds the value. -/
theorem lookup_mapSet_self (labels : List (String × String)) (key value : String) :
    (mapSet labels key value).lookup key = some value := by
  simp [mapSet, List.lookup]

/-- The map assignment leaves the other keys alone. -/
theorem lookup_mapSet_ne (labels : List (String × String)) (key value other : String)
    (hne : other ≠ key) : (mapSet labels key value).lookup other = labels.lookup other := by
  have h1 : (other == key) = false := by simpa using hne
  simp [mapSet, List.lookup, h1, lookup_filter_ne labels key other hne]

/-- C25: for every context `ctx` and strings `k`, `v`: the labels of the context returned by
`AddMetrics(ctx, k, v)` hold `v` under `k` (also as the Go map index), every other name holds
what it held in the labels of `ctx` (labels added earlier are still present),
`WithSourceLabel(ctx, v)` is `AddMetrics(ctx, "source", v)`, and `LabelsFromContext` of a
context that never received a label is nil. -/
theorem AddMetrics_labels (ctx : Context) (k v : String) :
    labelOf (LabelsFromContext (AddMetrics ctx k v).1) k = some v ∧
    mapIndex (LabelsFromContext (AddMetrics ctx k v).1) k = v ∧
    (∀ other, other ≠ k →
      labelOf (LabelsFromContext (AddMetrics ctx k v).1) other =
        labelOf (LabelsFromContext ctx) other) ∧
    WithSourceLabel ctx v = AddMetrics ctx "source" v ∧
    LabelsFromContext { labels := none } = none := by
  have hself : labelOf (LabelsFromContext (AddMetrics ctx k v).1) k = some v := by
    unfold AddMetrics LabelsFromContext labelOf
    cases ctx.labels <;> simp [lookup_mapSet_self]
  refine ⟨hself, ?_, ?_, rfl, rfl⟩
  · simp [mapIndex, hself]
  · intro other hne
    unfold AddMetrics LabelsFromContext labelOf
    cases hl : ctx.labels with
    | none => simp [lookup_mapSet_ne _ _ _ _ hne]
    | some labels => simp [lookup_mapSet_ne _ _ _ _ hne]

/-- C25 at concrete inputs: adding `"source" ↦ "FooBarAPI"` and then `"team" ↦ "ads"` to a
context without labels gives a context whose labels hold both. -/
theorem AddMetrics_labels_witness :
    mapIndex (LabelsFromContext (AddMetrics (WithSourceLabel ctx0 "FooBarAPI").1 "team" "ads").1)
      "team" = "ads" ∧
    labelOf (LabelsFromContext (AddMetrics (WithSourceLabel ctx0 "FooBarAPI").1 "team" "ads").1)
      "source" = some "FooBarAPI" ∧
    LabelsFromContext ctx0 = none :=
  ⟨(AddMetrics_labels (WithSourceLabel ctx0 "FooBarAPI").1 "team" "ads").2.1,
    ((AddMetrics_labels (WithSourceLabel ctx0 "FooBarAPI").1 "team" "ads").2.2.1 "source"
      (by decide)).trans (AddMetrics_labels ctx0 "source" "FooBarAPI").1,
    rfl⟩

/-! ### C26: `InterfaceToArrayOfInterface` -/

/-- C26: for every slice input `InterfaceToArrayOfInterface` returns a nil error and a result
of the same length whose element at every index is the element of the input at that index;
for every input that is not a slice it returns a nil result and `ErrInvalidSliceType`. -/
theorem InterfaceToArrayOfInterface_spec :
    (∀ elems : List GoValue,
      (InterfaceToArrayOfInterface (GoValue.slice elems)).2 = none ∧
      (InterfaceToArrayOfInterface (GoValue.slice elems)).1.length = elems.length ∧
      ∀ i : Nat, (InterfaceToArrayOfInterface (GoValue.slice elems)).1[i]? = elems[i]?) ∧
    (∀ args : GoValue, args.Kind ≠ Kind.Slice →
      InterfaceToArrayOfInterface args = ([], some GoError.ErrInvalidSliceType)) :=
  ⟨fun _ => ⟨rfl, rfl, fun _ => rfl⟩, InterfaceToArrayOfInterface_not_slice⟩

/-- C26 at concrete inputs: the slice `["a", "b"]` converts to its two elements, the string
`"a"` gives a nil result and `ErrInvalidSliceType`. -/
theorem InterfaceToArrayOfInterface_spec_witness :
    InterfaceToArrayOfInterface (GoValue.slice [GoValue.str "a", GoValue.str "b"]) =
      ([GoValue.str "a", GoValue.str "b"], none) ∧
    InterfaceToArrayOfInterface (GoValue.str "a") = ([], some GoError.ErrInvalidSliceType) :=
  ⟨rfl, InterfaceToArrayOfInterface_spec.2 (GoValue.str "a") (by decide)⟩

/-! ### C27: validation and the range key -/

/-- C27 (refuted as stated): a key with table name, hash key name and hash key value and with
a range key name but no range key value passes `isValidKey`, and `SaveItemsWithContext`
accepts it: the batched write is issued and nil is returned.  A key with a range key value
but no range key name passes as well, and `GetItemWithContext` fetches with it. -/
theorem one_sided_range_key_accepted :
    rangeNameOnlyKey.RangeKeyName = some "UserName" ∧ rangeNameOnlyKey.RangeKey = GoValue.nil ∧
    isValidKey rangeNameOnlyKey = none ∧
    ((repoReplying none).SaveItemsWithContext ctx0 rangeNameOnlyKey twoUsers world0).1 = none ∧
    driverCalls ((repoReplying none).SaveItemsWithContext ctx0 rangeNameOnlyKey twoUsers
      world0).2.trace =
      [DriverCall.BatchWritePut
        { table := "UserTable", hashKey := "UUID", rangeKey := some "UserName" }
        [GoValue.struct [("UUID", GoValue.str "uuid1"), ("UserName", GoValue.str "name1")],
         GoValue.struct [("UUID", GoValue.str "uuid2"), ("UserName", GoValue.str "name2")]]] ∧
    rangeValueOnlyKey.RangeKeyName = none ∧ rangeValueOnlyKey.RangeKey = GoValue.str "name1" ∧
    isValidKey rangeValueOnlyKey = none ∧
    ((repoReplying none).GetItemWithContext ctx0 rangeValueOnlyKey userItem world0).1 =
      (true, none, userItem) :=
  ⟨rfl, rfl, by decide, rfl, rfl, rfl, rfl, by decide, rfl⟩

/-- C27 (amended): whether the operations that validate keys accept a key depends only on its
table name, hash key name and hash key value: replacing the range key name and the range key
value by anything, present or absent, does not change the answer of `isValidKey`; so a key with
the three present is accepted also when only one of range key name and value is present. -/
theorem isValidKey_ignores_range (key : Key) (rangeKeyName : Option String)
    (rangeKey : GoValue) :
    isValidKey { key with RangeKeyName := rangeKeyName, RangeKey := rangeKey } = isValidKey key ∧
    (isValidKey key = none →
      isValidKey { key with RangeKeyName := rangeKeyName, RangeKey := rangeKey } = none) := by
  have h : isValidKey { key with RangeKeyName := rangeKeyName, RangeKey := rangeKey } =
      isValidKey key := rfl
  exact ⟨h, fun hk => h.trans hk⟩

/-- C27 (amended) at concrete inputs: `userKey` is valid, and so is `userKey` with a range
key name and no range key value. -/
theorem isValidKey_ignores_range_witness :
    isValidKey userKey = none ∧
    isValidKey { userKey with RangeKeyName := some "UserName", RangeKey := GoValue.nil } = none :=
  ⟨by decide, (isValidKey_ignores_range userKey (some "UserName") GoValue.nil).2 (by decide)⟩

/-! ### C28: `UpdateWithContext` against `UpdateWithUpdateExpressions` with one group -/

/-- Preparing an update with the one group `{expression: values}` is validating the key and
running the loop over the values. -/
theorem prepareUpdate_single (repository : Repository) (key : Key)
    (expression : UpdateExpression) (values : List (String × GoValue)) :
    repository.prepareUpdateWithUpdateExpressions key [(expression, values)] =
      match isValidKey key with
      | some e => Except.error e
      | none => applyValues expression (repository.updateByKey key) values := by
  unfold Repository.prepareUpdateWithUpdateExpressions
  cases isValidKey key with
  | some e => rfl
  | none =>
    simp only [applyGroups]
    cases applyValues expression (repository.updateByKey key) values <;> rfl

/-- The bodies of the two update operations return the same value and leave the same trace
(they may differ in the value of `err` seen by the recorder). -/
theorem updateBody_single (repository : Repository) (expression : UpdateExpression) (key : Key)
    (values : List (String × GoValue)) (w : World) :
    (repository.updateBody expression key values w).ret =
      (repository.updateWithUpdateExpressionsBody key [(expression, values)] w).ret ∧
    (repository.updateBody expression key values w).world =
      (repository.updateWithUpdateExpressionsBody key [(expression, values)] w).world := by
  unfold Repository.updateBody Repository.updateWithUpdateExpressionsBody
  rw [prepareUpdate_single]
  cases isValidKey key with
  | some e => exact ⟨rfl, rfl⟩
  | none =>
    cases applyValues expression (repository.updateByKey key) values with
    | error e => exact ⟨rfl, rfl⟩
    | ok update => exact ⟨rfl, rfl⟩

/-- C28: for every key, expression kind `e` and values map `m`, `UpdateWithContext(e, key, m)`
and `UpdateWithUpdateExpressions(key, {e: m})` return the same value (the same validation or
slice conversion error, or the driver answer) and issue the same driver calls: none on an
error before the request, otherwise the execution of the same update request. -/
theorem Update_single_group_equivalence (repository : Repository) (ctx : Context)
    (expression : UpdateExpression) (key : Key) (values : List (String × GoValue)) (w : World) :
    (repository.UpdateWithContext ctx expression key values w).1 =
      (repository.UpdateWithUpdateExpressions ctx key [(expression, values)] w).1 ∧
    driverCalls (repository.UpdateWithContext ctx expression key values w).2.trace =
      driverCalls (repository.UpdateWithUpdateExpressions ctx key [(expression, values)]
        w).2.trace := by
  constructor
  · simp only [Repository.UpdateWithContext, Repository.UpdateWithUpdateExpressions,
      Exit.runDeferred_fst]
    exact (updateBody_single repository expression key values _).1
  · unfold Repository.UpdateWithContext Repository.UpdateWithUpdateExpressions
    rw [Repository.recordMetrics_exit_driverCalls, Repository.recordMetrics_exit_driverCalls,
      (updateBody_single repository expression key values _).2]

/-! ### C29: the in-memory item after a failed optimistic save -/

/-- C29: `OptimisticLockSaveWithContext` does not restore the in-memory item.  For a model item
with version `v`, whenever the driver answers the conditional put with an error `e`, the
result is `(false, nil)` if `e` is an AWS error with the conditional check failed code and
`(false, e)` otherwise, and in both cases the item the caller holds afterwards carries version
`v + 1`, an updated timestamp read from `djoemo.Now()` and a created timestamp read from
`djoemo.Now()` if it was zero: it is the stamped item that was sent, not the item with
version `v`. -/
theorem OptimisticLockSave_keeps_stamp_on_failure (repository : Repository) (ctx : Context)
    (key : Key) (model : Model) (fields : List (String × GoValue)) (w : World) :
    ∃ stamped : Model,
      stamped.Version = model.Version + 1 ∧
      stamped.CreatedAt = (if model.CreatedAt = 0 then w.Now (w.ticks + 1) else model.CreatedAt) ∧
      stamped.UpdatedAt = w.Now (if model.CreatedAt = 0 then w.ticks + 2 else w.ticks + 1) ∧
      GoValue.model stamped fields ≠ GoValue.model model fields ∧
      ∀ e, repository.dynamoClient.run
          (DriverCall.PutRun
            { table := key.TableName, item := GoValue.model stamped fields,
              conditions := [{ expression := "attribute_not_exists(Version) OR Version = ?",
                               args := [GoValue.int model.Version] }] }) = some e →
        (repository.OptimisticLockSaveWithContext ctx key (GoValue.model model fields) w).1 =
          (false, if awserrCode e = some ErrCodeConditionalCheckFailedException then none else some e,
            GoValue.model stamped fields) := by
  refine ⟨(model.stamp (repository.recordMetrics ctx OpCommit key w).2).1, ?_, ?_, ?_, ?_, ?_⟩
  · simp [Model.stamp_fst]
  · simp [Model.stamp_fst, Repository.recordMetrics, timeNow]
  · simp [Model.stamp_fst, Repository.recordMetrics, timeNow, Nat.add_assoc]
  · intro h
    have hv : (model.stamp (repository.recordMetrics ctx OpCommit key w).2).1.Version =
        model.Version := by
      injection h with hm
      rw [hm]
    simp [Model.stamp_fst] at hv
  · intro e he
    have hput : repository.dynamoClient.run (DriverCall.PutRun
        (((repository.table key.TableName).Put
          (GoValue.model (model.stamp (repository.recordMetrics ctx OpCommit key w).2).1
            fields)).If
          "attribute_not_exists(Version) OR Version = ?" [GoValue.int model.Version])) =
        some e := he
    simp only [Repository.OptimisticLockSaveWithContext, Exit.runDeferred_fst,
      Repository.optimisticLockSaveBody, conditionalPut, dynamo.Put.Run, hput, conditionalResult]
    split_ifs <;> rfl

/-- C29 at concrete inputs: the fresh model item (version 0) saved on `userKey` against a
driver that rejects the condition gives `(false, nil)` and an item with version 1 and the new
timestamps; against a driver that fails with a plain error it gives that error and the same
item. -/
theorem OptimisticLockSave_keeps_stamp_on_failure_witness :
    ((repoReplying (some (GoError.awsErr ErrCodeConditionalCheckFailedException "rejected")))
      |>.OptimisticLockSaveWithContext ctx0 userKey modelItem world0).1 =
      (false, none,
        GoValue.model { Version := 1, CreatedAt := 1001, UpdatedAt := 1002 }
          [("UUID", GoValue.str "uuid")]) ∧
    ((repoReplying (some (GoError.errorsNew "timeout")))
      |>.OptimisticLockSaveWithContext ctx0 userKey modelItem world0).1 =
      (false, some (GoError.errorsNew "timeout"),
        GoValue.model { Version := 1, CreatedAt := 1001, UpdatedAt := 1002 }
          [("UUID", GoValue.str "uuid")]) := by
  constructor
  · obtain ⟨stamped, hv, hc, hu, -, hres⟩ := OptimisticLockSave_keeps_stamp_on_failure
      (repoReplying (some (GoError.awsErr ErrCodeConditionalCheckFailedException "rejected")))
      ctx0 userKey { Version := 0, CreatedAt := 0, UpdatedAt := 0 }
      [("UUID", GoValue.str "uuid")] world0
    have hs : stamped = { Version := 1, CreatedAt := 1001, UpdatedAt := 1002 } := by
      cases stamped
      simp_all [world0]
    rw [← hs]
    exact hres _ rfl
  · obtain ⟨stamped, hv, hc, hu, -, hres⟩ := OptimisticLockSave_keeps_stamp_on_failure
      (repoReplying (some (GoError.errorsNew "timeout")))
      ctx0 userKey { Version := 0, CreatedAt := 0, UpdatedAt := 0 }
      [("UUID", GoValue.str "uuid")] world0
    have hs : stamped = { Version := 1, CreatedAt := 1001, UpdatedAt := 1002 } := by
      cases stamped
      simp_all [world0]
    rw [← hs]
    exact hres _ rfl

/-! ### C30: `DeleteItemsWithContext` with keys of several tables -/

/-- The batch handle by names, field by field. -/
theorem Repository.batchByNames_eq (repository : Repository) (key : Key) :
    repository.batchByNames key =
      { table := key.TableName, hashKey := deref key.HashKeyName, rangeKey := key.RangeKeyName } := by
  unfold Repository.batchByNames
  cases h : key.RangeKeyName <;> simp [dynamo.Table.Batch, Repository.table, deref]

/-- C30: for every non-empty list of individually valid keys, whatever tables and hash key
names the keys after the first one name, `DeleteItemsWithContext` issues exactly one driver
call, the batched delete of all the keys against the table, the hash key name and the range
key name of the first key, and returns the driver answer to it; so it returns
`ErrInvalidBatchRequest` only if the driver answers with it. -/
theorem DeleteItems_mixed_tables (repository : Repository) (ctx : Context) (key0 : Key)
    (rest : List Key) (w : World) (hvalid : ∀ k ∈ key0 :: rest, isValidKey k = none) :
    driverCalls (repository.DeleteItemsWithContext ctx (key0 :: rest) w).2.trace =
      driverCalls w.trace ++
        [DriverCall.BatchWriteDelete
          { table := key0.TableName, hashKey := deref key0.HashKeyName,
            rangeKey := key0.RangeKeyName } (key0 :: rest)] ∧
    (repository.DeleteItemsWithContext ctx (key0 :: rest) w).1 =
      repository.dynamoClient.run
        (DriverCall.BatchWriteDelete
          { table := key0.TableName, hashKey := deref key0.HashKeyName,
            rangeKey := key0.RangeKeyName } (key0 :: rest)) ∧
    (repository.dynamoClient.run
        (DriverCall.BatchWriteDelete
          { table := key0.TableName, hashKey := deref key0.HashKeyName,
            rangeKey := key0.RangeKeyName } (key0 :: rest)) ≠
        some GoError.ErrInvalidBatchRequest →
      (repository.DeleteItemsWithContext ctx (key0 :: rest) w).1 ≠
        some GoError.ErrInvalidBatchRequest) := by
  have hfirst := firstInvalid_none (key0 :: rest) hvalid
  have hres : (repository.DeleteItemsWithContext ctx (key0 :: rest) w).1 =
      repository.dynamoClient.run
        (DriverCall.BatchWriteDelete
          { table := key0.TableName, hashKey := deref key0.HashKeyName,
            rangeKey := key0.RangeKeyName } (key0 :: rest)) := by
    simp only [Repository.DeleteItemsWithContext, Exit.runDeferred_fst,
      Repository.deleteItemsBody, hfirst, Repository.batchByNames_eq]
    cases hrun : repository.dynamoClient.run
        (DriverCall.BatchWriteDelete
          { table := key0.TableName, hashKey := deref key0.HashKeyName,
            rangeKey := key0.RangeKeyName } (key0 :: rest)) <;>
      simp [dynamo.Batch.WriteDeleteRun, hrun]
  refine ⟨?_, hres, fun hne => by rw [hres]; exact hne⟩
  unfold Repository.DeleteItemsWithContext
  rw [Repository.recordMultipleMetrics_exit_driverCalls]
  simp only [Repository.deleteItemsBody, hfirst, Repository.batchByNames_eq]
  cases hrun : repository.dynamoClient.run
      (DriverCall.BatchWriteDelete
        { table := key0.TableName, hashKey := deref key0.HashKeyName,
          rangeKey := key0.RangeKeyName } (key0 :: rest)) <;>
    simp [dynamo.Batch.WriteDeleteRun, hrun, World.emit, driverCalls_append, driverCalls,
      Repository.recordMultipleMetrics, timeNow]

/-- C30 at concrete inputs: a key on `UserTable` followed by a key on `ProfileTable` is deleted
in one batch against `UserTable` with hash key name `UUID`, and nil is returned; the same
list is rejected by `BatchGetItemsWithContext` with `ErrInvalidBatchRequest`. -/
theorem DeleteItems_mixed_tables_witness :
    driverCalls ((repoReplying none).DeleteItemsWithContext ctx0 [userKey, profileKey]
      world0).2.trace =
      [DriverCall.BatchWriteDelete { table := "UserTable", hashKey := "UUID", rangeKey := none }
        [userKey, profileKey]] ∧
    ((repoReplying none).DeleteItemsWithContext ctx0 [userKey, profileKey] world0).1 = none ∧
    ((repoReplying none).BatchGetItemsWithContext ctx0 [userKey, profileKey] emptyDest
      world0).1.2.1 = some GoError.ErrInvalidBatchRequest :=
  have hvalid : ∀ k ∈ [userKey, profileKey], isValidKey k = none := by
    intro k hk
    rcases List.mem_cons.mp hk with h | h
    · rw [h]
      decide
    · rw [List.mem_singleton.mp h]
      decide
  ⟨(DeleteItems_mixed_tables (repoReplying none) ctx0 userKey [profileKey] world0 hvalid).1,
    (DeleteItems_mixed_tables (repoReplying none) ctx0 userKey [profileKey] world0 hvalid).2.1,
    rfl⟩

end Djoemo
